import Mathlib

/-!
# asic: single-frame capture for ASI cameras

A shallow embedding of the core of `src/asic.c` and `src/lib/asi_util.c`:

* the pixel encoding model (`calc_buf_size`, `bits_per_sample`,
  `samples_per_pixel`, `is_color`),
* the batch parser `split_pvs` with the C library routines it uses,
* the image writers `write_tiff` and `write_fit`,
* the exposure state machine `capture`.

C `int` is 32 bit and `long` 64 bit; values are `Int` with explicit wrap-around
where an operation can leave the range.  The vendor library, libtiff, cfitsio
and the allocator are an explicit environment: a transition system whose
answers the program consumes and whose calls are recorded in a trace.
-/

namespace Asic

/-! ## Machine integers and error numbers -/

/-- Largest value of a C `int`. -/
def INT_MAX : Int := 2147483647

/-- Two's complement reduction to a 32 bit `int`. -/
def wrap_int (x : Int) : Int := (x + 2147483648) % 4294967296 - 2147483648

/-- Reduction to an `int8_t`. -/
def wrap_int8 (x : Int) : Int := (x + 128) % 256 - 128

/-- Reduction to a `uint16_t`. -/
def wrap_uint16 (x : Int) : Int := x % 65536

/-- Reduction to an `unsigned int`. -/
def wrap_uint (x : Int) : Int := x % 4294967296

/-- Division of C `int`s: truncation towards zero. -/
def c_div (a b : Int) : Int := Int.tdiv a b

def EPERM : Int := 1
def EINVAL : Int := 22
def ECANCELED : Int := 125

/-! ## Vendor enumerations

`ASICamera2.h` belongs to the vendor SDK.  `ASI_IMG_TYPE` is numbered as the
table `IMG_TYPE[] = {"RAW8", "RGB24", "RAW16", "Y8"}` of `asic.c`, which the
program indexes with it (`.o_img_type = 0, /* RAW8 */`). -/

def ASI_IMG_RAW8 : Int := 0
def ASI_IMG_RGB24 : Int := 1
def ASI_IMG_RAW16 : Int := 2
def ASI_IMG_Y8 : Int := 3

/-- The exposure statuses `ASI_EXPOSURE_STATUS` of the vendor header, in its
order (see `ASI_EXP_STATUS_MSG`): idle, working, success, failed. -/
def ASI_EXP_IDLE : Int := 0
def ASI_EXP_WORKING : Int := 1
def ASI_EXP_SUCCESS : Int := 2
def ASI_EXP_FAILED : Int := 3

def ASI_ERROR_TIMEOUT : Int := 11

/-! ## Pixel encoding model (`asi_util.c`) -/

/-- Function `calc_buf_size`, `asi_util.c` 141-164.  The products are formed
in `int` and only the result is widened to `long`; where a product leaves the
range of `int`, which C leaves undefined, it wraps as on the two's complement
machines the program runs on. -/
def calc_buf_size (width height asi_img_type : Int) : Int :=
  if asi_img_type = ASI_IMG_RAW8 then wrap_int (width * height)
  else if asi_img_type = ASI_IMG_RAW16 then wrap_int (wrap_int (width * height) * 2)
  else if asi_img_type = ASI_IMG_RGB24 then wrap_int (wrap_int (width * height) * 3)
  else if asi_img_type = ASI_IMG_Y8 then wrap_int (width * height)
  else -1

/-- Function `bits_per_sample`, `asi_util.c` 166-186. -/
def bits_per_sample (asi_img_type : Int) : Int :=
  if asi_img_type = ASI_IMG_RAW8 then 8
  else if asi_img_type = ASI_IMG_RAW16 then 16
  else if asi_img_type = ASI_IMG_RGB24 then 24
  else if asi_img_type = ASI_IMG_Y8 then 8
  else -1

/-- Function `samples_per_pixel`, `asi_util.c` 188-208. -/
def samples_per_pixel (asi_img_type : Int) : Int :=
  if asi_img_type = ASI_IMG_RAW8 then 1
  else if asi_img_type = ASI_IMG_RAW16 then 1
  else if asi_img_type = ASI_IMG_RGB24 then 3
  else if asi_img_type = ASI_IMG_Y8 then 1
  else -1

/-- Function `is_color`, `asi_util.c` 210-231. -/
def is_color (asi_img_type : Int) : Bool :=
  if asi_img_type = ASI_IMG_RAW8 then false
  else if asi_img_type = ASI_IMG_RAW16 then false
  else if asi_img_type = ASI_IMG_RGB24 then true
  else if asi_img_type = ASI_IMG_Y8 then false
  else false

/-- The table of the specification: bytes per pixel 1, 2, 3, 1 for RAW8, RAW16,
RGB24, Y8. -/
def bytes_per_pixel_spec (asi_img_type : Int) : Int :=
  if asi_img_type = ASI_IMG_RAW8 then 1
  else if asi_img_type = ASI_IMG_RAW16 then 2
  else if asi_img_type = ASI_IMG_RGB24 then 3
  else 1

/-! ## C strings

A C string is the list of its characters up to the terminating NUL, which is
not part of the list. -/

/-- Membership of a character in a delimiter set, as `strspn`/`strcspn` test
it inside `strtok`. -/
def in_set (set : List Char) (c : Char) : Bool := set.contains c

/-- One call of `strtok`: `s` is the text at the save pointer.  Leading
delimiters are skipped; if nothing is left the result is NULL, otherwise the
token runs up to the next delimiter, which is overwritten with NUL, and the
save pointer moves behind it. -/
def strtok (s delim : List Char) : Option (List Char × List Char) :=
  match s.dropWhile (in_set delim) with
  | [] => none
  | c :: cs =>
    some ((c :: cs).takeWhile (fun x => !in_set delim x),
          ((c :: cs).dropWhile (fun x => !in_set delim x)).drop 1)

/-- Whether `needle` stands at the start of `s`. -/
def starts_with : List Char → List Char → Bool
  | _, [] => true
  | [], _ :: _ => false
  | c :: cs, n :: ns => c == n && starts_with cs ns

/-- Function `strstr`: the text from the first occurrence of `needle` on, or
NULL. -/
def strstr : List Char → List Char → Option (List Char)
  | [], needle => if needle = [] then some [] else none
  | c :: cs, needle =>
    if starts_with (c :: cs) needle then some (c :: cs) else strstr cs needle

/-- Call `strncpy(dst, src, n)` into a zeroed array of `cap` bytes, for
`n ≤ strlen(src)`: the string then held by `dst`.  With `n < cap` a NUL of
the zeroed array follows the copied bytes; with `n ≥ cap` the copy fills or
overruns the array and no string results (`none`). -/
def strncpy_zeroed (cap : Nat) (src : List Char) (n : Nat) : Option (List Char) :=
  if n < cap then some (src.take n) else none

/-! ## Batch parser (`asic.c` 80-88, 572-600) -/

def MAX_PV_LENGTH : Nat := 64

/-- Record `struct param_val`: two arrays of `MAX_PV_LENGTH + 1` bytes, each read as a
C string. -/
structure param_val where
  param : List Char
  val : List Char
deriving DecidableEq

/-- Record `struct params_vals`: `N` is a `uint8_t`, `pv` is NULL (`none`) or a heap
array. -/
structure params_vals where
  N : Nat
  pv : Option (List param_val)
deriving DecidableEq

/-- What a run of a C function amounts to. -/
inductive Outcome (α : Type) where
  /-- the function returned -/
  | returns (a : α)
  /-- an array was overrun: C leaves the behaviour undefined -/
  | overrun
  /-- the loop budget of the model ran out -/
  | out_of_fuel
deriving DecidableEq

/-- Call `realloc(pv, n * sizeof(struct param_val))` when it succeeds: the first
elements are kept, new ones are zero-filled right after by the caller. -/
def realloc_pv (pv : Option (List param_val)) (n : Nat) : List param_val :=
  (pv.getD []).take n ++ List.replicate (n - (pv.getD []).length) ⟨[], []⟩

/-- The `while (token != NULL)` loop of `split_pvs`, lines 581-597.
`token` is the result of the last `strtok` together with the save pointer;
`realloc_ok n` tells whether a `realloc` to `n` elements succeeds. -/
def split_pvs_loop (realloc_ok : Nat → Bool) :
    Nat → Option (List Char × List Char) → params_vals → Outcome (Int × params_vals)
  | 0, _, _ => .out_of_fuel
  | _ + 1, none, pvs => .returns (0, pvs)
  | fuel + 1, some (token, save), pvs =>
    match strstr token ['='] with
    | none => .returns (-EINVAL, pvs)
    | some p =>
      if realloc_ok (pvs.N + 1) = false then .returns (-EINVAL, { pvs with pv := none })
      else
        match strncpy_zeroed (MAX_PV_LENGTH + 1) token (token.length - p.length),
              strncpy_zeroed (MAX_PV_LENGTH + 1) (p.drop 1) (p.length - 1) with
        | some param, some val =>
          split_pvs_loop realloc_ok fuel (strtok save [',', ' '])
            { N := (pvs.N + 1) % 256,
              pv := some ((realloc_pv pvs.pv (pvs.N + 1)).set pvs.N ⟨param, val⟩) }
        | _, _ => .overrun

/-- Function `split_pvs`, lines 572-600.  `pvs = none` is the NULL pointer. -/
def split_pvs (realloc_ok : Nat → Bool) (str : List Char) (pvs : Option params_vals) :
    Outcome (Int × Option params_vals) :=
  match pvs with
  | none => .returns (-EINVAL, none)
  | some pvs =>
    match split_pvs_loop realloc_ok (str.length + 1) (strtok str [',', ' ']) pvs with
    | .returns (rc, pvs') => .returns (rc, some pvs')
    | .overrun => .overrun
    | .out_of_fuel => .out_of_fuel

/-- The empty result `{.N = 0, .pv = NULL}` that `main` passes. -/
def pvs_empty : params_vals := { N := 0, pv := none }

/-- The assignments a `params_vals` holds: its first `N` elements. -/
def assignments (pvs : params_vals) : List (List Char × List Char) :=
  ((pvs.pv.getD []).take pvs.N).map (fun e => (e.param, e.val))

/-- Tokens of a batch as the specification has them: the maximal runs of
characters other than comma and space. -/
def tokens_spec (str : List Char) : List (List Char) :=
  (str.splitOnP (fun c => c == ',' || c == ' ')).filter (fun t => !t.isEmpty)

/-- Text of a token before its first `=`. -/
def name_spec (t : List Char) : List Char := t.takeWhile (fun c => c != '=')

/-- Text of a token after its first `=`. -/
def value_spec (t : List Char) : List Char := (t.dropWhile (fun c => c != '=')).drop 1

/-! ## The environment

Vendor library, allocator, clock, libtiff and cfitsio are one deterministic
transition system.  Every call the program makes is recorded with its reply.
Diagnostics (`C_DEBUG`, `C_MESSAGE`, `C_WARN`, `C_ERROR`) and `usleep` leave no
trace here; the error report a run of `capture` ends with is its `Exit`. -/

/-- A `double`, passed through by the program and never computed with. -/
structure c_double where
  bits : Nat
deriving DecidableEq

/-- A `float`, given by the `double` it was narrowed from. -/
structure c_float where
  narrowed : c_double
deriving DecidableEq

/-- Values handed to the encoders. -/
inductive Val where
  | int (n : Int)
  | text (s : List Char)
  | real (x : c_double)
  | single (x : c_float)
deriving DecidableEq

/-- Calls into the environment, with the arguments the program passes.  For
cfitsio the last argument is the value of `status` on entry. -/
inductive Call where
  | ASISetROIFormat (id width height bin img_type : Int)
  | ASIGetROIFormat (id : Int)
  | ASIGetCameraProperty (id : Int)
  | ASIStartExposure (id : Int) (is_dark : Bool)
  | ASIGetExpStatus (id : Int)
  | ASIGetDataAfterExp (id size : Int)
  | ASIStopExposure (id : Int)
  | calloc (nmemb size : Int)
  | free
  | time_utc
  | time_local
  | TIFFOpen (name : List Char)
  | TIFFSetField (tag : String) (v : Val)
  | TIFFCheckpointDirectory
  | TIFFSetDirectory (n : Int)
  | TIFFCreateEXIFDirectory
  | TIFFWriteCustomDirectory
  | TIFFWriteDirectory
  | TIFFWriteScanline (offset row : Int)
  | TIFFClose
  | fits_create_file (name : List Char) (status : Int)
  | fits_create_img (bitpix naxis naxes0 naxes1 status : Int)
  | fits_write_img (datatype firstelem nelem status : Int)
  | fits_update_key (datatype : Int) (key : String) (v : Val) (comment : String) (status : Int)
  | fits_write_comment (text : List Char) (status : Int)
  | fits_close_file (status : Int)
  | ASIGetControlValue (id ctrl_type : Int)
  | ASISetControlValue (id ctrl_type value : Int) (auto : Bool)
deriving DecidableEq

/-- What a call hands back.  `rc` is the return value, for cfitsio the status
written back; `ptr` tells whether a returned pointer is non-NULL; the other
fields are out-parameters of the call they are named after. -/
structure Reply where
  rc : Int := 0
  ptr : Bool := true
  width : Int := 0
  height : Int := 0
  bin : Int := 0
  img_type : Int := 0
  status : Int := 0
  pixel_size : c_double := ⟨0⟩
  text : List Char := []
  offset : Int := 0
  value : Int := 0
deriving DecidableEq

/-- The environment: state `σ`, one reply and one successor state per call. -/
abbrev Env (σ : Type) := σ → Call → Reply × σ

/-- State of the environment and the calls made so far, oldest first. -/
structure World (σ : Type) where
  env : σ
  trace : List (Call × Reply)
deriving DecidableEq

/-- Make one call. -/
def call {σ : Type} (E : Env σ) (w : World σ) (c : Call) : Reply × World σ :=
  ((E w.env c).1, { env := (E w.env c).2, trace := w.trace ++ [(c, (E w.env c).1)] })

/-- Number of recorded calls that satisfy `p`. -/
def ncalls {σ : Type} (p : Call → Bool) (w : World σ) : Nat :=
  w.trace.countP (fun e => p e.1)

def Call.is_start : Call → Bool
  | .ASIStartExposure _ _ => true
  | _ => false

def Call.is_stop : Call → Bool
  | .ASIStopExposure _ => true
  | _ => false

def Call.is_status : Call → Bool
  | .ASIGetExpStatus _ => true
  | _ => false

def Call.is_fetch : Call → Bool
  | .ASIGetDataAfterExp _ _ => true
  | _ => false

/-- Calls into libtiff or cfitsio. -/
def Call.is_encoder : Call → Bool
  | .TIFFOpen _ => true
  | .TIFFSetField _ _ => true
  | .TIFFCheckpointDirectory => true
  | .TIFFSetDirectory _ => true
  | .TIFFCreateEXIFDirectory => true
  | .TIFFWriteCustomDirectory => true
  | .TIFFWriteDirectory => true
  | .TIFFWriteScanline _ _ => true
  | .TIFFClose => true
  | .fits_create_file _ _ => true
  | .fits_create_img _ _ _ _ _ => true
  | .fits_write_img _ _ _ _ => true
  | .fits_update_key _ _ _ _ _ => true
  | .fits_write_comment _ _ => true
  | .fits_close_file _ => true
  | _ => false

def Call.is_calloc : Call → Bool
  | .calloc _ _ => true
  | _ => false

/-- A `calloc` that returned a buffer is on record. -/
def buffer_allocated {σ : Type} (w : World σ) : Bool :=
  w.trace.any (fun e => e.1.is_calloc && e.2.ptr)

/-- A `calloc` that returned NULL is on record. -/
def allocation_failed {σ : Type} (w : World σ) : Bool :=
  w.trace.any (fun e => e.1.is_calloc && !e.2.ptr)

/-- The last call on record satisfies `p`. -/
def last_call {σ : Type} (p : Call → Bool) (w : World σ) : Bool :=
  match w.trace.getLast? with
  | some e => p e.1
  | none => false

/-- From `w` to `w'` the record grew by calls in `S` only. -/
def Extends {σ : Type} (S : Call → Bool) (w w' : World σ) : Prop :=
  ∃ ext : List (Call × Reply), w'.trace = w.trace ++ ext ∧ ∀ e ∈ ext, S e.1 = true

/-- Calls made by lines 607-678 of `capture`. -/
def Call.is_setup : Call → Bool
  | .ASISetROIFormat _ _ _ _ _ => true
  | .ASIGetROIFormat _ => true
  | .calloc _ _ => true
  | .ASIGetCameraProperty _ => true
  | .time_utc => true
  | _ => false

/-- Calls made by the writers. -/
def Call.is_writer : Call → Bool
  | .time_local => true
  | c => c.is_encoder

/-- Calls made by the exposure loop. -/
def Call.is_loop (c : Call) : Bool := c.is_start || c.is_status

/-! ## Program state (`asic.c` 67-137) -/

def TYPE_UNKNOWN : Int := 0
def TYPE_FIT : Int := 1
def TYPE_TIF : Int := 2

/-- The fields of `struct options` that `capture` and the writers read. -/
structure options where
  o_cam_id : Int
  o_width : Int
  o_height : Int
  o_binning : Int
  o_img_type : Int
  o_filename : List Char
  o_exposure : c_double
deriving DecidableEq

/-- Record `struct fit_head_s`. -/
structure fit_head_s where
  date_obs : List Char
  exp_time : c_double
  x_binning : Int
  y_binning : Int
  pix_size1 : c_float
  pix_size2 : c_float
deriving DecidableEq

/-- Value of `PACKAGE_VERSION` without `config.h`. -/
def PACKAGE_VERSION : String := "NA"

/-! ## Image writers (`asic.c` 330-489)

Both writers read the file-scope `opt`, written `gopt` here. -/

/-- Constants of `fitsio.h`. -/
def BYTE_IMG : Int := 8
def USHORT_IMG : Int := 20
def TBYTE : Int := 11
def TSTRING : Int := 16
def TUINT : Int := 30
def TFLOAT : Int := 42
def TDOUBLE : Int := 82

/-- Lines 380-403 of `write_fit`: six keys and two comments, all on one
`status` that starts at 0 and is handed from call to call.  The result is the
`status` tested at line 405. -/
def write_fit_head {σ : Type} (E : Env σ) (w : World σ) (fit_head : fit_head_s) : Int × World σ :=
  let r1 := call E w (.fits_update_key TSTRING "DATE-OBS" (.text fit_head.date_obs)
    "UTC of exposure start" 0)
  let r2 := call E r1.2 (.fits_update_key TDOUBLE "EXPTIME" (.real fit_head.exp_time)
    "Exposure time (seconds)" r1.1.rc)
  let r3 := call E r2.2 (.fits_update_key TUINT "XBINNING" (.int fit_head.x_binning)
    "Binning factor in width" r2.1.rc)
  let r4 := call E r3.2 (.fits_update_key TUINT "YBINNING" (.int fit_head.y_binning)
    "Binning factor in height" r3.1.rc)
  let r5 := call E r4.2 (.fits_update_key TFLOAT "PIXSIZE1" (.single fit_head.pix_size1)
    "Pixel Size 1 (microns)" r4.1.rc)
  let r6 := call E r5.2 (.fits_update_key TFLOAT "PIXSIZE2" (.single fit_head.pix_size1)
    "Pixel Size 2 (microns)" r5.1.rc)
  let r7 := call E r6.2 (.fits_write_comment
    (("Generated by asic version " ++ PACKAGE_VERSION).toList.take 63) r6.1.rc)
  let r8 := call E r7.2 (.fits_write_comment "See: https://github.com/tstibor/asic".toList r7.1.rc)
  (r8.1.rc, r8.2)

/-- The `cleanup:` part of `write_fit`, lines 408-419, entered with `rc`. -/
def write_fit_cleanup {σ : Type} (E : Env σ) (w : World σ) (rc : Int) : Int × World σ :=
  let r := call E w (.fits_close_file 0)
  if r.1.rc ≠ 0 then (-EPERM, r.2) else (rc, r.2)

/-- Lines 356-419 of `write_fit`, after `bitpix` has been chosen. -/
def write_fit_body {σ : Type} (E : Env σ) (gopt : options) (w : World σ)
    (fit_head : fit_head_s) (bitpix : Int) : Int × World σ :=
  let naxes0 := gopt.o_width
  let naxes1 := gopt.o_height
  let size := naxes0 * naxes1
  let r1 := call E w (.fits_create_file gopt.o_filename 0)
  if r1.1.rc ≠ 0 then (-EPERM, r1.2)
  else
    let r2 := call E r1.2 (.fits_create_img bitpix 2 naxes0 naxes1 0)
    if r2.1.rc ≠ 0 then write_fit_cleanup E r2.2 (-EPERM)
    else
      let r3 := call E r2.2
        (.fits_write_img (if bitpix = BYTE_IMG then TBYTE else USHORT_IMG) 1 size 0)
      if r3.1.rc ≠ 0 then write_fit_cleanup E r3.2 (-EPERM)
      else
        let r4 := write_fit_head E r3.2 fit_head
        write_fit_cleanup E r4.2 0

/-- Function `write_fit`, lines 330-420.  `naxes` and `size` are `long`, whose range the
product of two `int`s cannot leave. -/
def write_fit {σ : Type} (E : Env σ) (gopt : options) (w : World σ)
    (fit_head : fit_head_s) : Int × World σ :=
  if gopt.o_img_type = ASI_IMG_RAW8 then write_fit_body E gopt w fit_head BYTE_IMG
  else if gopt.o_img_type = ASI_IMG_RAW16 then write_fit_body E gopt w fit_head USHORT_IMG
  else (-EINVAL, w)

/-- Function `set_tiff_fields`, lines 422-457.  Every return value is ignored but the
directory offset that `TIFFWriteCustomDirectory` stores. -/
def set_tiff_fields {σ : Type} (E : Env σ) (gopt : options) (w : World σ)
    (bps spp : Int) : World σ :=
  let t := call E w .time_local
  let w := (call E t.2 (.TIFFSetField "TIFFTAG_DATETIME" (.text (t.1.text.take 23)))).2
  let w := (call E w (.TIFFSetField "TIFFTAG_IMAGEWIDTH" (.int gopt.o_width))).2
  let w := (call E w (.TIFFSetField "TIFFTAG_IMAGELENGTH" (.int gopt.o_height))).2
  let w := (call E w (.TIFFSetField "TIFFTAG_BITSPERSAMPLE" (.int bps))).2
  let w := (call E w (.TIFFSetField "TIFFTAG_SAMPLESPERPIXEL" (.int spp))).2
  let w := (call E w (.TIFFSetField "TIFFTAG_COMPRESSION" (.text "COMPRESSION_NONE".toList))).2
  let w := (call E w (.TIFFSetField "TIFFTAG_PLANARCONFIG" (.text "PLANARCONFIG_CONTIG".toList))).2
  let w := (call E w (.TIFFSetField "TIFFTAG_PHOTOMETRIC"
    (.text (if is_color gopt.o_img_type then "PHOTOMETRIC_RGB".toList
            else "PHOTOMETRIC_MINISBLACK".toList)))).2
  let w := (call E w (.TIFFSetField "TIFFTAG_EXIFIFD" (.int 0))).2
  let w := (call E w .TIFFCheckpointDirectory).2
  let w := (call E w (.TIFFSetDirectory 0)).2
  let w := (call E w .TIFFCreateEXIFDirectory).2
  let w := (call E w (.TIFFSetField "EXIFTAG_EXPOSURETIME" (.real gopt.o_exposure))).2
  let d := call E w .TIFFWriteCustomDirectory
  let w := (call E d.2 (.TIFFSetDirectory 0)).2
  let w := (call E w (.TIFFSetField "TIFFTAG_EXIFIFD" (.int d.1.offset))).2
  let w := (call E w .TIFFCheckpointDirectory).2
  let w := (call E w .TIFFWriteDirectory).2
  (call E w (.TIFFSetDirectory 0)).2

/-- The row loop of `write_tiff`, lines 471-478: `n` bounds the rows still to
come, `y` is the loop counter and `rc` the value left by the last pass.  The
first argument of `TIFFWriteScanline` is recorded as the byte offset
`y * factor` from `img_buf`, an `int` product. -/
def write_rows {σ : Type} (E : Env σ) (gopt : options) (factor : Int) :
    Nat → Int → Int → World σ → Int × World σ
  | 0, _, rc, w => (rc, w)
  | n + 1, y, rc, w =>
    if y < gopt.o_height then
      let r := call E w (.TIFFWriteScanline (wrap_int (y * factor)) y)
      if r.1.rc = -1 then (-ECANCELED, r.2)
      else write_rows E gopt factor n (y + 1) r.1.rc r.2
    else (rc, w)

/-- Function `write_tiff`, lines 459-489. -/
def write_tiff {σ : Type} (E : Env σ) (gopt : options) (w : World σ)
    (bps spp : Int) : Int × World σ :=
  let o := call E w (.TIFFOpen gopt.o_filename)
  if o.1.ptr = false then (-ECANCELED, o.2)
  else
    let w := set_tiff_fields E gopt o.2 bps spp
    let factor := wrap_uint16 (c_div (wrap_int (gopt.o_width * bits_per_sample gopt.o_img_type)) 8)
    let rows := write_rows E gopt factor gopt.o_height.toNat 0 0 w
    let w := (call E rows.2 .TIFFClose).2
    if rows.1 = -ECANCELED then (-ECANCELED, w) else (0, w)

/-! ## `capture` (`asic.c` 602-746) -/

/-- The way a run of `capture` ends: the error it reports, or the exposure
having succeeded. -/
inductive Exit where
  /-- line 611, `ASISetROIFormat` failed -/
  | set_roi_error (rc : Int)
  /-- line 620, `ASIGetROIFormat` failed -/
  | get_roi_error (rc : Int)
  /-- line 626 -/
  | buf_size_error
  /-- line 633 -/
  | bits_per_sample_error
  /-- line 640 -/
  | samples_per_pixel_error
  /-- line 646, AllocationError -/
  | calloc_error
  /-- line 684, `ASIStartExposure` failed -/
  | start_exposure_error (rc : Int)
  /-- line 693, `ASIGetExpStatus` failed -/
  | exp_status_error (rc : Int)
  /-- line 704, ExposureExhausted -/
  | exposure_exhausted
  /-- line 712, InvalidState -/
  | invalid_state
  /-- line 720, FetchError -/
  | get_data_error (rc : Int)
  /-- Success: pixel data fetched and handed to a writer, which returned `rc` -/
  | success (rc : Int)
  /-- line 734: pixel data fetched, no writer for `img_outtype` -/
  | unknown_image_type
deriving DecidableEq

/-- Locals of `capture` when the exposure loop is entered. -/
structure Frame where
  opt : options
  size : Int
  bps : Int
  spp : Int
  fit_head : fit_head_s
deriving DecidableEq

/-- Lines 607-678: geometry negotiation, buffer sizing and allocation, header
record.  `opt` is the by-value parameter of `capture`, which
`ASIGetROIFormat` overwrites with the geometry read back. -/
def capture_setup {σ : Type} (E : Env σ) (w : World σ) (opt : options) :
    (Exit × World σ) ⊕ (Frame × World σ) :=
  let r1 := call E w (.ASISetROIFormat opt.o_cam_id opt.o_width opt.o_height opt.o_binning
    opt.o_img_type)
  if r1.1.rc ≠ 0 then .inl (.set_roi_error r1.1.rc, r1.2)
  else
    let r2 := call E r1.2 (.ASIGetROIFormat opt.o_cam_id)
    let opt := { opt with o_width := r2.1.width, o_height := r2.1.height,
                          o_binning := r2.1.bin, o_img_type := r2.1.img_type }
    if r2.1.rc ≠ 0 then .inl (.get_roi_error r2.1.rc, r2.2)
    else
      let size := calc_buf_size opt.o_width opt.o_height opt.o_img_type
      if size < 0 then .inl (.buf_size_error, r2.2)
      else
        let bps := wrap_int8 (bits_per_sample opt.o_img_type)
        if bps < 0 then .inl (.bits_per_sample_error, r2.2)
        else
          let spp := wrap_int8 (samples_per_pixel opt.o_img_type)
          if bps < 0 then .inl (.samples_per_pixel_error, r2.2)
          else
            let r3 := call E r2.2 (.calloc size 1)
            if r3.1.ptr = false then .inl (.calloc_error, r3.2)
            else
              let r4 := call E r3.2 (.ASIGetCameraProperty opt.o_cam_id)
              let r5 := call E r4.2 .time_utc
              .inr ({ opt := opt, size := size, bps := bps, spp := spp,
                      fit_head := { date_obs := r5.1.text.take 31,
                                    exp_time := opt.o_exposure,
                                    x_binning := wrap_uint opt.o_binning,
                                    y_binning := wrap_uint opt.o_binning,
                                    pix_size1 := ⟨r4.1.pixel_size⟩,
                                    pix_size2 := ⟨r4.1.pixel_size⟩ } }, r5.2)

/-- The status loop, lines 688-696, entered with the current `status`.
`.inl rc` is the jump to `cleanup` of line 694, `.inr status` the status with
which the loop is left. -/
def poll_status {σ : Type} (E : Env σ) (id : Int) :
    Nat → World σ → Int → Option ((Int ⊕ Int) × World σ)
  | 0, _, _ => none
  | fuel + 1, w, status =>
    if status = ASI_EXP_WORKING then
      let r := call E w (.ASIGetExpStatus id)
      if r.1.rc ≠ 0 then some (.inl r.1.rc, r.2)
      else poll_status E id fuel r.2 r.1.status
    else some (.inr status, w)

/-- The `while (1)` loop, lines 680-715, with `max_attempt = 3`; `status` and
`cur_attempt` (a `uint8_t`) are carried from pass to pass.  The result is
`none` on `break` and the report on a jump to `cleanup`. -/
def exposure_loop {σ : Type} (E : Env σ) (id : Int) :
    Nat → World σ → Int → Nat → Option (Option Exit × World σ)
  | 0, _, _, _ => none
  | fuel + 1, w, status, cur_attempt =>
    let r := call E w (.ASIStartExposure id false)
    if r.1.rc ≠ 0 then some (some (.start_exposure_error r.1.rc), r.2)
    else
      match poll_status E id fuel r.2 status with
      | none => none
      | some (.inl rc, w) => some (some (.exp_status_error rc), w)
      | some (.inr status, w) =>
        if status = ASI_EXP_SUCCESS then some (none, w)
        else if status = ASI_EXP_FAILED then
          if cur_attempt = 3 then some (some .exposure_exhausted, w)
          else exposure_loop E id fuel w status ((cur_attempt + 1) % 256)
        else some (some .invalid_state, w)

/-- The `cleanup:` part of `capture`, lines 736-745. -/
def capture_cleanup {σ : Type} (E : Env σ) (id : Int) (w : World σ) : World σ :=
  (call E (call E w .free).2 (.ASIStopExposure id)).2

/-- Lines 717-734: fetch the pixel data and hand them to the writer that the
file-scope `img_outtype` selects. -/
def capture_store {σ : Type} (E : Env σ) (gopt : options) (img_outtype : Int)
    (fr : Frame) (w : World σ) : Exit × World σ :=
  let r := call E w (.ASIGetDataAfterExp fr.opt.o_cam_id fr.size)
  if r.1.rc ≠ 0 then (.get_data_error r.1.rc, r.2)
  else if img_outtype = TYPE_TIF then
    let t := write_tiff E gopt r.2 fr.bps fr.spp
    (.success t.1, t.2)
  else if img_outtype = TYPE_FIT then
    let f := write_fit E gopt r.2 fr.fit_head
    (.success f.1, f.2)
  else (.unknown_image_type, r.2)

/-- Function `capture`, lines 602-746.  `gopt` and `img_outtype` are the file-scope
variables, `opt` is the parameter; `fuel` bounds the passes of the loops and
`none` means that it ran out. -/
def capture {σ : Type} (E : Env σ) (gopt : options) (img_outtype : Int) (fuel : Nat)
    (w : World σ) (opt : options) : Option (Exit × World σ) :=
  match capture_setup E w opt with
  | .inl early => some early
  | .inr (fr, w) =>
    match exposure_loop E fr.opt.o_cam_id fuel w ASI_EXP_WORKING 1 with
    | none => none
    | some (some report, w) => some (report, capture_cleanup E fr.opt.o_cam_id w)
    | some (none, w) =>
      let s := capture_store E gopt img_outtype fr w
      some (s.1, capture_cleanup E fr.opt.o_cam_id s.2)

/-- The call `capture(opt)` of `main`, line 877: the parameter is a copy of the
file-scope `opt`. -/
def main_capture {σ : Type} (E : Env σ) (gopt : options) (img_outtype : Int) (fuel : Nat)
    (w : World σ) : Option (Exit × World σ) :=
  capture E gopt img_outtype fuel w gopt

/-! ## Facade behaviours -/

/-- Starting in state `s`, the status reads Working `k` times and then reads
the returned status, which is not Working, every read succeeding.  `none` if
the facade behaves otherwise. -/
def leaves_working {σ : Type} (E : Env σ) (id : Int) : Nat → σ → Option Int
  | 0, s =>
    if (E s (.ASIGetExpStatus id)).1.rc = 0 ∧ (E s (.ASIGetExpStatus id)).1.status ≠ ASI_EXP_WORKING
    then some (E s (.ASIGetExpStatus id)).1.status else none
  | k + 1, s =>
    if (E s (.ASIGetExpStatus id)).1.rc = 0 ∧ (E s (.ASIGetExpStatus id)).1.status = ASI_EXP_WORKING
    then leaves_working E id k (E s (.ASIGetExpStatus id)).2 else none

/-- Starting in state `s`, one of the first `k + 1` status reads fails or reads
a status other than Working. -/
def poll_ends {σ : Type} (E : Env σ) (id : Int) : Nat → σ → Bool
  | 0, s =>
    decide ((E s (.ASIGetExpStatus id)).1.rc ≠ 0) ||
      decide ((E s (.ASIGetExpStatus id)).1.status ≠ ASI_EXP_WORKING)
  | k + 1, s =>
    decide ((E s (.ASIGetExpStatus id)).1.rc ≠ 0) ||
      decide ((E s (.ASIGetExpStatus id)).1.status ≠ ASI_EXP_WORKING) ||
      poll_ends E id k (E s (.ASIGetExpStatus id)).2

/-- State of a simulated facade: the geometry it reads back, whether `calloc`
returns a buffer, the exposure statuses it reports in turn and the status it
reports once these are used up. -/
structure Sim where
  width : Int
  height : Int
  bin : Int
  img_type : Int
  calloc_ok : Bool
  statuses : List Int
  last_status : Int
deriving DecidableEq

/-- A simulated facade: every call succeeds. -/
def sim : Env Sim := fun s c =>
  match c with
  | .ASIGetROIFormat _ =>
    ({ width := s.width, height := s.height, bin := s.bin, img_type := s.img_type }, s)
  | .calloc _ _ => ({ ptr := s.calloc_ok }, s)
  | .ASIGetExpStatus _ =>
    match s.statuses with
    | [] => ({ status := s.last_status }, s)
    | st :: rest => ({ status := st }, { s with statuses := rest })
  | .TIFFWriteScanline _ _ => ({ rc := 1 }, s)
  | _ => ({}, s)

/-- Options of a 4 x 3 RAW16 capture into "frame.tif". -/
def opt_4x3 : options :=
  { o_cam_id := 0, o_width := 4, o_height := 3, o_binning := 1, o_img_type := ASI_IMG_RAW16,
    o_filename := "frame.tif".toList, o_exposure := ⟨0⟩ }

/-- A facade that grants the 4 x 3 RAW16 geometry and reports the given
statuses, then `last_status`. -/
def sim_4x3 (statuses : List Int) (last_status : Int) : Sim :=
  { width := 4, height := 3, bin := 1, img_type := ASI_IMG_RAW16, calloc_ok := true,
    statuses := statuses, last_status := last_status }

/-- A token with `=` whose two sides fit their arrays. -/
def well_formed (t : List Char) : Prop :=
  '=' ∈ t ∧ (name_spec t).length ≤ 64 ∧ (value_spec t).length ≤ 64

/-- Calls that carry a size or a geometry. -/
def Call.is_sizing : Call → Bool
  | .calloc _ _ => true
  | .ASIGetDataAfterExp _ _ => true
  | .TIFFSetField tag _ => tag == "TIFFTAG_IMAGEWIDTH" || tag == "TIFFTAG_IMAGELENGTH"
  | .TIFFWriteScanline _ _ => true
  | .fits_create_img _ _ _ _ _ => true
  | .fits_write_img _ _ _ _ => true
  | _ => false

/-- Options of an 8 x 6 RAW16 capture. -/
def opt_8x6 : options := { opt_4x3 with o_width := 8, o_height := 6 }

/-! ## Simulated encoders and call classes for the writers -/

def Call.is_close : Call → Bool
  | .fits_close_file _ => true
  | _ => false

/-- The write steps of `write_fit` before the header: create file, create
image, write pixels. -/
def Call.is_fits_step : Call → Bool
  | .fits_create_file _ _ => true
  | .fits_create_img _ _ _ _ _ => true
  | .fits_write_img _ _ _ _ => true
  | _ => false

def Call.is_create_file : Call → Bool
  | .fits_create_file _ _ => true
  | _ => false

/-- The header writes of `write_fit`: key updates and comments. -/
def Call.is_fits_head : Call → Bool
  | .fits_update_key _ _ _ _ _ => true
  | .fits_write_comment _ _ => true
  | _ => false

def Call.is_scanline : Call → Bool
  | .TIFFWriteScanline _ _ => true
  | _ => false

/-- Key and value of a key update, text of a comment. -/
def Call.header_entry : Call → Option (String × Val)
  | .fits_update_key _ key v _ _ => some (key, v)
  | .fits_write_comment text _ => some ("COMMENT", .text text)
  | _ => none

/-- State of a simulated cfitsio: the status `fits_create_file` reports, the
key whose update fails and the status it then reports. -/
structure SimFits where
  create_status : Int
  bad_key : String
  key_status : Int
deriving DecidableEq

/-- A simulated cfitsio.  As in the library, a call entered with a non-zero
`status` does nothing and hands that status back. -/
def sim_fits : Env SimFits := fun s c =>
  match c with
  | .fits_create_file _ _ => ({ rc := s.create_status }, s)
  | .fits_update_key _ key _ _ status =>
    if status ≠ 0 then ({ rc := status }, s)
    else if key = s.bad_key then ({ rc := s.key_status }, s)
    else ({}, s)
  | .fits_write_comment _ status => ({ rc := status }, s)
  | _ => ({}, s)

/-- A header record whose two pixel sizes differ. -/
def fit_head_sample : fit_head_s :=
  { date_obs := "2017-06-01T22:10:05".toList, exp_time := ⟨5⟩, x_binning := 2, y_binning := 2,
    pix_size1 := ⟨⟨1⟩⟩, pix_size2 := ⟨⟨2⟩⟩ }

/-- Row length in bytes as the specification has it:
`width * bits_per_sample(format) / 8`. -/
def row_length_spec (width asi_img_type : Int) : Int :=
  width * bits_per_sample asi_img_type / 8

/-- Options of a RAW8 capture 65536 pixels wide and 2 rows high. -/
def opt_wide : options :=
  { opt_4x3 with o_width := 65536, o_height := 2, o_img_type := ASI_IMG_RAW8 }

/-! ## Character classes and name matching (`asi_util.h` 35-37)

The program never calls `setlocale`: the classes are those of the "C"
locale. -/

/-- Function `tolower`: the letters `A` to `Z` go to `a` to `z`, every other
character stays. -/
def tolower (c : Char) : Char :=
  if 'A' ≤ c ∧ c ≤ 'Z' then Char.ofNat (c.toNat + ('a'.toNat - 'A'.toNat)) else c

/-- Function `isspace`: space, and tab to carriage return. -/
def isspace (c : Char) : Bool :=
  c == ' ' || (decide (9 ≤ c.toNat) && decide (c.toNat ≤ 13))

/-- Function `isdigit`. -/
def isdigit (c : Char) : Bool :=
  decide ('0' ≤ c) && decide (c ≤ '9')

/-- Whether `strncmp(s1, s2, n)` is 0: the two strings agree up to their end
or up to `n` characters. -/
def strncmp_eq (s1 s2 : List Char) (n : Nat) : Bool :=
  s1.take n == s2.take n

/-- Macro `STRNCMP`: equal lengths, and `strncmp` over the length of the first
string gives 0. -/
def STRNCMP (str1 str2 : List Char) : Bool :=
  (str1.length == str2.length) && strncmp_eq str1 str2 str1.length

/-! ## Control names (`asi_util.c` 96-139) -/

/-- The enumerators of the vendor's `ASI_CONTROL_TYPE` that the program names.
The numbers behind them are in the vendor header; the program receives them as
the function `code`. -/
inductive ASI_CONTROL_TYPE where
  | ASI_GAIN
  | ASI_EXPOSURE
  | ASI_GAMMA
  | ASI_FLIP
  | ASI_HIGH_SPEED_MODE
  | ASI_OVERCLOCK
  | ASI_BRIGHTNESS
  | ASI_BANDWIDTHOVERLOAD
  | ASI_TEMPERATURE
  | ASI_AUTO_MAX_GAIN
  | ASI_AUTO_MAX_EXP
  | ASI_AUTO_MAX_BRIGHTNESS
  | ASI_FAN_ON
  | ASI_HARDWARE_BIN
  | ASI_COOLER_ON
  | ASI_TARGET_TEMP
deriving DecidableEq

/-- Function `lookup_ctrl_type`.  `param = none` is the NULL pointer; the text
is turned to lower case in place, so the result carries the text as the
function leaves it. -/
def lookup_ctrl_type (code : ASI_CONTROL_TYPE → Int) (param : Option (List Char)) :
    Int × Option (List Char) :=
  match param with
  | none => (-EINVAL, none)
  | some p =>
    let param := p.map tolower
    (if STRNCMP param "gain".toList then code .ASI_GAIN
     else if STRNCMP param "exposure".toList then code .ASI_EXPOSURE
     else if STRNCMP param "gamma".toList then code .ASI_GAMMA
     else if STRNCMP param "flip".toList then code .ASI_FLIP
     else if STRNCMP param "highspeedmode".toList then code .ASI_HIGH_SPEED_MODE
     else if STRNCMP param "overclock".toList then code .ASI_OVERCLOCK
     else if STRNCMP param "brightness".toList then code .ASI_BRIGHTNESS
     else if STRNCMP param "bandwidthoverload".toList then code .ASI_BANDWIDTHOVERLOAD
     else if STRNCMP param "temperature".toList then code .ASI_TEMPERATURE
     else if STRNCMP param "automaxgain".toList then code .ASI_AUTO_MAX_GAIN
     else if STRNCMP param "automaxexp".toList then code .ASI_AUTO_MAX_EXP
     else if STRNCMP param "automaxbrightness".toList then code .ASI_AUTO_MAX_BRIGHTNESS
     else if STRNCMP param "fanon".toList then code .ASI_FAN_ON
     else if STRNCMP param "hardwarebin".toList then code .ASI_HARDWARE_BIN
     else if STRNCMP param "cooleron".toList then code .ASI_COOLER_ON
     else if STRNCMP param "targettemp".toList then code .ASI_TARGET_TEMP
     else -EINVAL, some param)

/-- The vocabulary of `lookup_ctrl_type`: sixteen names, each with its control
identifier. -/
def vocabulary : List (List Char × ASI_CONTROL_TYPE) :=
  [("gain".toList, .ASI_GAIN), ("exposure".toList, .ASI_EXPOSURE),
   ("gamma".toList, .ASI_GAMMA), ("flip".toList, .ASI_FLIP),
   ("highspeedmode".toList, .ASI_HIGH_SPEED_MODE), ("overclock".toList, .ASI_OVERCLOCK),
   ("brightness".toList, .ASI_BRIGHTNESS),
   ("bandwidthoverload".toList, .ASI_BANDWIDTHOVERLOAD),
   ("temperature".toList, .ASI_TEMPERATURE), ("automaxgain".toList, .ASI_AUTO_MAX_GAIN),
   ("automaxexp".toList, .ASI_AUTO_MAX_EXP),
   ("automaxbrightness".toList, .ASI_AUTO_MAX_BRIGHTNESS), ("fanon".toList, .ASI_FAN_ON),
   ("hardwarebin".toList, .ASI_HARDWARE_BIN), ("cooleron".toList, .ASI_COOLER_ON),
   ("targettemp".toList, .ASI_TARGET_TEMP)]

/-- Lower case form of a text. -/
def lowercase_spec (t : List Char) : List Char := t.map Char.toLower

/-- The numbering of the sixteen controls in the vendor header
`ASICamera2.h`. -/
def vendor_code : ASI_CONTROL_TYPE → Int
  | .ASI_GAIN => 0
  | .ASI_EXPOSURE => 1
  | .ASI_GAMMA => 2
  | .ASI_BRIGHTNESS => 5
  | .ASI_BANDWIDTHOVERLOAD => 6
  | .ASI_OVERCLOCK => 7
  | .ASI_TEMPERATURE => 8
  | .ASI_FLIP => 9
  | .ASI_AUTO_MAX_GAIN => 10
  | .ASI_AUTO_MAX_EXP => 11
  | .ASI_AUTO_MAX_BRIGHTNESS => 12
  | .ASI_HARDWARE_BIN => 13
  | .ASI_HIGH_SPEED_MODE => 14
  | .ASI_TARGET_TEMP => 16
  | .ASI_COOLER_ON => 17
  | .ASI_FAN_ON => 19

/-! ## Output type from the file name (`asic.c` 181-202, 293-297) -/

/-- Function `rindex`: the offset of the last occurrence of `c`, or NULL. -/
def rindex : List Char → Char → Option Nat
  | [], _ => none
  | x :: xs, c =>
    match rindex xs c with
    | some i => some (i + 1)
    | none => if x = c then some 0 else none

/-- Function `set_img_outtype`.  The result is the value left in the
file-scope `img_outtype` and the file name as the function leaves it, the
characters behind the last `.` being turned to lower case in place. -/
def set_img_outtype (filename : Option (List Char)) : Int × Option (List Char) :=
  match filename with
  | none => (TYPE_UNKNOWN, none)
  | some f =>
    match rindex f '.' with
    | none => (TYPE_UNKNOWN, some f)
    | some s =>
      if (f.drop s).length < 4 then (TYPE_UNKNOWN, some f)
      else
        let f := f.take (s + 1) ++ (f.drop (s + 1)).map tolower
        (if STRNCMP (f.drop (s + 1)) "tif".toList || STRNCMP (f.drop (s + 1)) "tiff".toList
          then TYPE_TIF
         else if STRNCMP (f.drop (s + 1)) "fit".toList
            || STRNCMP (f.drop (s + 1)) "fits".toList
          then TYPE_FIT
         else TYPE_UNKNOWN, some f)

def PATH_MAX : Nat := 4096

/-- Case `'f'` of `parseopts`, lines 293-297: the argument is copied to
`opt.o_filename`, at most `PATH_MAX` characters of it, and
`set_img_outtype` works on that copy.  The result is `opt` and
`img_outtype` afterwards. -/
def parseopts_f (gopt : options) (optarg : List Char) : options × Int :=
  match set_img_outtype (some (optarg.take PATH_MAX)) with
  | (t, some f) => ({ gopt with o_filename := f }, t)
  | (t, none) => (gopt, t)

/-! ## Applying the assignments (`asic.c` 819-853) -/

def LONG_MAX : Int := 9223372036854775807
def LONG_MIN : Int := -9223372036854775808

/-- The number a run of digits stands for, read digit by digit. -/
def digits_value (ds : List Char) : Nat :=
  ds.foldl (fun n c => 10 * n + (c.toNat - '0'.toNat)) 0

/-- The conversion of `strtol(s, NULL, 10)` behind white space: an optional
sign and the digits that follow, the result kept within `long`. -/
def strtol_signed (s : List Char) : Int :=
  match s with
  | '-' :: r => max LONG_MIN (-(digits_value (r.takeWhile isdigit) : Int))
  | '+' :: r => min LONG_MAX (digits_value (r.takeWhile isdigit))
  | r => min LONG_MAX (digits_value (r.takeWhile isdigit))

/-- Function `atol`, that is `strtol(s, NULL, 10)`. -/
def atol (s : List Char) : Int := strtol_signed (s.dropWhile isspace)

/-- One pass of the loop of lines 826-852 for the assignment `pv`.  The result
is `.inl rc` for the jump to `cleanup` of line 842 and `.inr rc` with the
return value of `ASISetControlValue` otherwise.  The `fprintf` to `stdout`
is left out. -/
def apply_pv {σ : Type} (E : Env σ) (code : ASI_CONTROL_TYPE → Int) (cam_id : Int)
    (w : World σ) (pv : param_val) : (Int ⊕ Int) × World σ :=
  let ctrl_type := (lookup_ctrl_type code (some pv.param)).1
  if pv.val.length = 4 ∧ strncmp_eq "auto".toList pv.val 4 = true then
    let g := call E w (.ASIGetControlValue cam_id ctrl_type)
    if g.1.rc ≠ 0 then (.inl g.1.rc, g.2)
    else
      let s := call E g.2 (.ASISetControlValue cam_id ctrl_type g.1.value true)
      (.inr s.1.rc, s.2)
  else
    let s := call E w (.ASISetControlValue cam_id ctrl_type (atol pv.val) false)
    (.inr s.1.rc, s.2)

/-- The loop of lines 826-852 over the assignments still to apply.  The result
tells whether the loop ran to its end (`true`) or jumped to `cleanup`. -/
def apply_pvs {σ : Type} (E : Env σ) (code : ASI_CONTROL_TYPE → Int) (cam_id : Int) :
    List param_val → World σ → Bool × World σ
  | [], w => (true, w)
  | pv :: rest, w =>
    match apply_pv E code cam_id w pv with
    | (.inl _, w) => (false, w)
    | (.inr _, w) => apply_pvs E code cam_id rest w

/-- Lines 819-853 of `main`: with a non-empty `opt.o_set` the batch is parsed
into the empty file-scope `pvs` and its `N` assignments are applied in turn.
`none`: `split_pvs` has no defined result. -/
def main_set {σ : Type} (E : Env σ) (code : ASI_CONTROL_TYPE → Int) (realloc_ok : Nat → Bool)
    (cam_id : Int) (o_set : List Char) (w : World σ) : Option (Bool × World σ) :=
  if o_set.length = 0 then some (true, w)
  else
    match split_pvs realloc_ok o_set (some pvs_empty) with
    | .returns (rc, some pvs) =>
      if rc ≠ 0 then some (false, w)
      else some (apply_pvs E code cam_id ((pvs.pv.getD []).take pvs.N) w)
    | _ => none

/-- A signed decimal integer: an optional sign and at least one digit, nothing
else. -/
def is_signed_decimal (s : List Char) : Bool :=
  match s with
  | '-' :: r => !r.isEmpty && r.all Char.isDigit
  | '+' :: r => !r.isEmpty && r.all Char.isDigit
  | r => !r.isEmpty && r.all Char.isDigit

/-- The integer a signed decimal stands for. -/
def decimal_value_spec (s : List Char) : Int :=
  match s with
  | '-' :: r => -((Nat.ofDigits 10 (r.reverse.map (fun c => c.toNat - 48)) : Nat) : Int)
  | '+' :: r => ((Nat.ofDigits 10 (r.reverse.map (fun c => c.toNat - 48)) : Nat) : Int)
  | r => ((Nat.ofDigits 10 (r.reverse.map (fun c => c.toNat - 48)) : Nat) : Int)

/-- State of a simulated control channel: the return value of
`ASIGetControlValue` and the value it reads. -/
structure SimCtrl where
  get_rc : Int
  value : Int
deriving DecidableEq

/-- A simulated control channel: every write succeeds. -/
def sim_ctrl : Env SimCtrl := fun s c =>
  match c with
  | .ASIGetControlValue _ _ => ({ rc := s.get_rc, value := s.value }, s)
  | _ => ({}, s)

/-- The output kind the specification assigns to a lower-case suffix. -/
def outtype_spec (suffix : List Char) : Int :=
  if suffix = "tif".toList ∨ suffix = "tiff".toList then TYPE_TIF
  else if suffix = "fit".toList ∨ suffix = "fits".toList then TYPE_FIT
  else TYPE_UNKNOWN

/-- An if-chain of `STRNCMP` tests over a table of names. -/
def name_chain (code : ASI_CONTROL_TYPE → Int) (param : List Char) :
    List (List Char × ASI_CONTROL_TYPE) → Int
  | [] => -EINVAL
  | (name, c) :: rest => if STRNCMP param name then code c else name_chain code param rest

def Call.is_set_control : Call → Bool
  | .ASISetControlValue _ _ _ _ => true
  | _ => false

def Call.is_get_control : Call → Bool
  | .ASIGetControlValue _ _ => true
  | _ => false

/-! ## The header record and the bytes of a scanline -/

/-- The tags of the current TIFF directory that fix the size of a scanline,
with the defaults of libtiff. -/
structure TiffTags where
  width : Int := 0
  bps : Int := 1
  spp : Int := 1
deriving DecidableEq

/-- The tags after a call: `TIFFSetField` on the image width, the bits per
sample or the samples per pixel stores its value, no other call changes these
three tags. -/
def TiffTags.set (t : TiffTags) (c : Call) : TiffTags :=
  match c with
  | .TIFFSetField tag (.int n) =>
    if tag = "TIFFTAG_IMAGEWIDTH" then { t with width := n }
    else if tag = "TIFFTAG_BITSPERSAMPLE" then { t with bps := n }
    else if tag = "TIFFTAG_SAMPLESPERPIXEL" then { t with spp := n }
    else t
  | _ => t

/-- Function `TIFFScanlineSize` of libtiff for contiguous, uncompressed
samples: `width * spp` samples of `bps` bits each, in whole bytes. -/
def TIFFScanlineSize (t : TiffTags) : Int := (t.width * t.spp * t.bps + 7) / 8

/-- The bytes the recorded calls take from the image buffer, as offset and
length: `TIFFWriteScanline` copies one scanline, `TIFFScanlineSize` bytes with
the tags then in force, from the address it is given. -/
def bytes_read : TiffTags → List Call → List (Int × Int)
  | _, [] => []
  | t, c :: cs =>
    match c with
    | .TIFFWriteScanline off _ => (off, TIFFScanlineSize t) :: bytes_read t cs
    | _ => bytes_read (t.set c) cs

/-- The ranges, in their order, tile the bytes from `start` up to `size`: each
is non-empty and begins where the one before it ended, and the last ends at
`size`. -/
def tiles_from (start : Int) : List (Int × Int) → Int → Bool
  | [], size => start == size
  | (off, len) :: rs, size => off == start && decide (0 < len) && tiles_from (start + len) rs size

/-- A facade that grants a 4 x 3 RGB24 geometry. -/
def sim_rgb : Sim := { sim_4x3 [ASI_EXP_SUCCESS] ASI_EXP_SUCCESS with img_type := ASI_IMG_RGB24 }

/-- Options of a 4 x 3 RGB24 capture into "frame.tif". -/
def opt_rgb : options := { opt_4x3 with o_img_type := ASI_IMG_RGB24 }

/-! ## Pixel encoding model: theorems -/

theorem wrap_int_of_range (x : Int) (h0 : 0 ≤ x) (h1 : x ≤ INT_MAX) : wrap_int x = x := by
  unfold wrap_int
  unfold INT_MAX at h1
  omega

/-- C7 (as amended): for each of the four pixel formats and all positive width
and height whose byte count `width * height * bytes_per_pixel` does not exceed
`INT_MAX`, `calc_buf_size` returns exactly that byte count. -/
theorem calc_buf_size_exact (width height t : Int) (hw : 0 < width) (hh : 0 < height)
    (ht : t = ASI_IMG_RAW8 ∨ t = ASI_IMG_RAW16 ∨ t = ASI_IMG_RGB24 ∨ t = ASI_IMG_Y8)
    (hfit : width * height * bytes_per_pixel_spec t ≤ INT_MAX) :
    calc_buf_size width height t = width * height * bytes_per_pixel_spec t := by
  have hp : 0 < width * height := mul_pos hw hh
  rcases ht with rfl | rfl | rfl | rfl
  · have h : width * height ≤ INT_MAX := by
      simpa [bytes_per_pixel_spec] using hfit
    simp [calc_buf_size, bytes_per_pixel_spec, wrap_int_of_range _ hp.le h]
  · have h : width * height * 2 ≤ INT_MAX := by
      simpa [bytes_per_pixel_spec, ASI_IMG_RAW16, ASI_IMG_RAW8] using hfit
    have h1 : width * height ≤ INT_MAX := by omega
    have h2 : wrap_int (width * height) = width * height := wrap_int_of_range _ hp.le h1
    have h3 : wrap_int (width * height * 2) = width * height * 2 :=
      wrap_int_of_range _ (by omega) h
    simp [calc_buf_size, bytes_per_pixel_spec, ASI_IMG_RAW16, ASI_IMG_RAW8, h2, h3]
  · have h : width * height * 3 ≤ INT_MAX := by
      simpa [bytes_per_pixel_spec, ASI_IMG_RAW16, ASI_IMG_RAW8, ASI_IMG_RGB24] using hfit
    have h1 : width * height ≤ INT_MAX := by omega
    have h2 : wrap_int (width * height) = width * height := wrap_int_of_range _ hp.le h1
    have h3 : wrap_int (width * height * 3) = width * height * 3 :=
      wrap_int_of_range _ (by omega) h
    simp [calc_buf_size, bytes_per_pixel_spec, ASI_IMG_RAW16, ASI_IMG_RAW8, ASI_IMG_RGB24, h2, h3]
  · have h : width * height ≤ INT_MAX := by
      simpa [bytes_per_pixel_spec, ASI_IMG_RAW16, ASI_IMG_RAW8, ASI_IMG_RGB24, ASI_IMG_Y8]
        using hfit
    simp [calc_buf_size, bytes_per_pixel_spec, ASI_IMG_RAW16, ASI_IMG_RAW8, ASI_IMG_RGB24,
      ASI_IMG_Y8, wrap_int_of_range _ hp.le h]

/-- Witness for C7: a 640 x 480 RAW16 frame takes 614400 bytes. -/
theorem calc_buf_size_exact_witness :
    calc_buf_size 640 480 ASI_IMG_RAW16 = 640 * 480 * bytes_per_pixel_spec ASI_IMG_RAW16 :=
  calc_buf_size_exact 640 480 ASI_IMG_RAW16 (by decide) (by decide) (by decide) (by decide)

/-- Counterexample to C7 as stated: width and height 65536 are positive C
`int`s, yet the `int` product wraps and `calc_buf_size` returns 0 instead of
4294967296. -/
theorem calc_buf_size_wraps :
    calc_buf_size 65536 65536 ASI_IMG_RAW8 = 0 ∧
    calc_buf_size 65536 65536 ASI_IMG_RAW8
      ≠ 65536 * 65536 * bytes_per_pixel_spec ASI_IMG_RAW8 := by
  decide

/-- C8: `bits_per_sample` is 8, 16, 24, 8 and `samples_per_pixel` is 1, 1, 3, 1
for RAW8, RAW16, RGB24, Y8, and `is_color` is true for RGB24 and for no other
format value. -/
theorem format_descriptors_match_table :
    (bits_per_sample ASI_IMG_RAW8 = 8 ∧ bits_per_sample ASI_IMG_RAW16 = 16 ∧
      bits_per_sample ASI_IMG_RGB24 = 24 ∧ bits_per_sample ASI_IMG_Y8 = 8) ∧
    (samples_per_pixel ASI_IMG_RAW8 = 1 ∧ samples_per_pixel ASI_IMG_RAW16 = 1 ∧
      samples_per_pixel ASI_IMG_RGB24 = 3 ∧ samples_per_pixel ASI_IMG_Y8 = 1) ∧
    (∀ t : Int, is_color t = true ↔ t = ASI_IMG_RGB24) := by
  refine ⟨by decide, by decide, ?_⟩
  intro t
  unfold is_color
  split_ifs with h1 h2 h3 h4 <;> simp_all [ASI_IMG_RAW8, ASI_IMG_RAW16, ASI_IMG_RGB24, ASI_IMG_Y8]

/-! ## Batch parser: theorems -/

/-- A split at `p` starts with the run before the first `p`-element and goes on
behind that element. -/
theorem splitOnP_unfold {α : Type} (p : α → Bool) (xs : List α) :
    xs.splitOnP p = xs.takeWhile (fun x => !p x) ::
      (match xs.dropWhile (fun x => !p x) with
        | [] => []
        | _ :: r => r.splitOnP p) := by
  induction xs with
  | nil => simp
  | cons x xs ih =>
    rw [List.splitOnP_cons]
    by_cases hx : p x = true
    · simp [hx, List.takeWhile, List.dropWhile]
    · have hx' : p x = false := by simpa using hx
      rw [ih]
      simp [hx', List.takeWhile, List.dropWhile, List.modifyHead]

theorem in_set_delim (c : Char) : in_set [',', ' '] c = (c == ',' || c == ' ') := by
  cases h1 : (c == ',') <;> cases h2 : (c == ' ') <;>
    simp [in_set, List.contains, List.elem, h1, h2]

theorem tokens_spec_nil : tokens_spec [] = [] := by
  simp [tokens_spec]

theorem tokens_spec_delim (c : Char) (s : List Char) (hc : in_set [',', ' '] c = true) :
    tokens_spec (c :: s) = tokens_spec s := by
  rw [in_set_delim] at hc
  simp only [tokens_spec]
  rw [List.splitOnP_cons]
  simp [hc]

theorem tokens_spec_token (c : Char) (s : List Char) (hc : in_set [',', ' '] c = false) :
    tokens_spec (c :: s) = (c :: s).takeWhile (fun x => !in_set [',', ' '] x) ::
      tokens_spec (((c :: s).dropWhile (fun x => !in_set [',', ' '] x)).drop 1) := by
  have hfun : (fun x => !in_set [',', ' '] x) = (fun x => !(x == ',' || x == ' ')) := by
    funext x; rw [in_set_delim]
  rw [hfun]
  rw [in_set_delim] at hc
  simp only [tokens_spec]
  rw [splitOnP_unfold]
  have htw : List.takeWhile (fun x => !(x == ',' || x == ' ')) (c :: s)
      = c :: List.takeWhile (fun x => !(x == ',' || x == ' ')) s := by
    simp [List.takeWhile, hc]
  rw [htw]
  cases hd : List.dropWhile (fun x => !(x == ',' || x == ' ')) (c :: s) with
  | nil => simp
  | cons d r => simp

theorem strtok_none (s : List Char) (h : strtok s [',', ' '] = none) : tokens_spec s = [] := by
  induction s with
  | nil => exact tokens_spec_nil
  | cons c s ih =>
    by_cases hc : in_set [',', ' '] c = true
    · rw [tokens_spec_delim c s hc]
      apply ih
      simpa [strtok, List.dropWhile, hc] using h
    · have hc' : in_set [',', ' '] c = false := by simpa using hc
      simp [strtok, List.dropWhile, hc'] at h

theorem strtok_some (s t save : List Char) (h : strtok s [',', ' '] = some (t, save)) :
    tokens_spec s = t :: tokens_spec save ∧ save.length < s.length := by
  induction s with
  | nil => simp [strtok] at h
  | cons c s ih =>
    by_cases hc : in_set [',', ' '] c = true
    · rw [tokens_spec_delim c s hc]
      have h' : strtok s [',', ' '] = some (t, save) := by
        simpa [strtok, List.dropWhile, hc] using h
      have := ih h'
      exact ⟨this.1, by simp; omega⟩
    · have hc' : in_set [',', ' '] c = false := by simpa using hc
      rw [tokens_spec_token c s hc']
      have hdw : List.dropWhile (in_set [',', ' ']) (c :: s) = c :: s := by
        simp [List.dropWhile, hc']
      simp only [strtok, hdw, Option.some.injEq, Prod.mk.injEq] at h
      obtain ⟨rfl, rfl⟩ := h
      refine ⟨rfl, ?_⟩
      have h1 : (List.dropWhile (fun x => !in_set [',', ' '] x) (c :: s)).length
          ≤ (c :: s).length := by
        exact (List.dropWhile_sublist _).length_le
      have h2 : List.dropWhile (fun x => !in_set [',', ' '] x) (c :: s)
          = List.dropWhile (fun x => !in_set [',', ' '] x) s := by
        simp [List.dropWhile, hc']
      have h3 : (List.dropWhile (fun x => !in_set [',', ' '] x) s).length ≤ s.length :=
        (List.dropWhile_sublist _).length_le
      rw [h2]
      simp
      omega

theorem strstr_eq (t : List Char) :
    strstr t ['='] = if '=' ∈ t then some (t.dropWhile (fun c => c != '=')) else none := by
  induction t with
  | nil => simp [strstr]
  | cons c t ih =>
    by_cases hc : c = '='
    · subst hc
      simp [strstr, starts_with, List.dropWhile]
    · have hc' : ¬ ('=' = c) := fun h => hc h.symm
      have hne : (c != '=') = true := by simp [hc]
      simp [strstr, starts_with, List.dropWhile_cons, hc, ih, hc', hne]

theorem length_sub_dropWhile (t : List Char) (p : Char → Bool) :
    t.take (t.length - (t.dropWhile p).length) = t.takeWhile p := by
  induction t with
  | nil => simp
  | cons c t ih =>
    by_cases hc : p c = true
    · have hle : (t.dropWhile p).length ≤ t.length := (List.dropWhile_sublist _).length_le
      have : t.length + 1 - (List.dropWhile p t).length
          = (t.length - (List.dropWhile p t).length) + 1 := by
        omega
      simp [List.dropWhile_cons, List.takeWhile_cons, hc, this, ih]
    · have hc' : p c = false := by simpa using hc
      simp [List.dropWhile, List.takeWhile, hc']

theorem length_takeWhile_add (t : List Char) (p : Char → Bool) :
    t.length - (t.dropWhile p).length = (t.takeWhile p).length := by
  have := congrArg List.length (length_sub_dropWhile t p)
  rw [List.length_take] at this
  have hle : (t.dropWhile p).length ≤ t.length := (List.dropWhile_sublist _).length_le
  omega

theorem realloc_pv_set (pv : Option (List param_val)) (n : Nat) (e : param_val)
    (hlen : (pv.getD []).length = n) :
    (realloc_pv pv (n + 1)).set n e = pv.getD [] ++ [e] := by
  unfold realloc_pv
  have h1 : List.take (n + 1) (pv.getD []) = pv.getD [] :=
    List.take_of_length_le (by omega)
  have h2 : n + 1 - (pv.getD []).length = 1 := by omega
  rw [h1, h2]
  simp [List.set_append, hlen]

/-- One pass of the loop over a well-formed token. -/
theorem split_pvs_loop_step (realloc_ok : Nat → Bool)
    (fuel : Nat) (t save : List Char) (pvs : params_vals)
    (hr : realloc_ok (pvs.N + 1) = true) (ht : well_formed t)
    (hlen : (pvs.pv.getD []).length = pvs.N) (hN : pvs.N < 255) :
    split_pvs_loop realloc_ok (fuel + 1) (some (t, save)) pvs
      = split_pvs_loop realloc_ok fuel (strtok save [',', ' '])
          { N := pvs.N + 1,
            pv := some (pvs.pv.getD [] ++ [⟨name_spec t, value_spec t⟩]) } := by
  obtain ⟨heq, hname, hval⟩ := ht
  have h1 : strncpy_zeroed (MAX_PV_LENGTH + 1) t
      (t.length - (t.dropWhile (fun c => c != '=')).length) = some (name_spec t) := by
    unfold strncpy_zeroed
    rw [length_sub_dropWhile, length_takeWhile_add]
    unfold name_spec at hname ⊢
    simp [MAX_PV_LENGTH]
    omega
  have h2 : strncpy_zeroed (MAX_PV_LENGTH + 1) ((t.dropWhile (fun c => c != '=')).drop 1)
      ((t.dropWhile (fun c => c != '=')).length - 1) = some (value_spec t) := by
    unfold strncpy_zeroed
    unfold value_spec at hval ⊢
    have hl : (List.drop 1 (List.dropWhile (fun c => c != '=') t)).length
        = (List.dropWhile (fun c => c != '=') t).length - 1 := by simp
    have htake : List.take ((List.dropWhile (fun c => c != '=') t).length - 1)
        (List.drop 1 (List.dropWhile (fun c => c != '=') t))
          = List.drop 1 (List.dropWhile (fun c => c != '=') t) :=
      List.take_of_length_le (by omega)
    rw [htake]
    simp [MAX_PV_LENGTH]
    omega
  have hmod : (pvs.N + 1) % 256 = pvs.N + 1 := Nat.mod_eq_of_lt (by omega)
  rw [split_pvs_loop, strstr_eq]
  simp only [heq, if_true, hr, h1, h2, hmod, realloc_pv_set pvs.pv pvs.N _ hlen]
  simp

/-- The loop over a batch of well-formed tokens returns 0 and appends one
assignment per token, in order. -/
theorem split_pvs_loop_ok (realloc_ok : Nat → Bool) (hmem : ∀ n, realloc_ok n = true) :
    ∀ (fuel : Nat) (s : List Char) (pvs : params_vals),
      s.length < fuel →
      (∀ t ∈ tokens_spec s, well_formed t) →
      (pvs.pv.getD []).length = pvs.N →
      pvs.N + (tokens_spec s).length ≤ 255 →
      ∃ pvs', split_pvs_loop realloc_ok fuel (strtok s [',', ' ']) pvs = .returns (0, pvs') ∧
        pvs'.N = pvs.N + (tokens_spec s).length ∧
        pvs'.pv.getD [] = pvs.pv.getD [] ++
          (tokens_spec s).map (fun t => ⟨name_spec t, value_spec t⟩) := by
  intro fuel
  induction fuel with
  | zero => intro s pvs h; omega
  | succ fuel ih =>
    intro s pvs hfuel hwf hlen hN
    cases hs : strtok s [',', ' '] with
    | none =>
      have := strtok_none s hs
      exact ⟨pvs, by simp [split_pvs_loop], by simp [this], by simp [this]⟩
    | some ts =>
      obtain ⟨t, save⟩ := ts
      obtain ⟨htok, hlt⟩ := strtok_some s t save hs
      rw [htok] at hwf hN
      have ht : well_formed t := hwf t (by simp)
      simp only [List.length_cons] at hN
      rw [split_pvs_loop_step realloc_ok fuel t save pvs (hmem _) ht hlen (by omega)]
      obtain ⟨pvs', h1, h2, h3⟩ := ih save
        { N := pvs.N + 1, pv := some (pvs.pv.getD [] ++ [⟨name_spec t, value_spec t⟩]) }
        (by omega) (fun u hu => hwf u (by simp [hu])) (by simp [hlen]) (by simp; omega)
      refine ⟨pvs', h1, ?_, ?_⟩
      · rw [h2, htok]; simp; omega
      · rw [h3, htok]; simp

/-- The loop up to the first token without `=`: it returns `-EINVAL`, be it at
that token or at a `realloc` that fails before; if none fails, it has appended
the assignments of the tokens before that one. -/
theorem split_pvs_loop_malformed (realloc_ok : Nat → Bool)
    (bad : List Char) (rest : List (List Char)) (hbad : '=' ∉ bad) :
    ∀ (good : List (List Char)) (fuel : Nat) (s : List Char) (pvs : params_vals),
      s.length < fuel →
      tokens_spec s = good ++ bad :: rest →
      (∀ t ∈ good, well_formed t) →
      (pvs.pv.getD []).length = pvs.N →
      pvs.N + good.length ≤ 255 →
      ∃ pvs', split_pvs_loop realloc_ok fuel (strtok s [',', ' ']) pvs
          = .returns (-EINVAL, pvs') ∧
        ((∀ n, realloc_ok n = true) →
          pvs'.N = pvs.N + good.length ∧
          (pvs'.pv.getD []).take pvs'.N = pvs.pv.getD [] ++
            good.map (fun t => ⟨name_spec t, value_spec t⟩)) := by
  intro good
  induction good with
  | nil =>
    intro fuel s pvs hfuel htok _ hlen _
    obtain ⟨fuel, rfl⟩ : ∃ f, fuel = f + 1 := ⟨fuel - 1, by omega⟩
    cases hs : strtok s [',', ' '] with
    | none =>
      have := strtok_none s hs
      rw [this] at htok
      simp at htok
    | some ts =>
      obtain ⟨t, save⟩ := ts
      obtain ⟨htok', _⟩ := strtok_some s t save hs
      rw [htok'] at htok
      simp only [List.nil_append, List.cons.injEq] at htok
      obtain ⟨rfl, _⟩ := htok
      refine ⟨pvs, ?_, fun _ => ⟨by simp, ?_⟩⟩
      · rw [split_pvs_loop, strstr_eq]
        simp [hbad]
      · simp [← hlen]
  | cons g good ih =>
    intro fuel s pvs hfuel htok hwf hlen hN
    obtain ⟨fuel, rfl⟩ : ∃ f, fuel = f + 1 := ⟨fuel - 1, by omega⟩
    cases hs : strtok s [',', ' '] with
    | none =>
      have := strtok_none s hs
      rw [this] at htok
      simp at htok
    | some ts =>
      obtain ⟨t, save⟩ := ts
      obtain ⟨htok', hlt⟩ := strtok_some s t save hs
      rw [htok'] at htok
      simp only [List.cons_append, List.cons.injEq] at htok
      obtain ⟨rfl, hsave⟩ := htok
      simp only [List.length_cons] at hN
      by_cases hr : realloc_ok (pvs.N + 1) = true
      · rw [split_pvs_loop_step realloc_ok fuel t save pvs hr (hwf t (by simp)) hlen (by omega)]
        obtain ⟨pvs', h1, h2⟩ := ih fuel save
          { N := pvs.N + 1, pv := some (pvs.pv.getD [] ++ [⟨name_spec t, value_spec t⟩]) }
          (by omega) hsave (fun u hu => hwf u (by simp [hu])) (by simp [hlen]) (by simp; omega)
        refine ⟨pvs', h1, fun hmem => ?_⟩
        obtain ⟨h3, h4⟩ := h2 hmem
        refine ⟨?_, ?_⟩
        · rw [h3]; simp; omega
        · rw [h4]; simp
      · have hr' : realloc_ok (pvs.N + 1) = false := by simpa using hr
        refine ⟨{ pvs with pv := none }, ?_, fun hmem => ?_⟩
        · rw [split_pvs_loop, strstr_eq]
          simp [(hwf t (by simp)).1, hr']
        · rw [hmem] at hr'
          cases hr'

/-- C9: a batch whose tokens all contain `=`, with at most 255 tokens and at
most 64 characters on either side of the first `=`, is parsed successfully
(return value 0, memory being available): the result holds exactly one
assignment per token, in input order, the name being the text before the
token's first `=` and the value all the text after it. -/
theorem split_pvs_ok (realloc_ok : Nat → Bool) (str : List Char)
    (hmem : ∀ n, realloc_ok n = true)
    (heq : ∀ t ∈ tokens_spec str, '=' ∈ t)
    (hcount : (tokens_spec str).length ≤ 255)
    (hlen : ∀ t ∈ tokens_spec str,
      (name_spec t).length ≤ 64 ∧ (value_spec t).length ≤ 64) :
    ∃ pvs, split_pvs realloc_ok str (some pvs_empty) = .returns (0, some pvs) ∧
      pvs.N = (tokens_spec str).length ∧
      assignments pvs = (tokens_spec str).map (fun t => (name_spec t, value_spec t)) := by
  obtain ⟨pvs, h1, h2, h3⟩ := split_pvs_loop_ok realloc_ok hmem (str.length + 1) str pvs_empty
    (by omega) (fun t ht => ⟨heq t ht, hlen t ht⟩) (by simp [pvs_empty])
    (by simpa [pvs_empty] using hcount)
  refine ⟨pvs, ?_, by simpa [pvs_empty] using h2, ?_⟩
  · simp [split_pvs, h1]
  · have hN : pvs.N = (tokens_spec str).length := by simpa [pvs_empty] using h2
    simp only [pvs_empty, Option.getD_none, List.nil_append] at h3
    unfold assignments
    rw [h3, hN, List.take_of_length_le (by simp), List.map_map]
    rfl

/-- Witness for C9: "gain=50,exposure=auto" yields (gain, "50") then
(exposure, "auto"). -/
theorem split_pvs_ok_witness :
    ∃ pvs, split_pvs (fun _ => true) "gain=50,exposure=auto".toList (some pvs_empty)
        = .returns (0, some pvs) ∧
      pvs.N = 2 ∧
      assignments pvs = [("gain".toList, "50".toList), ("exposure".toList, "auto".toList)] :=
  split_pvs_ok (fun _ => true) "gain=50,exposure=auto".toList (fun _ => rfl)
    (by decide) (by decide) (by decide)

/-! ## Call records: bookkeeping -/

section Record
variable {σ : Type}

theorem call_trace (E : Env σ) (w : World σ) (c : Call) :
    (call E w c).2.trace = w.trace ++ [(c, (E w.env c).1)] := rfl

theorem call_env (E : Env σ) (w : World σ) (c : Call) :
    (call E w c).2.env = (E w.env c).2 := rfl

theorem call_reply (E : Env σ) (w : World σ) (c : Call) :
    (call E w c).1 = (E w.env c).1 := rfl

theorem ncalls_call (p : Call → Bool) (E : Env σ) (w : World σ) (c : Call) :
    ncalls p (call E w c).2 = ncalls p w + (if p c = true then 1 else 0) := by
  simp [ncalls, call, List.countP_append, List.countP_cons]

theorem Extends.refl (S : Call → Bool) (w : World σ) : Extends S w w :=
  ⟨[], by simp, by simp⟩

theorem Extends.trans {S : Call → Bool} {w w1 w2 : World σ}
    (h1 : Extends S w w1) (h2 : Extends S w1 w2) : Extends S w w2 := by
  obtain ⟨e1, ht1, hs1⟩ := h1
  obtain ⟨e2, ht2, hs2⟩ := h2
  refine ⟨e1 ++ e2, by rw [ht2, ht1, List.append_assoc], ?_⟩
  intro e he
  rcases List.mem_append.mp he with h | h
  · exact hs1 e h
  · exact hs2 e h

theorem Extends.then_call {S : Call → Bool} {w w1 : World σ} {E : Env σ} {c : Call}
    (h : Extends S w w1) (hc : S c = true) : Extends S w (call E w1 c).2 :=
  h.trans ⟨[(c, (E w1.env c).1)], rfl, by simp [hc]⟩

theorem Extends.widen {S S' : Call → Bool} {w w' : World σ} (h : Extends S w w')
    (hS : ∀ c, S c = true → S' c = true) : Extends S' w w' := by
  obtain ⟨e, ht, hs⟩ := h
  exact ⟨e, ht, fun x hx => hS _ (hs x hx)⟩

theorem Extends.ncalls_eq {S p : Call → Bool} {w w' : World σ} (h : Extends S w w')
    (hp : ∀ c, S c = true → p c = false) : ncalls p w' = ncalls p w := by
  obtain ⟨e, ht, hs⟩ := h
  unfold ncalls
  rw [ht, List.countP_append]
  have : List.countP (fun e => p e.1) e = 0 := by
    rw [List.countP_eq_zero]
    intro x hx
    simp [hp _ (hs x hx)]
  omega

theorem Extends.buffer_allocated_eq {S : Call → Bool} {w w' : World σ} (h : Extends S w w')
    (hS : ∀ c, S c = true → c.is_calloc = false) :
    buffer_allocated w' = buffer_allocated w := by
  obtain ⟨e, ht, hs⟩ := h
  unfold buffer_allocated
  rw [ht, List.any_append]
  have : e.any (fun e => e.1.is_calloc && e.2.ptr) = false := by
    rw [List.any_eq_false]
    intro x hx
    simp [hS _ (hs x hx)]
  simp [this]

/-! ## What each part of the program calls -/

theorem write_fit_head_calls (E : Env σ) (w : World σ) (fh : fit_head_s) :
    Extends Call.is_writer w (write_fit_head E w fh).2 := by
  unfold write_fit_head
  dsimp only
  repeat (first | (with_reducible exact Extends.refl _ _) | (with_reducible refine Extends.then_call ?_ (by with_unfolding_all rfl)))

theorem write_fit_cleanup_calls (E : Env σ) (w : World σ) (rc : Int) :
    Extends Call.is_writer w (write_fit_cleanup E w rc).2 := by
  unfold write_fit_cleanup
  dsimp only
  split_ifs <;> exact (Extends.refl _ _).then_call rfl

theorem write_fit_body_calls (E : Env σ) (gopt : options) (w : World σ) (fh : fit_head_s)
    (bitpix : Int) : Extends Call.is_writer w (write_fit_body E gopt w fh bitpix).2 := by
  unfold write_fit_body
  dsimp only
  split_ifs <;>
    repeat (first
      | (with_reducible exact Extends.refl _ _)
      | (with_reducible refine Extends.then_call ?_ (by with_unfolding_all rfl))
      | (with_reducible refine Extends.trans ?_ (write_fit_cleanup_calls _ _ _))
      | (with_reducible refine Extends.trans ?_ (write_fit_head_calls _ _ _)))

theorem write_fit_calls (E : Env σ) (gopt : options) (w : World σ) (fh : fit_head_s) :
    Extends Call.is_writer w (write_fit E gopt w fh).2 := by
  unfold write_fit
  split_ifs
  · exact write_fit_body_calls _ _ _ _ _
  · exact write_fit_body_calls _ _ _ _ _
  · exact Extends.refl _ _

theorem set_tiff_fields_calls (E : Env σ) (gopt : options) (w : World σ) (bps spp : Int) :
    Extends Call.is_writer w (set_tiff_fields E gopt w bps spp) := by
  unfold set_tiff_fields
  dsimp only
  repeat (first | (with_reducible exact Extends.refl _ _) | (with_reducible refine Extends.then_call ?_ (by with_unfolding_all rfl)))

theorem write_rows_calls (E : Env σ) (gopt : options) (factor : Int) :
    ∀ (n : Nat) (y rc : Int) (w : World σ),
      Extends Call.is_writer w (write_rows E gopt factor n y rc w).2 := by
  intro n
  induction n with
  | zero => intro y rc w; exact Extends.refl _ _
  | succ n ih =>
    intro y rc w
    unfold write_rows
    dsimp only
    split_ifs
    · exact (Extends.refl _ _).then_call rfl
    · exact ((Extends.refl _ _).then_call rfl).trans (ih _ _ _)
    · exact Extends.refl _ _

theorem write_tiff_calls (E : Env σ) (gopt : options) (w : World σ) (bps spp : Int) :
    Extends Call.is_writer w (write_tiff E gopt w bps spp).2 := by
  unfold write_tiff
  dsimp only
  split_ifs
  · exact (Extends.refl _ _).then_call rfl
  · exact (((((Extends.refl _ _).then_call rfl).trans (set_tiff_fields_calls _ _ _ _ _)).trans
      (write_rows_calls _ _ _ _ _ _ _)).then_call rfl)
  · exact (((((Extends.refl _ _).then_call rfl).trans (set_tiff_fields_calls _ _ _ _ _)).trans
      (write_rows_calls _ _ _ _ _ _ _)).then_call rfl)

theorem poll_status_calls (E : Env σ) (id : Int) :
    ∀ (fuel : Nat) (w : World σ) (status : Int) (r : Int ⊕ Int) (w' : World σ),
      poll_status E id fuel w status = some (r, w') → Extends Call.is_status w w' := by
  intro fuel
  induction fuel with
  | zero => intro w status r w' h; simp [poll_status] at h
  | succ fuel ih =>
    intro w status r w' h
    unfold poll_status at h
    dsimp only at h
    split_ifs at h with h1 h2
    · simp only [Option.some.injEq, Prod.mk.injEq] at h
      rw [← h.2]
      exact (Extends.refl _ _).then_call rfl
    · exact ((Extends.refl _ _).then_call rfl).trans (ih _ _ _ _ h)
    · simp only [Option.some.injEq, Prod.mk.injEq] at h
      rw [← h.2]
      exact Extends.refl _ _

theorem is_status_is_loop (c : Call) (h : c.is_status = true) : c.is_loop = true := by
  simp [Call.is_loop, h]

theorem exposure_loop_calls (E : Env σ) (id : Int) :
    ∀ (fuel : Nat) (w : World σ) (status : Int) (cur : Nat) (r : Option Exit) (w' : World σ),
      exposure_loop E id fuel w status cur = some (r, w') → Extends Call.is_loop w w' := by
  intro fuel
  induction fuel with
  | zero => intro w status cur r w' h; simp [exposure_loop] at h
  | succ fuel ih =>
    intro w status cur r w' h
    unfold exposure_loop at h
    dsimp only at h
    have hstart : Extends Call.is_loop w (call E w (.ASIStartExposure id false)).2 :=
      (Extends.refl _ _).then_call rfl
    by_cases h1 : (call E w (.ASIStartExposure id false)).1.rc ≠ 0
    · rw [if_pos h1] at h
      simp only [Option.some.injEq, Prod.mk.injEq] at h
      rw [← h.2]; exact hstart
    · rw [if_neg h1] at h
      cases hp : poll_status E id fuel (call E w (.ASIStartExposure id false)).2 status with
      | none => simp [hp] at h
      | some pr =>
        obtain ⟨res, w2⟩ := pr
        have hpoll : Extends Call.is_loop w w2 :=
          hstart.trans ((poll_status_calls E id _ _ _ _ _ hp).widen is_status_is_loop)
        rw [hp] at h
        cases res with
        | inl rc =>
          simp only [Option.some.injEq, Prod.mk.injEq] at h
          rw [← h.2]; exact hpoll
        | inr st =>
          dsimp only at h
          by_cases h2 : st = ASI_EXP_SUCCESS
          · rw [if_pos h2] at h
            simp only [Option.some.injEq, Prod.mk.injEq] at h
            rw [← h.2]; exact hpoll
          · rw [if_neg h2] at h
            by_cases h3 : st = ASI_EXP_FAILED
            · rw [if_pos h3] at h
              by_cases h4 : cur = 3
              · rw [if_pos h4] at h
                simp only [Option.some.injEq, Prod.mk.injEq] at h
                rw [← h.2]; exact hpoll
              · rw [if_neg h4] at h
                exact hpoll.trans (ih _ _ _ _ _ h)
            · rw [if_neg h3] at h
              simp only [Option.some.injEq, Prod.mk.injEq] at h
              rw [← h.2]; exact hpoll

end Record

section Capture
variable {σ : Type}

theorem Extends.any_eq {S : Call → Bool} {w w' : World σ} (h : Extends S w w')
    (q : Call × Reply → Bool) (hq : ∀ e : Call × Reply, S e.1 = true → q e = false) :
    w'.trace.any q = w.trace.any q := by
  obtain ⟨e, ht, hs⟩ := h
  rw [ht, List.any_append]
  have : e.any q = false := by
    rw [List.any_eq_false]
    intro x hx
    simp [hq x (hs x hx)]
  simp [this]

theorem is_loop_not_stop (c : Call) (h : c.is_loop = true) : c.is_stop = false := by
  cases c <;> first | rfl | simp [Call.is_loop, Call.is_start, Call.is_status] at h

theorem is_loop_not_fetch (c : Call) (h : c.is_loop = true) : c.is_fetch = false := by
  cases c <;> first | rfl | simp [Call.is_loop, Call.is_start, Call.is_status] at h

theorem is_loop_not_encoder (c : Call) (h : c.is_loop = true) : c.is_encoder = false := by
  cases c <;> first | rfl | simp [Call.is_loop, Call.is_start, Call.is_status] at h

theorem is_loop_not_calloc (c : Call) (h : c.is_loop = true) : c.is_calloc = false := by
  cases c <;> first | rfl | simp [Call.is_loop, Call.is_start, Call.is_status] at h

theorem is_status_not_start (c : Call) (h : c.is_status = true) : c.is_start = false := by
  cases c <;> first | rfl | simp [Call.is_status] at h

theorem is_setup_not_stop (c : Call) (h : c.is_setup = true) : c.is_stop = false := by
  cases c <;> first | rfl | simp [Call.is_setup] at h

theorem is_setup_not_start (c : Call) (h : c.is_setup = true) : c.is_start = false := by
  cases c <;> first | rfl | simp [Call.is_setup] at h

theorem is_setup_not_status (c : Call) (h : c.is_setup = true) : c.is_status = false := by
  cases c <;> first | rfl | simp [Call.is_setup] at h

theorem is_setup_not_fetch (c : Call) (h : c.is_setup = true) : c.is_fetch = false := by
  cases c <;> first | rfl | simp [Call.is_setup] at h

theorem is_setup_not_encoder (c : Call) (h : c.is_setup = true) : c.is_encoder = false := by
  cases c <;> first | rfl | simp [Call.is_setup] at h

theorem is_store_not_stop (c : Call) (h : (c.is_fetch || c.is_writer) = true) :
    c.is_stop = false := by
  cases c <;> first | rfl | simp [Call.is_fetch, Call.is_writer, Call.is_encoder] at h

theorem is_store_not_calloc (c : Call) (h : (c.is_fetch || c.is_writer) = true) :
    c.is_calloc = false := by
  cases c <;> first | rfl | simp [Call.is_fetch, Call.is_writer, Call.is_encoder] at h

theorem is_writer_is_store (c : Call) (h : c.is_writer = true) :
    (c.is_fetch || c.is_writer) = true := by
  simp [h]

/-- A run of lines 607-678 that reaches the loop has called `calloc` with
success and kept the camera id. -/
theorem capture_setup_inr (E : Env σ) (w : World σ) (opt : options) (fr : Frame) (w1 : World σ)
    (h : capture_setup E w opt = .inr (fr, w1)) :
    Extends Call.is_setup w w1 ∧ buffer_allocated w1 = true ∧
      (allocation_failed w = false → allocation_failed w1 = false) := by
  unfold capture_setup at h
  dsimp only at h
  split_ifs at h with h1 h2 h3 h4 h5
  simp only [Sum.inr.injEq, Prod.mk.injEq] at h
  obtain ⟨_, rfl⟩ := h
  rw [Bool.not_eq_false] at h5
  simp only [call_reply, call_env] at h5
  refine ⟨?_, ?_, ?_⟩
  · repeat (first
      | (with_reducible exact Extends.refl _ _)
      | (with_reducible refine Extends.then_call ?_ (by with_unfolding_all rfl)))
  · simp only [buffer_allocated, call_trace, call_env, List.any_append, List.any_cons,
      List.any_nil, Call.is_calloc, Bool.or_false, Bool.and_true, Bool.false_and, Bool.true_and]
    simp [call_reply, call_env, h5]
  · intro hw
    unfold allocation_failed at hw ⊢
    simp only [call_trace, List.any_append, hw, Bool.false_or]
    simp [Call.is_calloc, call_reply, call_env, h5]

/-- A run of lines 607-678 that ends early has no buffer; it has met a failed
`calloc` exactly when it ends with the report of line 646. -/
theorem capture_setup_inl (E : Env σ) (w : World σ) (opt : options) (e : Exit) (w1 : World σ)
    (h : capture_setup E w opt = .inl (e, w1)) :
    Extends Call.is_setup w w1 ∧
      (buffer_allocated w = false → buffer_allocated w1 = false) ∧
      (allocation_failed w = false → (allocation_failed w1 = true ↔ e = .calloc_error)) := by
  unfold capture_setup at h
  dsimp only at h
  split_ifs at h with h1 h2 h3 h4 h5 <;>
    simp only [Sum.inl.injEq, Prod.mk.injEq, reduceCtorEq] at h
  all_goals obtain ⟨rfl, rfl⟩ := h
  all_goals refine ⟨?_, ?_, ?_⟩
  all_goals first
    | ((repeat (first
        | (with_reducible exact Extends.refl _ _)
        | (with_reducible refine Extends.then_call ?_ (by with_unfolding_all rfl)))); done)
    | (intro hw
       unfold buffer_allocated at hw ⊢
       simp only [call_trace, List.any_append, hw, Bool.false_or]
       simp only [call_reply, call_env] at h5
       simp [Call.is_calloc, call_reply, call_env, h5])
    | (intro hw
       unfold buffer_allocated at hw ⊢
       simp only [call_trace, List.any_append, hw, Bool.false_or]
       simp [Call.is_calloc])
    | (intro hw
       unfold allocation_failed at hw ⊢
       simp only [call_trace, List.any_append, hw, Bool.false_or]
       simp only [call_reply, call_env] at h5
       simp [Call.is_calloc, call_reply, call_env, h5])
    | (intro hw
       unfold allocation_failed at hw ⊢
       simp only [call_trace, List.any_append, hw, Bool.false_or]
       simp [Call.is_calloc])

theorem capture_store_calls (E : Env σ) (gopt : options) (img_outtype : Int) (fr : Frame)
    (w : World σ) :
    Extends (fun c => c.is_fetch || c.is_writer) w (capture_store E gopt img_outtype fr w).2 := by
  unfold capture_store
  dsimp only
  have hf : Extends (fun c => c.is_fetch || c.is_writer) w
      (call E w (.ASIGetDataAfterExp fr.opt.o_cam_id fr.size)).2 :=
    (Extends.refl _ _).then_call rfl
  split_ifs
  · exact hf
  · exact hf.trans ((write_tiff_calls _ _ _ _ _).widen is_writer_is_store)
  · exact hf.trans ((write_fit_calls _ _ _ _).widen is_writer_is_store)
  · exact hf

theorem capture_cleanup_stop (E : Env σ) (id : Int) (w : World σ) :
    ncalls Call.is_stop (capture_cleanup E id w) = ncalls Call.is_stop w + 1 ∧
      last_call Call.is_stop (capture_cleanup E id w) = true := by
  unfold capture_cleanup
  refine ⟨by simp [ncalls_call, Call.is_stop], ?_⟩
  simp [last_call, call_trace, Call.is_stop]

theorem capture_cleanup_ncalls (E : Env σ) (id : Int) (w : World σ) (p : Call → Bool)
    (h1 : p .free = false) (h2 : p (.ASIStopExposure id) = false) :
    ncalls p (capture_cleanup E id w) = ncalls p w := by
  unfold capture_cleanup
  simp [ncalls_call, h1, h2]

theorem capture_cleanup_any (E : Env σ) (id : Int) (w : World σ) (q : Call × Reply → Bool)
    (hq : ∀ e : Call × Reply, e.1.is_calloc = false → q e = false) :
    (capture_cleanup E id w).trace.any q = w.trace.any q := by
  unfold capture_cleanup
  simp [call_trace, List.any_append, hq (Call.free, _) rfl,
    hq (Call.ASIStopExposure id, _) rfl]

theorem ncalls_nil (p : Call → Bool) (s : σ) : ncalls p ({ env := s, trace := [] } : World σ) = 0 :=
  rfl

end Capture

section Exposure
variable {σ : Type}

/-- With a status other than Working the status loop is not entered. -/
theorem poll_status_idle (E : Env σ) (id : Int) (fuel : Nat) (w : World σ) (status : Int)
    (h : status ≠ ASI_EXP_WORKING) :
    poll_status E id (fuel + 1) w status = some (.inr status, w) := by
  simp [poll_status, h]

/-- The status loop against a facade that leaves Working after `k` reads. -/
theorem poll_status_leaves (E : Env σ) (id : Int) :
    ∀ (k fuel : Nat) (w : World σ) (st : Int),
      leaves_working E id k w.env = some st → k + 2 ≤ fuel →
      ∃ w', poll_status E id fuel w ASI_EXP_WORKING = some (.inr st, w') ∧
        Extends Call.is_status w w' ∧
        ncalls Call.is_status w' = ncalls Call.is_status w + (k + 1) ∧
        st ≠ ASI_EXP_WORKING := by
  intro k
  induction k with
  | zero =>
    intro fuel w st h hfuel
    obtain ⟨f, rfl⟩ : ∃ f, fuel = f + 2 := ⟨fuel - 2, by omega⟩
    unfold leaves_working at h
    split_ifs at h with hc
    simp only [Option.some.injEq] at h
    refine ⟨(call E w (.ASIGetExpStatus id)).2, ?_, (Extends.refl _ _).then_call rfl, ?_, ?_⟩
    · rw [poll_status]
      simp only [if_true, call_reply, hc.1, ne_eq, not_true_eq_false, if_false]
      rw [h]
      exact poll_status_idle E id f _ st (h ▸ hc.2)
    · simp [ncalls_call, Call.is_status]
    · exact h ▸ hc.2
  | succ k ih =>
    intro fuel w st h hfuel
    obtain ⟨f, rfl⟩ : ∃ f, fuel = f + 1 := ⟨fuel - 1, by omega⟩
    unfold leaves_working at h
    split_ifs at h with hc
    obtain ⟨w', h1, h2, h3, h4⟩ := ih f (call E w (.ASIGetExpStatus id)).2 st h (by omega)
    refine ⟨w', ?_, ((Extends.refl _ _).then_call rfl).trans h2, ?_, h4⟩
    · rw [poll_status]
      simp only [if_true, call_reply, hc.1, ne_eq, not_true_eq_false, if_false]
      rw [hc.2]
      exact h1
    · rw [h3, ncalls_call]
      simp [Call.is_status]
      omega

/-- The status loop ends whenever the facade stops reading Working or fails. -/
theorem poll_status_ends (E : Env σ) (id : Int) :
    ∀ (k fuel : Nat) (w : World σ),
      poll_ends E id k w.env = true → k + 2 ≤ fuel →
      ∃ r w', poll_status E id fuel w ASI_EXP_WORKING = some (r, w') ∧
        ∀ st, r = .inr st → st ≠ ASI_EXP_WORKING := by
  intro k
  induction k with
  | zero =>
    intro fuel w h hfuel
    obtain ⟨f, rfl⟩ : ∃ f, fuel = f + 2 := ⟨fuel - 2, by omega⟩
    rw [poll_status]
    simp only [if_true, call_reply, call_env]
    by_cases hrc : (E w.env (.ASIGetExpStatus id)).1.rc ≠ 0
    · rw [if_pos hrc]
      exact ⟨_, _, rfl, fun st hst => by cases hst⟩
    · rw [if_neg hrc]
      have hst : (E w.env (.ASIGetExpStatus id)).1.status ≠ ASI_EXP_WORKING := by
        simp only [poll_ends, Bool.or_eq_true, decide_eq_true_eq] at h
        rcases h with h | h
        · exact absurd h hrc
        · exact h
      rw [poll_status_idle E id f _ _ hst]
      refine ⟨_, _, rfl, fun st h' => ?_⟩
      simp only [Sum.inr.injEq] at h'
      exact h' ▸ hst
  | succ k ih =>
    intro fuel w h hfuel
    obtain ⟨f, rfl⟩ : ∃ f, fuel = f + 2 := ⟨fuel - 2, by omega⟩
    rw [poll_status]
    simp only [if_true, call_reply]
    by_cases hrc : (E w.env (.ASIGetExpStatus id)).1.rc ≠ 0
    · rw [if_pos hrc]
      exact ⟨_, _, rfl, fun st hst => by cases hst⟩
    · rw [if_neg hrc]
      by_cases hst : (E w.env (.ASIGetExpStatus id)).1.status = ASI_EXP_WORKING
      · rw [hst]
        apply ih (f + 1) (call E w (.ASIGetExpStatus id)).2 _ (by omega)
        simp only [poll_ends, Bool.or_eq_true, decide_eq_true_eq] at h
        rcases h with (h | h) | h
        · exact absurd h hrc
        · exact absurd hst h
        · exact h
      · rw [poll_status_idle E id f _ _ hst]
        refine ⟨_, _, rfl, fun st h' => ?_⟩
        simp only [Sum.inr.injEq] at h'
        exact h' ▸ hst

/-- Once the status read is Failed, the loop goes on without another read:
three starts in all, then the report of line 704. -/
theorem exposure_loop_failed (E : Env σ) (id : Int) (k fuel : Nat) (w : World σ)
    (hstart : ∀ s, (E s (.ASIStartExposure id false)).1.rc = 0)
    (hfailed : leaves_working E id k (E w.env (.ASIStartExposure id false)).2
      = some ASI_EXP_FAILED)
    (hfuel : k + 4 ≤ fuel) :
    ∃ w', exposure_loop E id fuel w ASI_EXP_WORKING 1 = some (some .exposure_exhausted, w') ∧
      Extends Call.is_loop w w' ∧
      ncalls Call.is_start w' = ncalls Call.is_start w + 3 ∧
      ncalls Call.is_status w' = ncalls Call.is_status w + (k + 1) := by
  obtain ⟨f, rfl⟩ : ∃ f, fuel = f + 3 := ⟨fuel - 3, by omega⟩
  obtain ⟨g, rfl⟩ : ∃ g, f = g + 1 := ⟨f - 1, by omega⟩
  obtain ⟨w2, hp, _, hn, _⟩ := poll_status_leaves E id k (g + 1 + 2)
    (call E w (.ASIStartExposure id false)).2 ASI_EXP_FAILED hfailed (by omega)
  have hne : ASI_EXP_FAILED ≠ ASI_EXP_WORKING := by decide
  have hns : ASI_EXP_FAILED ≠ ASI_EXP_SUCCESS := by decide
  have hrun : exposure_loop E id (g + 1 + 3) w ASI_EXP_WORKING 1
      = some (some .exposure_exhausted,
          (call E (call E w2 (.ASIStartExposure id false)).2 (.ASIStartExposure id false)).2) := by
    rw [exposure_loop]
    simp only [call_reply, hstart, ne_eq, not_true_eq_false, if_false, hp, hns, if_true]
    rw [exposure_loop]
    simp only [call_reply, hstart, ne_eq, not_true_eq_false, if_false,
      poll_status_idle E id (g + 1) _ _ hne, hns, if_true]
    rw [exposure_loop]
    simp only [call_reply, hstart, ne_eq, not_true_eq_false, if_false,
      poll_status_idle E id g _ _ hne, hns, if_true]
    simp
  refine ⟨_, hrun, exposure_loop_calls E id _ _ _ _ _ _ hrun, ?_, ?_⟩
  · have h1 : ncalls Call.is_start w2
        = ncalls Call.is_start (call E w (.ASIStartExposure id false)).2 := by
      obtain ⟨w2', hp', hext, _⟩ := poll_status_leaves E id k (g + 1 + 2)
        (call E w (.ASIStartExposure id false)).2 ASI_EXP_FAILED hfailed (by omega)
      rw [hp] at hp'
      simp only [Option.some.injEq, Prod.mk.injEq, true_and] at hp'
      rw [hp']
      exact hext.ncalls_eq is_status_not_start
    simp only [ncalls_call, h1, Call.is_start, if_true]
  · simp only [ncalls_call, hn, Call.is_status]
    simp

/-- A status that is neither Success nor Failed ends the loop at once with the
report of line 712. -/
theorem exposure_loop_invalid (E : Env σ) (id : Int) (k fuel : Nat) (w : World σ) (st : Int)
    (hstart : (E w.env (.ASIStartExposure id false)).1.rc = 0)
    (hleave : leaves_working E id k (E w.env (.ASIStartExposure id false)).2 = some st)
    (hs : st ≠ ASI_EXP_SUCCESS) (hf : st ≠ ASI_EXP_FAILED)
    (hfuel : k + 3 ≤ fuel) :
    ∃ w', exposure_loop E id fuel w ASI_EXP_WORKING 1 = some (some .invalid_state, w') ∧
      Extends Call.is_loop w w' ∧
      ncalls Call.is_start w' = ncalls Call.is_start w + 1 ∧
      ncalls Call.is_status w' = ncalls Call.is_status w + (k + 1) := by
  obtain ⟨f, rfl⟩ : ∃ f, fuel = f + 1 := ⟨fuel - 1, by omega⟩
  obtain ⟨w2, hp, hext, hn, _⟩ := poll_status_leaves E id k f
    (call E w (.ASIStartExposure id false)).2 st hleave (by omega)
  have hrun : exposure_loop E id (f + 1) w ASI_EXP_WORKING 1
      = some (some .invalid_state, w2) := by
    rw [exposure_loop]
    simp only [call_reply, hstart, ne_eq, not_true_eq_false, if_false, hp, hs, hf]
  refine ⟨_, hrun, exposure_loop_calls E id _ _ _ _ _ _ hrun, ?_, ?_⟩
  · rw [hext.ncalls_eq is_status_not_start, ncalls_call]
    simp [Call.is_start]
  · rw [hn, ncalls_call]
    simp [Call.is_status]

/-- Entered with a status other than Working and the last attempt, the loop
ends. -/
theorem exposure_loop_ends_3 (E : Env σ) (id : Int) (fuel : Nat) (w : World σ) (st : Int)
    (hst : st ≠ ASI_EXP_WORKING) :
    (exposure_loop E id (fuel + 2) w st 3).isSome = true := by
  rw [exposure_loop]
  by_cases h1 : (call E w (.ASIStartExposure id false)).1.rc ≠ 0
  · rw [if_pos h1]; rfl
  · rw [if_neg h1, poll_status_idle E id fuel _ _ hst]
    by_cases h2 : st = ASI_EXP_SUCCESS
    · simp [h2]
    · by_cases h3 : st = ASI_EXP_FAILED
      · simp only [if_neg h2, if_pos h3]; rfl
      · simp [h2, h3]

theorem exposure_loop_ends_2 (E : Env σ) (id : Int) (fuel : Nat) (w : World σ) (st : Int)
    (hst : st ≠ ASI_EXP_WORKING) :
    (exposure_loop E id (fuel + 3) w st 2).isSome = true := by
  rw [exposure_loop]
  by_cases h1 : (call E w (.ASIStartExposure id false)).1.rc ≠ 0
  · rw [if_pos h1]; rfl
  · rw [if_neg h1, poll_status_idle E id (fuel + 1) _ _ hst]
    by_cases h2 : st = ASI_EXP_SUCCESS
    · simp [h2]
    · by_cases h3 : st = ASI_EXP_FAILED
      · have := exposure_loop_ends_3 E id fuel (call E w (.ASIStartExposure id false)).2 st hst
        simp only [if_neg h2, if_pos h3]
        exact this
      · simp [h2, h3]

/-- The loop ends whenever the first run of status reads ends. -/
theorem exposure_loop_ends (E : Env σ) (id : Int) (k fuel : Nat) (w : World σ)
    (hpoll : poll_ends E id k (E w.env (.ASIStartExposure id false)).2 = true)
    (hfuel : k + 4 ≤ fuel) :
    (exposure_loop E id fuel w ASI_EXP_WORKING 1).isSome = true := by
  obtain ⟨f, rfl⟩ : ∃ f, fuel = f + 4 := ⟨fuel - 4, by omega⟩
  rw [exposure_loop]
  by_cases h1 : (call E w (.ASIStartExposure id false)).1.rc ≠ 0
  · rw [if_pos h1]; rfl
  · obtain ⟨r, w2, hp, hr⟩ := poll_status_ends E id k (f + 3)
      (call E w (.ASIStartExposure id false)).2 hpoll (by omega)
    rw [if_neg h1, hp]
    cases r with
    | inl rc => rfl
    | inr st =>
      by_cases h2 : st = ASI_EXP_SUCCESS
      · simp [h2]
      · by_cases h3 : st = ASI_EXP_FAILED
        · have := exposure_loop_ends_2 E id f w2 st (hr st rfl)
          simp only [if_neg h2, if_pos h3]
          exact this
        · simp [h2, h3]

end Exposure

/-! ## `capture`: the claims -/

section Claims
variable {σ : Type}

theorem is_store_not_start (c : Call) (h : (c.is_fetch || c.is_writer) = true) :
    c.is_start = false := by
  cases c <;> first | rfl | simp [Call.is_fetch, Call.is_writer, Call.is_encoder] at h

theorem is_loop_not_setup_calloc (e : Call × Reply) (h : e.1.is_loop = true) :
    (e.1.is_calloc && !e.2.ptr) = false := by
  simp [is_loop_not_calloc e.1 h]

theorem is_store_not_setup_calloc (e : Call × Reply) (h : (e.1.is_fetch || e.1.is_writer) = true) :
    (e.1.is_calloc && !e.2.ptr) = false := by
  simp [is_store_not_calloc e.1 h]

/-- C3: in every run of `capture` that has allocated the image buffer and
ends, whatever the facade and the encoders do, `ASIStopExposure` is called
exactly once, as the last call of the run (so a failing stop is not repeated).
The run does end whenever the status reads of the first attempt end: within
`k + 1` reads one fails or reads a status other than Working. -/
theorem stop_exposure_once (E : Env σ) (gopt : options) (img_outtype : Int) (s : σ)
    (opt : options) :
    (∀ (fuel : Nat) (exit : Exit) (w' : World σ),
        capture E gopt img_outtype fuel ⟨s, []⟩ opt = some (exit, w') →
        buffer_allocated w' = true →
        ncalls Call.is_stop w' = 1 ∧ last_call Call.is_stop w' = true) ∧
    (∀ (fr : Frame) (w1 : World σ) (k fuel : Nat),
        capture_setup E ⟨s, []⟩ opt = .inr (fr, w1) →
        poll_ends E fr.opt.o_cam_id k
          (E w1.env (.ASIStartExposure fr.opt.o_cam_id false)).2 = true →
        k + 4 ≤ fuel →
        (capture E gopt img_outtype fuel ⟨s, []⟩ opt).isSome = true) := by
  constructor
  · intro fuel exit w' hrun halloc
    unfold capture at hrun
    cases hset : capture_setup E ⟨s, []⟩ opt with
    | inl early =>
      obtain ⟨e, w1⟩ := early
      rw [hset] at hrun
      simp only [Option.some.injEq, Prod.mk.injEq] at hrun
      obtain ⟨_, rfl⟩ := hrun
      have := (capture_setup_inl E _ opt e w1 hset).2.1 rfl
      rw [this] at halloc
      cases halloc
    | inr p =>
      obtain ⟨fr, w1⟩ := p
      rw [hset] at hrun
      dsimp only at hrun
      have h1 : ncalls Call.is_stop w1 = 0 :=
        (capture_setup_inr E _ opt fr w1 hset).1.ncalls_eq is_setup_not_stop
      cases hloop : exposure_loop E fr.opt.o_cam_id fuel w1 ASI_EXP_WORKING 1 with
      | none => rw [hloop] at hrun; cases hrun
      | some q =>
        obtain ⟨r, w2⟩ := q
        rw [hloop] at hrun
        have h2 : ncalls Call.is_stop w2 = 0 := by
          rw [(exposure_loop_calls E _ _ _ _ _ _ _ hloop).ncalls_eq is_loop_not_stop, h1]
        cases r with
        | some report =>
          simp only [Option.some.injEq, Prod.mk.injEq] at hrun
          obtain ⟨_, rfl⟩ := hrun
          have := capture_cleanup_stop E fr.opt.o_cam_id w2
          exact ⟨by rw [this.1, h2], this.2⟩
        | none =>
          simp only [Option.some.injEq, Prod.mk.injEq] at hrun
          obtain ⟨_, rfl⟩ := hrun
          have := capture_cleanup_stop E fr.opt.o_cam_id
            (capture_store E gopt img_outtype fr w2).2
          refine ⟨?_, this.2⟩
          rw [this.1, (capture_store_calls E gopt img_outtype fr w2).ncalls_eq is_store_not_stop,
            h2]
  · intro fr w1 k fuel hset hpoll hfuel
    unfold capture
    rw [hset]
    dsimp only
    have := exposure_loop_ends E fr.opt.o_cam_id k fuel w1 hpoll hfuel
    cases hloop : exposure_loop E fr.opt.o_cam_id fuel w1 ASI_EXP_WORKING 1 with
    | none => rw [hloop] at this; cases this
    | some q =>
      obtain ⟨r, w2⟩ := q
      cases r <;> rfl

/-- C4 (as amended): a run of `capture` in which `calloc` fails ends with the
report of line 646 and returns at once, whatever the loop budget: neither
`ASIStartExposure` nor `ASIStopExposure` is called. -/
theorem calloc_failure_returns_at_once (E : Env σ) (gopt : options) (img_outtype : Int)
    (s : σ) (opt : options) (fuel : Nat) (exit : Exit) (w' : World σ)
    (hrun : capture E gopt img_outtype fuel ⟨s, []⟩ opt = some (exit, w'))
    (hfail : allocation_failed w' = true) :
    exit = .calloc_error ∧ ncalls Call.is_stop w' = 0 ∧ ncalls Call.is_start w' = 0 ∧
      ∀ fuel', capture E gopt img_outtype fuel' ⟨s, []⟩ opt = some (exit, w') := by
  unfold capture at hrun
  cases hset : capture_setup E ⟨s, []⟩ opt with
  | inl early =>
    obtain ⟨e, w1⟩ := early
    rw [hset] at hrun
    simp only [Option.some.injEq, Prod.mk.injEq] at hrun
    obtain ⟨rfl, rfl⟩ := hrun
    obtain ⟨hext, _, hiff⟩ := capture_setup_inl E _ opt e w1 hset
    refine ⟨(hiff rfl).mp hfail, hext.ncalls_eq is_setup_not_stop,
      hext.ncalls_eq is_setup_not_start, ?_⟩
    intro fuel'
    unfold capture
    rw [hset]
  | inr p =>
    obtain ⟨fr, w1⟩ := p
    rw [hset] at hrun
    dsimp only at hrun
    have h1 : allocation_failed w1 = false := (capture_setup_inr E _ opt fr w1 hset).2.2 rfl
    exfalso
    cases hloop : exposure_loop E fr.opt.o_cam_id fuel w1 ASI_EXP_WORKING 1 with
    | none => rw [hloop] at hrun; cases hrun
    | some q =>
      obtain ⟨r, w2⟩ := q
      rw [hloop] at hrun
      have h2 : allocation_failed w2 = false := by
        unfold allocation_failed at h1 ⊢
        rw [(exposure_loop_calls E _ _ _ _ _ _ _ hloop).any_eq _ is_loop_not_setup_calloc, h1]
      cases r with
      | some report =>
        simp only [Option.some.injEq, Prod.mk.injEq] at hrun
        obtain ⟨_, rfl⟩ := hrun
        unfold allocation_failed at hfail h2
        rw [capture_cleanup_any E _ _ _ (fun e he => by simp [he]), h2] at hfail
        cases hfail
      | none =>
        simp only [Option.some.injEq, Prod.mk.injEq] at hrun
        obtain ⟨_, rfl⟩ := hrun
        unfold allocation_failed at hfail h2
        rw [capture_cleanup_any E _ _ _ (fun e he => by simp [he]),
          (capture_store_calls E gopt img_outtype fr w2).any_eq _ is_store_not_setup_calloc,
          h2] at hfail
        cases hfail

/-- C2: when the status with which the facade leaves Working is Failed, as it
is for a facade that reads Failed ever after, and every `ASIStartExposure`
succeeds, the run ends with the report ExposureExhausted of line 704:
`ASIStartExposure` has been called exactly 3 times, no pixel data were fetched
and no encoder was called (`k` is the number of Working reads before). -/
theorem capture_failed_exhausts (E : Env σ) (gopt : options) (img_outtype : Int) (s : σ)
    (opt : options) (fr : Frame) (w1 : World σ) (k fuel : Nat)
    (hsetup : capture_setup E ⟨s, []⟩ opt = .inr (fr, w1))
    (hstart : ∀ s', (E s' (.ASIStartExposure fr.opt.o_cam_id false)).1.rc = 0)
    (hfailed : leaves_working E fr.opt.o_cam_id k
      (E w1.env (.ASIStartExposure fr.opt.o_cam_id false)).2 = some ASI_EXP_FAILED)
    (hfuel : k + 4 ≤ fuel) :
    ∃ w', capture E gopt img_outtype fuel ⟨s, []⟩ opt = some (.exposure_exhausted, w') ∧
      ncalls Call.is_start w' = 3 ∧ ncalls Call.is_status w' = k + 1 ∧
      ncalls Call.is_fetch w' = 0 ∧ ncalls Call.is_encoder w' = 0 ∧
      ncalls Call.is_stop w' = 1 := by
  obtain ⟨w2, hloop, hext, hst, hpo⟩ :=
    exposure_loop_failed E fr.opt.o_cam_id k fuel w1 hstart hfailed hfuel
  have hs := (capture_setup_inr E _ opt fr w1 hsetup).1
  refine ⟨capture_cleanup E fr.opt.o_cam_id w2, ?_, ?_, ?_, ?_, ?_, ?_⟩
  · unfold capture
    rw [hsetup]
    dsimp only
    rw [hloop]
  · rw [capture_cleanup_ncalls E _ _ _ rfl rfl, hst, hs.ncalls_eq is_setup_not_start]
    rfl
  · rw [capture_cleanup_ncalls E _ _ _ rfl rfl, hpo, hs.ncalls_eq is_setup_not_status]
    simp [ncalls]
  · rw [capture_cleanup_ncalls E _ _ _ rfl rfl, hext.ncalls_eq is_loop_not_fetch,
      hs.ncalls_eq is_setup_not_fetch]
    rfl
  · rw [capture_cleanup_ncalls E _ _ _ rfl rfl, hext.ncalls_eq is_loop_not_encoder,
      hs.ncalls_eq is_setup_not_encoder]
    rfl
  · rw [(capture_cleanup_stop E _ _).1, hext.ncalls_eq is_loop_not_stop,
      hs.ncalls_eq is_setup_not_stop]
    rfl

/-- C5: when the first status read after Working is neither Success nor Failed
(Idle, or a value outside the four statuses), the first `ASIStartExposure`
having succeeded, the run ends with the report InvalidState of line 712 and
without retry: `ASIStartExposure` has been called exactly once, no pixel data
were fetched and no encoder was called. -/
theorem capture_invalid_state (E : Env σ) (gopt : options) (img_outtype : Int) (s : σ)
    (opt : options) (fr : Frame) (w1 : World σ) (k fuel : Nat) (st : Int)
    (hsetup : capture_setup E ⟨s, []⟩ opt = .inr (fr, w1))
    (hstart : (E w1.env (.ASIStartExposure fr.opt.o_cam_id false)).1.rc = 0)
    (hleave : leaves_working E fr.opt.o_cam_id k
      (E w1.env (.ASIStartExposure fr.opt.o_cam_id false)).2 = some st)
    (hs : st ≠ ASI_EXP_SUCCESS) (hf : st ≠ ASI_EXP_FAILED)
    (hfuel : k + 3 ≤ fuel) :
    ∃ w', capture E gopt img_outtype fuel ⟨s, []⟩ opt = some (.invalid_state, w') ∧
      ncalls Call.is_start w' = 1 ∧ ncalls Call.is_status w' = k + 1 ∧
      ncalls Call.is_fetch w' = 0 ∧ ncalls Call.is_encoder w' = 0 ∧
      ncalls Call.is_stop w' = 1 := by
  obtain ⟨w2, hloop, hext, hst, hpo⟩ :=
    exposure_loop_invalid E fr.opt.o_cam_id k fuel w1 st hstart hleave hs hf hfuel
  have hsu := (capture_setup_inr E _ opt fr w1 hsetup).1
  refine ⟨capture_cleanup E fr.opt.o_cam_id w2, ?_, ?_, ?_, ?_, ?_, ?_⟩
  · unfold capture
    rw [hsetup]
    dsimp only
    rw [hloop]
  · rw [capture_cleanup_ncalls E _ _ _ rfl rfl, hst, hsu.ncalls_eq is_setup_not_start]
    rfl
  · rw [capture_cleanup_ncalls E _ _ _ rfl rfl, hpo, hsu.ncalls_eq is_setup_not_status]
    simp [ncalls]
  · rw [capture_cleanup_ncalls E _ _ _ rfl rfl, hext.ncalls_eq is_loop_not_fetch,
      hsu.ncalls_eq is_setup_not_fetch]
    rfl
  · rw [capture_cleanup_ncalls E _ _ _ rfl rfl, hext.ncalls_eq is_loop_not_encoder,
      hsu.ncalls_eq is_setup_not_encoder]
    rfl
  · rw [(capture_cleanup_stop E _ _).1, hext.ncalls_eq is_loop_not_stop,
      hsu.ncalls_eq is_setup_not_stop]
    rfl

end Claims

/-- Witness for C2: a facade that reads Working once and Failed ever after. -/
theorem capture_failed_exhausts_witness :
    ∃ w', capture sim opt_4x3 TYPE_TIF 5 ⟨sim_4x3 [ASI_EXP_WORKING] ASI_EXP_FAILED, []⟩ opt_4x3
        = some (.exposure_exhausted, w') ∧
      ncalls Call.is_start w' = 3 ∧ ncalls Call.is_status w' = 1 + 1 ∧
      ncalls Call.is_fetch w' = 0 ∧ ncalls Call.is_encoder w' = 0 ∧
      ncalls Call.is_stop w' = 1 :=
  capture_failed_exhausts sim opt_4x3 TYPE_TIF (sim_4x3 [ASI_EXP_WORKING] ASI_EXP_FAILED)
    opt_4x3 _ _ 1 5 rfl (fun _ => rfl) rfl (by decide)

/-- Witness for C5: a facade that reads Working once and then Idle. -/
theorem capture_invalid_state_witness :
    ∃ w', capture sim opt_4x3 TYPE_TIF 4
        ⟨sim_4x3 [ASI_EXP_WORKING, ASI_EXP_IDLE] ASI_EXP_SUCCESS, []⟩ opt_4x3
        = some (.invalid_state, w') ∧
      ncalls Call.is_start w' = 1 ∧ ncalls Call.is_status w' = 1 + 1 ∧
      ncalls Call.is_fetch w' = 0 ∧ ncalls Call.is_encoder w' = 0 ∧
      ncalls Call.is_stop w' = 1 :=
  capture_invalid_state sim opt_4x3 TYPE_TIF
    (sim_4x3 [ASI_EXP_WORKING, ASI_EXP_IDLE] ASI_EXP_SUCCESS)
    opt_4x3 _ _ 1 4 ASI_EXP_IDLE rfl rfl rfl (by decide) (by decide) (by decide)

/-- C1, the code at the failing input: against a facade that reads Failed,
Failed, Success the run reads the status once, starts the exposure three times
and ends with ExposureExhausted; nothing is fetched, no encoder is called. -/
theorem capture_failed_twice_then_success :
    (capture sim opt_4x3 TYPE_TIF 10
        ⟨sim_4x3 [ASI_EXP_FAILED, ASI_EXP_FAILED, ASI_EXP_SUCCESS] ASI_EXP_SUCCESS, []⟩
        opt_4x3).map
      (fun r => (r.1, ncalls Call.is_start r.2, ncalls Call.is_status r.2,
        ncalls Call.is_fetch r.2, ncalls Call.is_encoder r.2))
      = some (.exposure_exhausted, 3, 1, 0, 0) := by
  decide

/-- Counterexample to C4 as stated: with `calloc` returning NULL the run ends
without any call of `ASIStopExposure`. -/
theorem calloc_failure_no_stop :
    (capture sim opt_4x3 TYPE_TIF 10
        ⟨{ sim_4x3 [ASI_EXP_SUCCESS] ASI_EXP_SUCCESS with calloc_ok := false }, []⟩
        opt_4x3).map
      (fun r => (r.1, allocation_failed r.2, ncalls Call.is_stop r.2))
      = some (.calloc_error, true, 0) := by
  decide

/-- Witness for C4: the simulated facade with `calloc` returning NULL. -/
theorem calloc_failure_returns_at_once_witness :
    ∃ w', capture sim opt_4x3 TYPE_TIF 10
        ⟨{ sim_4x3 [ASI_EXP_SUCCESS] ASI_EXP_SUCCESS with calloc_ok := false }, []⟩ opt_4x3
        = some (.calloc_error, w') ∧ ncalls Call.is_stop w' = 0 ∧ ncalls Call.is_start w' = 0 :=
  ⟨_, rfl,
    (calloc_failure_returns_at_once sim opt_4x3 TYPE_TIF
      { sim_4x3 [ASI_EXP_SUCCESS] ASI_EXP_SUCCESS with calloc_ok := false } opt_4x3 10
      .calloc_error _ rfl (by decide)).2.1,
    (calloc_failure_returns_at_once sim opt_4x3 TYPE_TIF
      { sim_4x3 [ASI_EXP_SUCCESS] ASI_EXP_SUCCESS with calloc_ok := false } opt_4x3 10
      .calloc_error _ rfl (by decide)).2.2.1⟩

/-- Witness for C3: a successful 4 x 3 capture into a TIFF file ends, and it
stops the exposure once, at the very end. -/
theorem stop_exposure_once_witness :
    (∃ w', capture sim opt_4x3 TYPE_TIF 10
        ⟨sim_4x3 [ASI_EXP_WORKING, ASI_EXP_SUCCESS] ASI_EXP_SUCCESS, []⟩ opt_4x3
        = some (.success 0, w') ∧ buffer_allocated w' = true ∧
      ncalls Call.is_stop w' = 1 ∧ last_call Call.is_stop w' = true) ∧
    (capture sim opt_4x3 TYPE_TIF 10
      ⟨sim_4x3 [ASI_EXP_WORKING, ASI_EXP_SUCCESS] ASI_EXP_SUCCESS, []⟩ opt_4x3).isSome = true :=
  ⟨⟨_, rfl, by decide,
    (stop_exposure_once sim opt_4x3 TYPE_TIF
      (sim_4x3 [ASI_EXP_WORKING, ASI_EXP_SUCCESS] ASI_EXP_SUCCESS) opt_4x3).1 10 _ _ rfl
      (by decide)⟩,
   (stop_exposure_once sim opt_4x3 TYPE_TIF
      (sim_4x3 [ASI_EXP_WORKING, ASI_EXP_SUCCESS] ASI_EXP_SUCCESS) opt_4x3).2 _ _ 1 10 rfl
      (by decide) (by decide)⟩

/-- C6, the code at the failing input: 8 x 6 RAW16 is requested and the facade
reads back 4 x 3.  The buffer is sized and filled with the read-back geometry
(24 bytes), while `write_tiff` declares 8 x 6 and writes 6 rows at 16 byte
steps, and `write_fit` declares an 8 x 6 array of 48 elements. -/
theorem writers_use_requested_geometry :
    (main_capture sim opt_8x6 TYPE_TIF 10 ⟨sim_4x3 [ASI_EXP_SUCCESS] ASI_EXP_SUCCESS, []⟩).map
      (fun r => (r.1, (r.2.trace.map Prod.fst).filter Call.is_sizing))
      = some (.success 0,
          [.calloc 24 1, .ASIGetDataAfterExp 0 24,
           .TIFFSetField "TIFFTAG_IMAGEWIDTH" (.int 8),
           .TIFFSetField "TIFFTAG_IMAGELENGTH" (.int 6),
           .TIFFWriteScanline 0 0, .TIFFWriteScanline 16 1, .TIFFWriteScanline 32 2,
           .TIFFWriteScanline 48 3, .TIFFWriteScanline 64 4, .TIFFWriteScanline 80 5]) ∧
    (main_capture sim opt_8x6 TYPE_FIT 10 ⟨sim_4x3 [ASI_EXP_SUCCESS] ASI_EXP_SUCCESS, []⟩).map
      (fun r => (r.1, (r.2.trace.map Prod.fst).filter Call.is_sizing))
      = some (.success 0,
          [.calloc 24 1, .ASIGetDataAfterExp 0 24,
           .fits_create_img USHORT_IMG 2 8 6 0, .fits_write_img USHORT_IMG 1 48 0]) := by
  decide

/-- C10 (as amended): for a batch with a token without `=`, the tokens before
the first such token being well formed (each with `=`, at most 64 characters
on either side, at most 255 of them), `split_pvs` called on the empty result
returns `-EINVAL`; if no `realloc` fails, it leaves in the result exactly the
assignments of those earlier tokens, in input order: none when the token
without `=` is the first. -/
theorem split_pvs_malformed (realloc_ok : Nat → Bool) (str : List Char)
    (good : List (List Char)) (bad : List Char) (rest : List (List Char))
    (htok : tokens_spec str = good ++ bad :: rest)
    (hgood : ∀ t ∈ good, '=' ∈ t ∧ (name_spec t).length ≤ 64 ∧ (value_spec t).length ≤ 64)
    (hcount : good.length ≤ 255)
    (hbad : '=' ∉ bad) :
    ∃ pvs, split_pvs realloc_ok str (some pvs_empty) = .returns (-EINVAL, some pvs) ∧
      ((∀ n, realloc_ok n = true) →
        pvs.N = good.length ∧
        assignments pvs = good.map (fun t => (name_spec t, value_spec t))) := by
  obtain ⟨pvs, h1, h2⟩ := split_pvs_loop_malformed realloc_ok bad rest hbad good
    (str.length + 1) str pvs_empty (by omega) htok hgood (by simp [pvs_empty])
    (by simpa [pvs_empty] using hcount)
  refine ⟨pvs, by simp [split_pvs, h1], fun hmem => ?_⟩
  obtain ⟨h3, h4⟩ := h2 hmem
  refine ⟨by simpa [pvs_empty] using h3, ?_⟩
  simp only [pvs_empty, Option.getD_none, List.nil_append] at h4
  unfold assignments
  rw [h4, List.map_map]
  rfl

/-- Witness for C10: "gain-50" fails with `-EINVAL` and leaves no assignment. -/
theorem split_pvs_malformed_witness :
    ∃ pvs, split_pvs (fun _ => true) "gain-50".toList (some pvs_empty)
        = .returns (-EINVAL, some pvs) ∧
      pvs.N = 0 ∧ assignments pvs = [] :=
  (split_pvs_malformed (fun _ => true) "gain-50".toList [] "gain-50".toList []
    (by decide) (fun _ h => absurd h (List.not_mem_nil _)) (by decide) (by decide)).elim
    (fun pvs h => ⟨pvs, h.1, h.2 (fun _ => rfl)⟩)

/-- Counterexample to C10 as stated: in "gain=50,exposure" the second token has
no `=`; `split_pvs` returns `-EINVAL`, but the result holds the assignment
(gain, "50") of the first token. -/
theorem split_pvs_keeps_earlier_assignments :
    "exposure".toList ∈ tokens_spec "gain=50,exposure".toList ∧
    '=' ∉ "exposure".toList ∧
    split_pvs (fun _ => true) "gain=50,exposure".toList (some pvs_empty)
      = .returns (-EINVAL, some ⟨1, some [⟨"gain".toList, "50".toList⟩]⟩) ∧
    assignments ⟨1, some [⟨"gain".toList, "50".toList⟩]⟩ = [("gain".toList, "50".toList)] := by
  decide

/-! ## Image writers: the claims -/

section Writers
variable {σ : Type}

/-- C15: with a pixel format other than RAW8 and RAW16 (so with RGB24 and Y8)
`write_fit` returns `-EINVAL` without having made any call, so that no file is
created; with RAW8 or RAW16 its return value is never `-EINVAL`. -/
theorem write_fit_unsupported_format (E : Env σ) (gopt : options) (w : World σ)
    (fit_head : fit_head_s) :
    (gopt.o_img_type ≠ ASI_IMG_RAW8 → gopt.o_img_type ≠ ASI_IMG_RAW16 →
        write_fit E gopt w fit_head = (-EINVAL, w)) ∧
    (gopt.o_img_type = ASI_IMG_RAW8 ∨ gopt.o_img_type = ASI_IMG_RAW16 →
        (write_fit E gopt w fit_head).1 ≠ -EINVAL) := by
  constructor
  · intro h8 h16
    simp [write_fit, h8, h16]
  · intro h
    have hbody : ∀ bitpix, (write_fit_body E gopt w fit_head bitpix).1 ≠ -EINVAL := by
      intro bitpix
      unfold write_fit_body write_fit_cleanup
      dsimp only
      split_ifs <;> simp [EPERM, EINVAL]
    rcases h with h | h
    · simp only [write_fit, h, if_true]
      exact hbody _
    · have h' : ¬ ASI_IMG_RAW16 = ASI_IMG_RAW8 := by decide
      simp only [write_fit, h, h', if_true, if_false]
      exact hbody _

end Writers

/-- Witness for C15: an RGB24 frame is refused before any call, a RAW8 frame is
not refused. -/
theorem write_fit_unsupported_format_witness :
    write_fit sim { opt_4x3 with o_img_type := ASI_IMG_RGB24 } ⟨sim_4x3 [] 0, []⟩ fit_head_sample
      = (-EINVAL, ⟨sim_4x3 [] 0, []⟩) ∧
    (write_fit sim { opt_4x3 with o_img_type := ASI_IMG_RAW8 } ⟨sim_4x3 [] 0, []⟩
      fit_head_sample).1 ≠ -EINVAL :=
  ⟨(write_fit_unsupported_format sim { opt_4x3 with o_img_type := ASI_IMG_RGB24 }
      ⟨sim_4x3 [] 0, []⟩ fit_head_sample).1 (by decide) (by decide),
   (write_fit_unsupported_format sim { opt_4x3 with o_img_type := ASI_IMG_RAW8 }
      ⟨sim_4x3 [] 0, []⟩ fit_head_sample).2 (Or.inl rfl)⟩

/-- Line 396 passes `pix_size1` for the key PIXSIZE2: for a record with
`pix_size1 = 1` and `pix_size2 = 2`, which `capture` never builds, PIXSIZE2 is
written with the value 1; the other keys carry their own fields and two
comment lines follow. -/
theorem write_fit_pixsize2_carries_pix_size1 :
    (write_fit sim opt_4x3 ⟨sim_4x3 [] 0, []⟩ fit_head_sample).1 = 0 ∧
    ((write_fit sim opt_4x3 ⟨sim_4x3 [] 0, []⟩ fit_head_sample).2.trace.map Prod.fst).filterMap
        Call.header_entry
      = [("DATE-OBS", .text fit_head_sample.date_obs),
         ("EXPTIME", .real fit_head_sample.exp_time),
         ("XBINNING", .int fit_head_sample.x_binning),
         ("YBINNING", .int fit_head_sample.y_binning),
         ("PIXSIZE1", .single fit_head_sample.pix_size1),
         ("PIXSIZE2", .single fit_head_sample.pix_size1),
         ("COMMENT", .text "Generated by asic version NA".toList),
         ("COMMENT", .text "See: https://github.com/tstibor/asic".toList)] ∧
    fit_head_sample.pix_size1 ≠ fit_head_sample.pix_size2 := by
  decide

section Writers
variable {σ : Type}

theorem is_writer_not_close_head (E : Env σ) (w : World σ) (fh : fit_head_s) :
    Extends Call.is_fits_head w (write_fit_head E w fh).2 := by
  unfold write_fit_head
  dsimp only
  repeat (first | (with_reducible exact Extends.refl _ _) | (with_reducible refine Extends.then_call ?_ (by with_unfolding_all rfl)))

theorem last_call_call (p : Call → Bool) (E : Env σ) (w : World σ) (c : Call) :
    last_call p (call E w c).2 = p c := by
  simp [last_call, call_trace]

theorem is_fits_head_not_close (c : Call) (h : c.is_fits_head = true) : c.is_close = false := by
  cases c <;> first | rfl | simp [Call.is_fits_head] at h

theorem is_fits_head_not_step (e : Call × Reply) (h : e.1.is_fits_head = true) :
    (e.1.is_fits_step && decide (e.2.rc ≠ 0)) = false := by
  obtain ⟨c, r⟩ := e
  cases c <;> first | rfl | simp [Call.is_fits_head] at h

/-- The `cleanup:` part makes one call, the close, and hands back `-EPERM` when
entered with it. -/
theorem write_fit_cleanup_spec (E : Env σ) (w : World σ) (rc : Int) :
    (write_fit_cleanup E w rc).2 = (call E w (.fits_close_file 0)).2 ∧
      ((write_fit_cleanup E w rc).1 = rc ∨ (write_fit_cleanup E w rc).1 = -EPERM) := by
  unfold write_fit_cleanup
  dsimp only
  split_ifs <;> simp

/-- C16 (as amended): for RAW8 and RAW16 and every behaviour of the encoder,
if creating the file, creating the image or writing the pixels fails,
`write_fit` returns `-EPERM`, which is not zero, whether or not the close
succeeds; whenever the file was created, whatever fails afterwards (also a key
or comment write), the file is closed exactly once, as the last call; when
creating the file fails, that call is the only one and nothing is closed. -/
theorem write_fit_step_failure (E : Env σ) (gopt : options) (s : σ) (fit_head : fit_head_s)
    (hfmt : gopt.o_img_type = ASI_IMG_RAW8 ∨ gopt.o_img_type = ASI_IMG_RAW16) :
    ((∃ e ∈ (write_fit E gopt ⟨s, []⟩ fit_head).2.trace,
          e.1.is_fits_step = true ∧ e.2.rc ≠ 0) →
        (write_fit E gopt ⟨s, []⟩ fit_head).1 = -EPERM ∧
        (write_fit E gopt ⟨s, []⟩ fit_head).1 ≠ 0) ∧
    ((∃ e ∈ (write_fit E gopt ⟨s, []⟩ fit_head).2.trace,
          e.1.is_create_file = true ∧ e.2.rc = 0) →
        ncalls Call.is_close (write_fit E gopt ⟨s, []⟩ fit_head).2 = 1 ∧
        last_call Call.is_close (write_fit E gopt ⟨s, []⟩ fit_head).2 = true) ∧
    ((∃ e ∈ (write_fit E gopt ⟨s, []⟩ fit_head).2.trace,
          e.1.is_create_file = true ∧ e.2.rc ≠ 0) →
        ncalls Call.is_close (write_fit E gopt ⟨s, []⟩ fit_head).2 = 0 ∧
        (write_fit E gopt ⟨s, []⟩ fit_head).2.trace.length = 1) := by
  have hbody : ∀ bitpix, write_fit E gopt ⟨s, []⟩ fit_head
      = write_fit_body E gopt ⟨s, []⟩ fit_head bitpix →
      ((∃ e ∈ (write_fit_body E gopt ⟨s, []⟩ fit_head bitpix).2.trace,
          e.1.is_fits_step = true ∧ e.2.rc ≠ 0) →
        (write_fit_body E gopt ⟨s, []⟩ fit_head bitpix).1 = -EPERM ∧
        (write_fit_body E gopt ⟨s, []⟩ fit_head bitpix).1 ≠ 0) ∧
      ((∃ e ∈ (write_fit_body E gopt ⟨s, []⟩ fit_head bitpix).2.trace,
          e.1.is_create_file = true ∧ e.2.rc = 0) →
        ncalls Call.is_close (write_fit_body E gopt ⟨s, []⟩ fit_head bitpix).2 = 1 ∧
        last_call Call.is_close (write_fit_body E gopt ⟨s, []⟩ fit_head bitpix).2 = true) ∧
      ((∃ e ∈ (write_fit_body E gopt ⟨s, []⟩ fit_head bitpix).2.trace,
          e.1.is_create_file = true ∧ e.2.rc ≠ 0) →
        ncalls Call.is_close (write_fit_body E gopt ⟨s, []⟩ fit_head bitpix).2 = 0 ∧
        (write_fit_body E gopt ⟨s, []⟩ fit_head bitpix).2.trace.length = 1) := by
    intro bitpix _
    have hne : (-EPERM : Int) ≠ 0 := by decide
    unfold write_fit_body
    dsimp only
    by_cases h1 : (call E ⟨s, []⟩ (.fits_create_file gopt.o_filename 0)).1.rc ≠ 0
    · rw [if_pos h1]
      refine ⟨fun _ => ⟨rfl, hne⟩, ?_, fun _ => ⟨?_, ?_⟩⟩
      · rintro ⟨e, he, _, hrc⟩
        simp only [call_trace, List.nil_append, List.mem_singleton] at he
        subst he
        exact absurd hrc h1
      · simp [ncalls_call, ncalls_nil, Call.is_close]
      · simp [call_trace]
    · rw [if_neg h1]
      have h1' : (E s (.fits_create_file gopt.o_filename 0)).1.rc = 0 := by
        simpa [call_reply] using h1
      by_cases h2 : (call E (call E ⟨s, []⟩ (.fits_create_file gopt.o_filename 0)).2
          (.fits_create_img bitpix 2 gopt.o_width gopt.o_height 0)).1.rc ≠ 0
      · rw [if_pos h2]
        obtain ⟨hw, hr⟩ := write_fit_cleanup_spec E (call E (call E ⟨s, []⟩
          (.fits_create_file gopt.o_filename 0)).2
          (.fits_create_img bitpix 2 gopt.o_width gopt.o_height 0)).2 (-EPERM)
        have hrc : (write_fit_cleanup E (call E (call E ⟨s, []⟩
          (.fits_create_file gopt.o_filename 0)).2
          (.fits_create_img bitpix 2 gopt.o_width gopt.o_height 0)).2 (-EPERM)).1 = -EPERM := by
          rcases hr with h | h <;> exact h
        rw [hw, hrc]
        refine ⟨fun _ => ⟨rfl, hne⟩, fun _ => ⟨?_, ?_⟩, ?_⟩
        · simp [ncalls_call, ncalls_nil, Call.is_close]
        · rw [last_call_call]; rfl
        · rintro ⟨e, he, hc, hrc'⟩
          simp only [call_trace, List.nil_append, List.mem_append, List.mem_singleton,
            List.mem_cons, List.mem_nil_iff, or_false] at he
          rcases he with (he | he) | he <;> subst he
          · exact absurd h1' hrc'
          · simp [Call.is_create_file] at hc
          · simp [Call.is_create_file] at hc
      · rw [if_neg h2]
        by_cases h3 : (call E (call E (call E ⟨s, []⟩ (.fits_create_file gopt.o_filename 0)).2
            (.fits_create_img bitpix 2 gopt.o_width gopt.o_height 0)).2
            (.fits_write_img (if bitpix = BYTE_IMG then TBYTE else USHORT_IMG) 1
              (gopt.o_width * gopt.o_height) 0)).1.rc ≠ 0
        · rw [if_pos h3]
          obtain ⟨hw, hr⟩ := write_fit_cleanup_spec E (call E (call E (call E ⟨s, []⟩
            (.fits_create_file gopt.o_filename 0)).2
            (.fits_create_img bitpix 2 gopt.o_width gopt.o_height 0)).2
            (.fits_write_img (if bitpix = BYTE_IMG then TBYTE else USHORT_IMG) 1
              (gopt.o_width * gopt.o_height) 0)).2 (-EPERM)
          have hrc : (write_fit_cleanup E (call E (call E (call E ⟨s, []⟩
            (.fits_create_file gopt.o_filename 0)).2
            (.fits_create_img bitpix 2 gopt.o_width gopt.o_height 0)).2
            (.fits_write_img (if bitpix = BYTE_IMG then TBYTE else USHORT_IMG) 1
              (gopt.o_width * gopt.o_height) 0)).2 (-EPERM)).1 = -EPERM := by
            rcases hr with h | h <;> exact h
          rw [hw, hrc]
          refine ⟨fun _ => ⟨rfl, hne⟩, fun _ => ⟨?_, ?_⟩, ?_⟩
          · simp [ncalls_call, ncalls_nil, Call.is_close]
          · rw [last_call_call]; rfl
          · rintro ⟨e, he, hc, hrc'⟩
            simp only [call_trace, List.nil_append, List.mem_append, List.mem_singleton,
              List.mem_cons, List.mem_nil_iff, or_false] at he
            rcases he with ((he | he) | he) | he <;> subst he
            · exact absurd h1' hrc'
            · simp [Call.is_create_file] at hc
            · simp [Call.is_create_file] at hc
            · simp [Call.is_create_file] at hc
        · rw [if_neg h3]
          have hhead := is_writer_not_close_head E (call E (call E (call E ⟨s, []⟩
            (.fits_create_file gopt.o_filename 0)).2
            (.fits_create_img bitpix 2 gopt.o_width gopt.o_height 0)).2
            (.fits_write_img (if bitpix = BYTE_IMG then TBYTE else USHORT_IMG) 1
              (gopt.o_width * gopt.o_height) 0)).2 fit_head
          obtain ⟨hw, _⟩ := write_fit_cleanup_spec E (write_fit_head E (call E (call E
            (call E ⟨s, []⟩ (.fits_create_file gopt.o_filename 0)).2
            (.fits_create_img bitpix 2 gopt.o_width gopt.o_height 0)).2
            (.fits_write_img (if bitpix = BYTE_IMG then TBYTE else USHORT_IMG) 1
              (gopt.o_width * gopt.o_height) 0)).2 fit_head).2 0
          rw [hw]
          obtain ⟨ext, hext, hS⟩ := hhead
          refine ⟨?_, fun _ => ⟨?_, ?_⟩, ?_⟩
          · rintro ⟨e, he, hc, hrc'⟩
            exfalso
            rw [call_trace, hext] at he
            simp only [call_trace, List.nil_append, List.mem_append, List.mem_singleton,
              List.mem_cons, List.mem_nil_iff, or_false] at he
            rcases he with ((((he | he) | he) | he) | he)
            · subst he; exact hrc' h1'
            · subst he; exact hrc' (by simpa [call_reply, call_env] using h2)
            · subst he; exact hrc' (by simpa [call_reply, call_env] using h3)
            · have := is_fits_head_not_step e (hS e he)
              simp [hc, hrc'] at this
            · subst he; simp [Call.is_fits_step] at hc
          · rw [ncalls_call, (Extends.ncalls_eq ⟨ext, hext, hS⟩ is_fits_head_not_close)]
            simp [ncalls_call, ncalls_nil, Call.is_close]
          · rw [last_call_call]; rfl
          · rintro ⟨e, he, hc, hrc'⟩
            exfalso
            rw [call_trace, hext] at he
            simp only [call_trace, List.nil_append, List.mem_append, List.mem_singleton,
              List.mem_cons, List.mem_nil_iff, or_false] at he
            rcases he with ((((he | he) | he) | he) | he)
            · subst he; exact hrc' h1'
            · subst he; simp [Call.is_create_file] at hc
            · subst he; simp [Call.is_create_file] at hc
            · have h := hS e he
              obtain ⟨c, r⟩ := e
              cases c <;> simp [Call.is_create_file, Call.is_fits_head] at hc h
            · subst he; simp [Call.is_create_file] at hc
  rcases hfmt with h | h
  · have heq : write_fit E gopt ⟨s, []⟩ fit_head
        = write_fit_body E gopt ⟨s, []⟩ fit_head BYTE_IMG := by
      simp [write_fit, h]
    rw [heq]
    exact hbody _ heq
  · have h' : ¬ ASI_IMG_RAW16 = ASI_IMG_RAW8 := by decide
    have heq : write_fit E gopt ⟨s, []⟩ fit_head
        = write_fit_body E gopt ⟨s, []⟩ fit_head USHORT_IMG := by
      simp [write_fit, h, h']
    rw [heq]
    exact hbody _ heq

end Writers

/-- Witness for C16: against the simulated cfitsio, a failing
`fits_create_file` gives `-EPERM` after that one call, without a close; with
the file created and the EXPTIME update failing, the file is closed once, at
the end. -/
theorem write_fit_step_failure_witness :
    ((write_fit sim_fits opt_4x3 ⟨⟨105, "", 0⟩, []⟩ fit_head_sample).1 = -EPERM ∧
      (write_fit sim_fits opt_4x3 ⟨⟨105, "", 0⟩, []⟩ fit_head_sample).1 ≠ 0) ∧
    (ncalls Call.is_close (write_fit sim_fits opt_4x3 ⟨⟨105, "", 0⟩, []⟩ fit_head_sample).2 = 0 ∧
      (write_fit sim_fits opt_4x3 ⟨⟨105, "", 0⟩, []⟩ fit_head_sample).2.trace.length = 1) ∧
    (ncalls Call.is_close
        (write_fit sim_fits opt_4x3 ⟨⟨0, "EXPTIME", 412⟩, []⟩ fit_head_sample).2 = 1 ∧
      last_call Call.is_close
        (write_fit sim_fits opt_4x3 ⟨⟨0, "EXPTIME", 412⟩, []⟩ fit_head_sample).2 = true) :=
  ⟨(write_fit_step_failure sim_fits opt_4x3 ⟨105, "", 0⟩ fit_head_sample (Or.inr rfl)).1
      (by decide),
   (write_fit_step_failure sim_fits opt_4x3 ⟨105, "", 0⟩ fit_head_sample (Or.inr rfl)).2.2
      (by decide),
   (write_fit_step_failure sim_fits opt_4x3 ⟨0, "EXPTIME", 412⟩ fit_head_sample
      (Or.inr rfl)).2.1 (by decide)⟩

/-- Counterexample to C16 as stated, against the simulated cfitsio: when
`fits_create_file` fails no close is attempted; and when the EXPTIME update
fails (every later header write then hands the status on) and the close
succeeds, `write_fit` returns 0. -/
theorem write_fit_failure_not_reported :
    ((write_fit sim_fits opt_4x3 ⟨⟨105, "", 0⟩, []⟩ fit_head_sample).1 = -EPERM ∧
      ncalls Call.is_close
        (write_fit sim_fits opt_4x3 ⟨⟨105, "", 0⟩, []⟩ fit_head_sample).2 = 0) ∧
    ((∃ e ∈ (write_fit sim_fits opt_4x3 ⟨⟨0, "EXPTIME", 412⟩, []⟩ fit_head_sample).2.trace,
        e.1.is_fits_head = true ∧ e.2.rc ≠ 0) ∧
      (write_fit sim_fits opt_4x3 ⟨⟨0, "EXPTIME", 412⟩, []⟩ fit_head_sample).1 = 0) := by
  decide

section Writers
variable {σ : Type}

/-- Calls of `set_tiff_fields`: none writes a row. -/
theorem set_tiff_fields_no_rows (E : Env σ) (gopt : options) (w : World σ) (bps spp : Int) :
    Extends (fun c => !c.is_scanline) w (set_tiff_fields E gopt w bps spp) := by
  unfold set_tiff_fields
  dsimp only
  repeat (first | (with_reducible exact Extends.refl _ _) | (with_reducible refine Extends.then_call ?_ (by with_unfolding_all rfl)))

theorem Extends.filter_eq {S p : Call → Bool} {w w' : World σ} (h : Extends S w w')
    (hp : ∀ c, S c = true → p c = false) :
    (w'.trace.map Prod.fst).filter p = (w.trace.map Prod.fst).filter p := by
  obtain ⟨e, ht, hs⟩ := h
  rw [ht, List.map_append, List.filter_append]
  have : (e.map Prod.fst).filter p = [] := by
    rw [List.filter_eq_nil_iff]
    intro c hc
    obtain ⟨x, hx, rfl⟩ := List.mem_map.mp hc
    simp [hp _ (hs x hx)]
  rw [this, List.append_nil]

/-- The row loop with every row write succeeding: `n` further rows from `y`
on, each at the `int` product of row number and `factor`. -/
theorem write_rows_trace (E : Env σ) (gopt : options) (factor : Int)
    (hrow : ∀ s' off y, (E s' (.TIFFWriteScanline off y)).1.rc = 1) :
    ∀ (n : Nat) (y rc : Int) (w : World σ), y + n ≤ gopt.o_height →
      ((write_rows E gopt factor n y rc w).2.trace.map Prod.fst).filter Call.is_scanline
        = (w.trace.map Prod.fst).filter Call.is_scanline ++
          (List.range n).map (fun i : Nat =>
            Call.TIFFWriteScanline (wrap_int ((y + i) * factor)) (y + i)) ∧
      ((write_rows E gopt factor n y rc w).1 = rc ∨
        (write_rows E gopt factor n y rc w).1 = 1) := by
  intro n
  induction n with
  | zero =>
    intro y rc w _
    simp [write_rows]
  | succ n ih =>
    intro y rc w hy
    have hlt : y < gopt.o_height := by omega
    have h1 : (call E w (.TIFFWriteScanline (wrap_int (y * factor)) y)).1.rc = 1 := hrow _ _ _
    have hne : ¬ ((1 : Int) = -1) := by decide
    rw [write_rows]
    simp only [hlt, if_true, h1, hne, if_false]
    obtain ⟨htr, hres⟩ := ih (y + 1) 1
      (call E w (.TIFFWriteScanline (wrap_int (y * factor)) y)).2
      (by push_cast at hy ⊢; omega)
    refine ⟨?_, Or.inr (by rcases hres with h | h <;> exact h)⟩
    rw [htr, call_trace, List.map_append, List.filter_append, List.range_succ_eq_map]
    simp [Call.is_scanline, add_assoc, add_comm, add_left_comm, Function.comp]

/-- The row length of the four formats is `width` times 1, 2, 3, 1. -/
theorem row_length_spec_eq (width t : Int)
    (ht : t = ASI_IMG_RAW8 ∨ t = ASI_IMG_RAW16 ∨ t = ASI_IMG_RGB24 ∨ t = ASI_IMG_Y8) :
    row_length_spec width t = width * bytes_per_pixel_spec t ∧
      width * bits_per_sample t = 8 * row_length_spec width t := by
  rcases ht with rfl | rfl | rfl | rfl <;>
    simp [row_length_spec, bits_per_sample, bytes_per_pixel_spec, ASI_IMG_RAW8, ASI_IMG_RAW16,
      ASI_IMG_RGB24, ASI_IMG_Y8] <;> omega

/-- The stride `factor` of `write_tiff` is the row length as long as that fits
a `uint16_t`. -/
theorem write_tiff_factor (width t : Int) (hw : 0 < width)
    (ht : t = ASI_IMG_RAW8 ∨ t = ASI_IMG_RAW16 ∨ t = ASI_IMG_RGB24 ∨ t = ASI_IMG_Y8)
    (hL : row_length_spec width t ≤ 65535) :
    wrap_uint16 (c_div (wrap_int (width * bits_per_sample t)) 8) = row_length_spec width t ∧
      0 ≤ row_length_spec width t := by
  obtain ⟨h1, h2⟩ := row_length_spec_eq width t ht
  have hb : 0 < bytes_per_pixel_spec t := by
    rcases ht with rfl | rfl | rfl | rfl <;> decide
  have hpos : 0 < row_length_spec width t := by
    rw [h1]; exact mul_pos hw hb
  have hwrap : wrap_int (width * bits_per_sample t) = 8 * row_length_spec width t := by
    rw [h2]
    exact wrap_int_of_range _ (by omega) (by unfold INT_MAX; omega)
  rw [hwrap]
  refine ⟨?_, hpos.le⟩
  unfold c_div wrap_uint16
  rw [Int.tdiv_eq_ediv (by omega) (by decide), Int.mul_ediv_cancel_left _ (by decide)]
  omega

/-- The size of the buffer is the row length times the height. -/
theorem calc_buf_size_rows (width height t : Int) (hw : 0 < width) (hh : 0 < height)
    (ht : t = ASI_IMG_RAW8 ∨ t = ASI_IMG_RAW16 ∨ t = ASI_IMG_RGB24 ∨ t = ASI_IMG_Y8)
    (hsize : height * row_length_spec width t ≤ INT_MAX) :
    height * row_length_spec width t = calc_buf_size width height t := by
  have hp : 0 < width * height := mul_pos hw hh
  have hcomm : ∀ k : Int, height * (width * k) = width * height * k := by intro k; ring
  rw [(row_length_spec_eq width t ht).1] at hsize ⊢
  rw [hcomm] at hsize ⊢
  unfold INT_MAX at hsize
  rcases ht with rfl | rfl | rfl | rfl
  · have h : width * height ≤ 2147483647 := by
      simpa [bytes_per_pixel_spec] using hsize
    simp [calc_buf_size, bytes_per_pixel_spec, wrap_int_of_range _ hp.le h]
  · have h : width * height * 2 ≤ 2147483647 := by
      simpa [bytes_per_pixel_spec, ASI_IMG_RAW16, ASI_IMG_RAW8] using hsize
    have h2 : wrap_int (width * height) = width * height :=
      wrap_int_of_range _ hp.le (by unfold INT_MAX; omega)
    have h3 : wrap_int (width * height * 2) = width * height * 2 :=
      wrap_int_of_range _ (by omega) h
    simp [calc_buf_size, bytes_per_pixel_spec, ASI_IMG_RAW16, ASI_IMG_RAW8, h2, h3]
  · have h : width * height * 3 ≤ 2147483647 := by
      simpa [bytes_per_pixel_spec, ASI_IMG_RAW16, ASI_IMG_RAW8, ASI_IMG_RGB24] using hsize
    have h2 : wrap_int (width * height) = width * height :=
      wrap_int_of_range _ hp.le (by unfold INT_MAX; omega)
    have h3 : wrap_int (width * height * 3) = width * height * 3 :=
      wrap_int_of_range _ (by omega) h
    simp [calc_buf_size, bytes_per_pixel_spec, ASI_IMG_RAW16, ASI_IMG_RAW8, ASI_IMG_RGB24, h2, h3]
  · have h : width * height ≤ 2147483647 := by
      simpa [bytes_per_pixel_spec, ASI_IMG_RAW16, ASI_IMG_RAW8, ASI_IMG_RGB24, ASI_IMG_Y8]
        using hsize
    simp [calc_buf_size, bytes_per_pixel_spec, ASI_IMG_RAW16, ASI_IMG_RAW8, ASI_IMG_RGB24,
      ASI_IMG_Y8, wrap_int_of_range _ hp.le h]

end Writers

/-! ## Names and suffixes: theorems -/

theorem char_le_iff (a b : Char) : a ≤ b ↔ a.toNat ≤ b.toNat := by
  rw [Char.le_def]
  exact UInt32.le_def

theorem tolower_eq (c : Char) : tolower c = c.toLower := by
  unfold tolower Char.toLower
  simp only [char_le_iff]
  rfl

theorem map_tolower (t : List Char) : t.map tolower = lowercase_spec t := by
  unfold lowercase_spec
  exact List.map_congr_left (fun c _ => tolower_eq c)

theorem isdigit_eq (c : Char) : isdigit c = c.isDigit := by
  unfold isdigit Char.isDigit
  have h1 : ('0' ≤ c) ↔ c.val ≥ 48 := by rw [Char.le_def]; rfl
  have h2 : (c ≤ '9') ↔ c.val ≤ 57 := by rw [Char.le_def]; rfl
  simp only [h1, h2]

theorem toLower_idem (c : Char) : c.toLower.toLower = c.toLower := by
  by_cases h : c.toNat ≥ 65 ∧ c.toNat ≤ 90
  · have hc : c = Char.ofNat c.toNat := (Char.ofNat_toNat c).symm
    obtain ⟨h1, h2⟩ := h
    generalize c.toNat = n at hc h1 h2
    subst hc
    interval_cases n <;> decide
  · have : c.toLower = c := by
      unfold Char.toLower
      simp only [h, if_false]
    rw [this, this]

theorem lowercase_spec_idem (t : List Char) : lowercase_spec (lowercase_spec t) = lowercase_spec t := by
  unfold lowercase_spec
  rw [List.map_map]
  congr 1
  funext c
  exact toLower_idem c

theorem STRNCMP_iff (a b : List Char) : STRNCMP a b = true ↔ a = b := by
  unfold STRNCMP strncmp_eq
  constructor
  · intro h
    simp only [Bool.and_eq_true, beq_iff_eq] at h
    obtain ⟨hl, ht⟩ := h
    rw [List.take_length, hl, List.take_length] at ht
    exact ht
  · rintro rfl
    simp

theorem STRNCMP_eq_decide (a b : List Char) : STRNCMP a b = decide (a = b) := by
  by_cases h : a = b
  · simp [h, (STRNCMP_iff b b).mpr rfl]
  · have : STRNCMP a b ≠ true := fun h' => h ((STRNCMP_iff a b).mp h')
    simp [h, this]

theorem rindex_none (s : List Char) (c : Char) (h : c ∉ s) : rindex s c = none := by
  induction s with
  | nil => rfl
  | cons x xs ih =>
    simp only [List.mem_cons, not_or] at h
    simp [rindex, ih h.2, Ne.symm h.1]

theorem rindex_last (pre ext : List Char) (c : Char) (h : c ∉ ext) :
    rindex (pre ++ c :: ext) c = some pre.length := by
  induction pre with
  | nil => simp [rindex, rindex_none ext c h]
  | cons x xs ih => simp [rindex, ih]

/-- What `set_img_outtype` does to a name with a `.`: `ext` is the text behind
the last one. -/
theorem set_img_outtype_dot (pre ext : List Char) (h : '.' ∉ ext) :
    set_img_outtype (some (pre ++ '.' :: ext))
      = if ext.length < 3 then (TYPE_UNKNOWN, some (pre ++ '.' :: ext))
        else (outtype_spec (lowercase_spec ext), some (pre ++ '.' :: lowercase_spec ext)) := by
  have hdrop : (pre ++ '.' :: ext).drop pre.length = '.' :: ext := by simp
  have hdrop1 : (pre ++ '.' :: ext).drop (pre.length + 1) = ext := by
    rw [← List.drop_drop, hdrop]; rfl
  have htake : (pre ++ '.' :: ext).take (pre.length + 1) = pre ++ ['.'] := by
    rw [List.take_append_eq_append_take]; simp
  have hdrop2 : (pre ++ ['.'] ++ lowercase_spec ext).drop (pre.length + 1)
      = lowercase_spec ext := by
    rw [List.drop_append_eq_append_drop]; simp
  unfold set_img_outtype
  simp only [rindex_last pre ext '.' h, hdrop, hdrop1, htake, List.length_cons, map_tolower,
    hdrop2, STRNCMP_eq_decide]
  by_cases hlen : ext.length < 3
  · have : ext.length + 1 < 4 := by omega
    simp [hlen, this]
  · have : ¬ ext.length + 1 < 4 := by omega
    simp only [hlen, this, if_false]
    unfold outtype_spec
    simp

/-- C14: the output kind follows the text behind the last `.` of the name,
compared without regard to case: `TYPE_TIF` exactly for "tif" and "tiff",
`TYPE_FIT` exactly for "fit" and "fits", `TYPE_UNKNOWN` for every other name,
also for one without `.` and for no name at all. -/
theorem set_img_outtype_kind :
    (∀ pre ext : List Char, '.' ∉ ext →
      ((set_img_outtype (some (pre ++ '.' :: ext))).1 = TYPE_TIF ↔
        lowercase_spec ext = "tif".toList ∨ lowercase_spec ext = "tiff".toList) ∧
      ((set_img_outtype (some (pre ++ '.' :: ext))).1 = TYPE_FIT ↔
        lowercase_spec ext = "fit".toList ∨ lowercase_spec ext = "fits".toList) ∧
      ((set_img_outtype (some (pre ++ '.' :: ext))).1 = TYPE_UNKNOWN ↔
        ¬ (lowercase_spec ext = "tif".toList ∨ lowercase_spec ext = "tiff".toList ∨
           lowercase_spec ext = "fit".toList ∨ lowercase_spec ext = "fits".toList))) ∧
    (∀ name : List Char, '.' ∉ name → (set_img_outtype (some name)).1 = TYPE_UNKNOWN) ∧
    (set_img_outtype none).1 = TYPE_UNKNOWN := by
  refine ⟨?_, ?_, rfl⟩
  · intro pre ext h
    have e1 : "tif".toList = ['t', 'i', 'f'] := rfl
    have e2 : "tiff".toList = ['t', 'i', 'f', 'f'] := rfl
    have e3 : "fit".toList = ['f', 'i', 't'] := rfl
    have e4 : "fits".toList = ['f', 'i', 't', 's'] := rfl
    have hkind : (set_img_outtype (some (pre ++ '.' :: ext))).1
        = outtype_spec (lowercase_spec ext) := by
      rw [set_img_outtype_dot pre ext h]
      by_cases hlen : ext.length < 3
      · have hl : (lowercase_spec ext).length < 3 := by
          simpa [lowercase_spec] using hlen
        have h1 : lowercase_spec ext ≠ ['t', 'i', 'f'] := fun e => by rw [e] at hl; simp at hl
        have h2 : lowercase_spec ext ≠ ['t', 'i', 'f', 'f'] := fun e => by
          rw [e] at hl; simp at hl
        have h3 : lowercase_spec ext ≠ ['f', 'i', 't'] := fun e => by rw [e] at hl; simp at hl
        have h4 : lowercase_spec ext ≠ ['f', 'i', 't', 's'] := fun e => by
          rw [e] at hl; simp at hl
        simp only [hlen, if_true, outtype_spec, e1, e2, e3, e4, h1, h2, h3, h4, or_self,
          if_false]
      · simp [hlen]
    rw [hkind]
    unfold outtype_spec
    simp only [e1, e2, e3, e4]
    by_cases h1 : lowercase_spec ext = ['t', 'i', 'f']
    · simp [h1, TYPE_TIF, TYPE_FIT, TYPE_UNKNOWN]
    · by_cases h2 : lowercase_spec ext = ['t', 'i', 'f', 'f']
      · simp [h2, TYPE_TIF, TYPE_FIT, TYPE_UNKNOWN]
      · by_cases h3 : lowercase_spec ext = ['f', 'i', 't']
        · simp [h3, TYPE_TIF, TYPE_FIT, TYPE_UNKNOWN]
        · by_cases h4 : lowercase_spec ext = ['f', 'i', 't', 's']
          · simp [h4, TYPE_TIF, TYPE_FIT, TYPE_UNKNOWN]
          · simp [h1, h2, h3, h4, TYPE_TIF, TYPE_FIT, TYPE_UNKNOWN]
  · intro name h
    simp [set_img_outtype, rindex_none name '.' h]

/-- Witness for C14: "frame.FIT" gives `TYPE_FIT`, "frame.dat" and "frame"
give `TYPE_UNKNOWN`. -/
theorem set_img_outtype_kind_witness :
    (set_img_outtype (some "frame.FIT".toList)).1 = TYPE_FIT ∧
    (set_img_outtype (some "frame.dat".toList)).1 = TYPE_UNKNOWN ∧
    (set_img_outtype (some "frame".toList)).1 = TYPE_UNKNOWN :=
  ⟨((set_img_outtype_kind.1 "frame".toList "FIT".toList (by decide)).2.1).mpr
      (Or.inl (by decide)),
   ((set_img_outtype_kind.1 "frame".toList "dat".toList (by decide)).2.2).mpr (by decide),
   set_img_outtype_kind.2.1 "frame".toList (by decide)⟩

/-- C19: `set_img_outtype` leaves the name unchanged up to and including its
last `.`; the characters behind it are replaced by their lower-case forms when
they are at least three, and left as they are when they are fewer; a name
without `.` is left unchanged.  Through `parseopts`, "frame.FIT" becomes the
`opt.o_filename` "frame.fit". -/
theorem set_img_outtype_filename :
    (∀ pre ext : List Char, '.' ∉ ext → 3 ≤ ext.length →
      (set_img_outtype (some (pre ++ '.' :: ext))).2
        = some (pre ++ '.' :: lowercase_spec ext)) ∧
    (∀ pre ext : List Char, '.' ∉ ext → ext.length < 3 →
      (set_img_outtype (some (pre ++ '.' :: ext))).2 = some (pre ++ '.' :: ext)) ∧
    (∀ name : List Char, '.' ∉ name → (set_img_outtype (some name)).2 = some name) ∧
    ∀ gopt : options, (parseopts_f gopt "frame.FIT".toList).1.o_filename = "frame.fit".toList := by
  refine ⟨?_, ?_, ?_, ?_⟩
  · intro pre ext h hlen
    have : ¬ ext.length < 3 := by omega
    rw [set_img_outtype_dot pre ext h]
    simp [this]
  · intro pre ext h hlen
    rw [set_img_outtype_dot pre ext h]
    simp [hlen]
  · intro name h
    simp [set_img_outtype, rindex_none name '.' h]
  · intro gopt
    have h : set_img_outtype (some ("frame.FIT".toList.take PATH_MAX))
        = (TYPE_FIT, some "frame.fit".toList) := by decide
    simp only [parseopts_f, h]

/-- Witness for C19: "frame.FIT" becomes "frame.fit", "frame.Ab" and "frame"
stay. -/
theorem set_img_outtype_filename_witness :
    (set_img_outtype (some "frame.FIT".toList)).2 = some "frame.fit".toList ∧
    (set_img_outtype (some "frame.Ab".toList)).2 = some "frame.Ab".toList ∧
    (set_img_outtype (some "frame".toList)).2 = some "frame".toList :=
  ⟨set_img_outtype_filename.1 "frame".toList "FIT".toList (by decide) (by decide),
   set_img_outtype_filename.2.1 "frame".toList "Ab".toList (by decide) (by decide),
   set_img_outtype_filename.2.2.1 "frame".toList (by decide)⟩


/-- The if-chain of `lookup_ctrl_type` is a look-up of the lower-case text in
the vocabulary. -/
theorem lookup_ctrl_type_eq (code : ASI_CONTROL_TYPE → Int) (t : List Char) :
    (lookup_ctrl_type code (some t)).1
      = match vocabulary.lookup (lowercase_spec t) with
        | some c => code c
        | none => -EINVAL := by
  have hchain : (lookup_ctrl_type code (some t)).1
      = name_chain code (t.map tolower) vocabulary := rfl
  rw [hchain, map_tolower]
  generalize lowercase_spec t = p
  generalize vocabulary = l
  induction l with
  | nil => rfl
  | cons e l ih =>
    obtain ⟨name, c⟩ := e
    by_cases h : p = name
    · subst h
      simp [name_chain, (STRNCMP_iff p p).mpr rfl, List.lookup_cons]
    · have h1 : STRNCMP p name = false := by
        rw [STRNCMP_eq_decide]; simp [h]
      have h2 : (p == name) = false := by simp [h]
      simp [name_chain, h1, List.lookup_cons, h2, ih]

/-- C11: `lookup_ctrl_type` gives for every text the result it gives for the
text's lower-case form; a text whose lower-case form is one of the sixteen
names of the vocabulary resolves to the identifier listed with that name, the
names being pairwise distinct and so the identifiers (also as numbers, the
vendor's numbering being one-to-one); a text whose lower-case form is no name
of the vocabulary gives `-EINVAL`. -/
theorem lookup_ctrl_type_case_insensitive (code : ASI_CONTROL_TYPE → Int) :
    (∀ t : List Char, (lookup_ctrl_type code (some t)).1
        = (lookup_ctrl_type code (some (lowercase_spec t))).1) ∧
    (∀ e ∈ vocabulary, ∀ t : List Char, lowercase_spec t = e.1 →
        (lookup_ctrl_type code (some t)).1 = code e.2) ∧
    (vocabulary.length = 16 ∧ (vocabulary.map Prod.fst).Nodup ∧
        (vocabulary.map Prod.snd).Nodup) ∧
    (Function.Injective code → ∀ e1 ∈ vocabulary, ∀ e2 ∈ vocabulary, e1.1 ≠ e2.1 →
        (lookup_ctrl_type code (some e1.1)).1 ≠ (lookup_ctrl_type code (some e2.1)).1) ∧
    (∀ t : List Char, (∀ e ∈ vocabulary, lowercase_spec t ≠ e.1) →
        (lookup_ctrl_type code (some t)).1 = -EINVAL) ∧
    (lookup_ctrl_type code none).1 = -EINVAL := by
  have hnames : (vocabulary.map Prod.fst).Nodup := by decide
  have hids : (vocabulary.map Prod.snd).Nodup := by decide
  have hres : ∀ e ∈ vocabulary, ∀ t : List Char, lowercase_spec t = e.1 →
      (lookup_ctrl_type code (some t)).1 = code e.2 := by
    have hlook : ∀ e ∈ vocabulary, vocabulary.lookup e.1 = some e.2 := by decide
    intro e he t ht
    rw [lookup_ctrl_type_eq, ht, hlook e he]
  have hlow : ∀ e ∈ vocabulary, lowercase_spec e.1 = e.1 := by decide
  refine ⟨?_, hres, ⟨rfl, hnames, hids⟩, ?_, ?_, rfl⟩
  · intro t
    rw [lookup_ctrl_type_eq, lookup_ctrl_type_eq, lowercase_spec_idem]
  · intro hinj e1 h1 e2 h2 hne heq
    rw [hres e1 h1 e1.1 (hlow e1 h1), hres e2 h2 e2.1 (hlow e2 h2)] at heq
    have h12 : e1 = e2 := List.inj_on_of_nodup_map hids h1 h2 (hinj heq)
    exact hne (by rw [h12])
  · intro t ht
    rw [lookup_ctrl_type_eq]
    generalize lowercase_spec t = p at ht
    have : ∀ l : List (List Char × ASI_CONTROL_TYPE), (∀ e ∈ l, p ≠ e.1) →
        l.lookup p = none := by
      intro l
      induction l with
      | nil => intro _; rfl
      | cons e l ih =>
        intro hl
        have h1 : (p == e.1) = false := by simpa using hl e (List.mem_cons_self _ _)
        rw [List.lookup_cons, h1]
        exact ih (fun x hx => hl x (List.mem_cons_of_mem _ hx))
    rw [this vocabulary ht]

theorem vendor_code_injective : Function.Injective vendor_code := by
  intro a b h
  cases a <;> cases b <;> first | rfl | (simp [vendor_code] at h)

/-- Witness for C11, with the vendor's numbering: "gain" and "GAIN" give the
gain control, "Exposure" the exposure control, a different number, and
"high-speed-mode" gives `-EINVAL`. -/
theorem lookup_ctrl_type_case_insensitive_witness :
    (lookup_ctrl_type vendor_code (some "gain".toList)).1 = vendor_code .ASI_GAIN ∧
    (lookup_ctrl_type vendor_code (some "GAIN".toList)).1 = vendor_code .ASI_GAIN ∧
    (lookup_ctrl_type vendor_code (some "Exposure".toList)).1 = vendor_code .ASI_EXPOSURE ∧
    (lookup_ctrl_type vendor_code (some "gain".toList)).1
      ≠ (lookup_ctrl_type vendor_code (some "exposure".toList)).1 ∧
    (lookup_ctrl_type vendor_code (some "high-speed-mode".toList)).1 = -EINVAL :=
  ⟨(lookup_ctrl_type_case_insensitive vendor_code).2.1 ("gain".toList, .ASI_GAIN) (by decide)
      "gain".toList (by decide),
   (lookup_ctrl_type_case_insensitive vendor_code).2.1 ("gain".toList, .ASI_GAIN) (by decide)
      "GAIN".toList (by decide),
   (lookup_ctrl_type_case_insensitive vendor_code).2.1 ("exposure".toList, .ASI_EXPOSURE)
      (by decide) "Exposure".toList (by decide),
   (lookup_ctrl_type_case_insensitive vendor_code).2.2.2.1 vendor_code_injective
      ("gain".toList, .ASI_GAIN) (by decide) ("exposure".toList, .ASI_EXPOSURE) (by decide)
      (by decide),
   (lookup_ctrl_type_case_insensitive vendor_code).2.2.2.2.1 "high-speed-mode".toList
      (by decide)⟩

/-! ## Applying the assignments: theorems -/

theorem auto_iff (val : List Char) :
    (val.length = 4 ∧ strncmp_eq "auto".toList val 4 = true) ↔ val = "auto".toList := by
  unfold strncmp_eq
  constructor
  · rintro ⟨hl, h⟩
    have h' : List.take 4 "auto".toList = List.take 4 val := by simpa using h
    rw [← hl, List.take_length] at h'
    rw [← h', hl]
    rfl
  · rintro rfl
    decide

section Apply
variable {σ : Type}

/-- An assignment whose value is not "auto" makes one call, the write of
`atol` of the value with the auto flag off, and the loop goes on. -/
theorem apply_pv_not_auto (E : Env σ) (code : ASI_CONTROL_TYPE → Int) (cam_id : Int)
    (w : World σ) (pv : param_val) (h : pv.val ≠ "auto".toList) :
    apply_pv E code cam_id w pv
      = (.inr (call E w (.ASISetControlValue cam_id
            (lookup_ctrl_type code (some pv.param)).1 (atol pv.val) false)).1.rc,
         (call E w (.ASISetControlValue cam_id
            (lookup_ctrl_type code (some pv.param)).1 (atol pv.val) false)).2) := by
  unfold apply_pv
  have : ¬ (pv.val.length = 4 ∧ strncmp_eq "auto".toList pv.val 4 = true) :=
    fun h' => h ((auto_iff pv.val).mp h')
  simp only [this, if_false]

end Apply

theorem digits_value_append (ds : List Char) (c : Char) :
    digits_value (ds ++ [c]) = 10 * digits_value ds + (c.toNat - 48) := by
  unfold digits_value
  rw [List.foldl_append]
  rfl

theorem digits_value_eq (ds : List Char) :
    digits_value ds = Nat.ofDigits 10 (ds.reverse.map (fun c => c.toNat - 48)) := by
  induction ds using List.reverseRecOn with
  | nil => rfl
  | append_singleton ds c ih =>
    rw [digits_value_append, ih, List.reverse_append]
    simp [Nat.ofDigits_cons]
    omega

theorem takeWhile_all (ds : List Char) (h : ds.all Char.isDigit = true) :
    ds.takeWhile isdigit = ds := by
  rw [List.takeWhile_eq_self_iff]
  intro c hc
  rw [isdigit_eq]
  exact (List.all_eq_true.mp h) c hc


theorem isspace_of_isDigit (c : Char) (h : c.isDigit = true) : isspace c = false := by
  unfold Char.isDigit at h
  simp only [Bool.and_eq_true, decide_eq_true_eq] at h
  obtain ⟨h1, h2⟩ := h
  have h1' : 48 ≤ c.toNat := UInt32.le_def.mp h1
  have hne : c ≠ ' ' := by
    intro e; subst e; revert h1'; decide
  unfold isspace
  simp [hne]
  omega

/-- On a signed decimal `atol` gives the integer it stands for, kept within
`long`. -/
theorem atol_signed_decimal (s : List Char) (h : is_signed_decimal s = true) :
    atol s = max LONG_MIN (min LONG_MAX (decimal_value_spec s)) := by
  cases s with
  | nil => simp [is_signed_decimal] at h
  | cons c r =>
    by_cases hm : c = '-'
    · subst hm
      have hsp : isspace '-' = false := by decide
      simp only [is_signed_decimal, Bool.and_eq_true] at h
      have h1 : atol ('-' :: r) = max LONG_MIN (-(digits_value (r.takeWhile isdigit) : Int)) := by
        simp only [atol, List.dropWhile_cons, hsp]; rfl
      have h2 : decimal_value_spec ('-' :: r)
          = -((Nat.ofDigits 10 (r.reverse.map (fun c => c.toNat - 48)) : Nat) : Int) := rfl
      rw [h1, h2, takeWhile_all r h.2, digits_value_eq]
      generalize Nat.ofDigits 10 (r.reverse.map (fun c => c.toNat - 48)) = n
      unfold LONG_MIN LONG_MAX
      omega
    · by_cases hp : c = '+'
      · subst hp
        have hsp : isspace '+' = false := by decide
        simp only [is_signed_decimal, Bool.and_eq_true] at h
        have h1 : atol ('+' :: r) = min LONG_MAX (digits_value (r.takeWhile isdigit)) := by
          simp only [atol, List.dropWhile_cons, hsp]; rfl
        have h2 : decimal_value_spec ('+' :: r)
            = ((Nat.ofDigits 10 (r.reverse.map (fun c => c.toNat - 48)) : Nat) : Int) := rfl
        rw [h1, h2, takeWhile_all r h.2, digits_value_eq]
        generalize Nat.ofDigits 10 (r.reverse.map (fun c => c.toNat - 48)) = n
        unfold LONG_MIN LONG_MAX
        omega
      · have hd : (c :: r).all Char.isDigit = true := by
          unfold is_signed_decimal at h
          split at h
          · rename_i heq; cases heq; exact absurd rfl hm
          · rename_i heq; cases heq; exact absurd rfl hp
          · simp only [Bool.and_eq_true] at h; exact h.2
        have hc : c.isDigit = true := by
          simp only [List.all_cons, Bool.and_eq_true] at hd; exact hd.1
        have hsp : isspace c = false := isspace_of_isDigit c hc
        have h1 : strtol_signed (c :: r)
            = min LONG_MAX (digits_value ((c :: r).takeWhile isdigit)) := by
          unfold strtol_signed
          split
          · rename_i heq; cases heq; exact absurd rfl hm
          · rename_i heq; cases heq; exact absurd rfl hp
          · rfl
        have h2 : decimal_value_spec (c :: r)
            = ((Nat.ofDigits 10 ((c :: r).reverse.map (fun c => c.toNat - 48)) : Nat) : Int) := by
          unfold decimal_value_spec
          split
          · rename_i heq; cases heq; exact absurd rfl hm
          · rename_i heq; cases heq; exact absurd rfl hp
          · rfl
        have h0 : atol (c :: r) = strtol_signed (c :: r) := by
          simp only [atol, List.dropWhile_cons, hsp]; rfl
        rw [h0, h1, h2, takeWhile_all (c :: r) hd, digits_value_eq]
        generalize Nat.ofDigits 10 ((c :: r).reverse.map (fun c => c.toNat - 48)) = n
        unfold LONG_MIN LONG_MAX
        omega


section ApplyClaims
variable {σ : Type}

/-- A text whose lower-case form is a name of the vocabulary resolves to the
identifier listed with it. -/
theorem lookup_ctrl_type_resolves (code : ASI_CONTROL_TYPE → Int)
    (e : List Char × ASI_CONTROL_TYPE) (he : e ∈ vocabulary) (t : List Char)
    (ht : lowercase_spec t = e.1) : (lookup_ctrl_type code (some t)).1 = code e.2 := by
  have hlook : ∀ e ∈ vocabulary, vocabulary.lookup e.1 = some e.2 := by decide
  rw [lookup_ctrl_type_eq, ht, hlook e he]

/-- An assignment whose value is "auto" reads the control and, when the read
gave 0, writes the value read with the auto flag on; when the read failed the
loop is left. -/
theorem apply_pv_auto (E : Env σ) (code : ASI_CONTROL_TYPE → Int) (cam_id : Int)
    (w : World σ) (pv : param_val) (h : pv.val = "auto".toList) :
    apply_pv E code cam_id w pv
      = if (call E w (.ASIGetControlValue cam_id
              (lookup_ctrl_type code (some pv.param)).1)).1.rc ≠ 0 then
          (.inl (call E w (.ASIGetControlValue cam_id
              (lookup_ctrl_type code (some pv.param)).1)).1.rc,
           (call E w (.ASIGetControlValue cam_id
              (lookup_ctrl_type code (some pv.param)).1)).2)
        else
          (.inr (call E (call E w (.ASIGetControlValue cam_id
              (lookup_ctrl_type code (some pv.param)).1)).2
              (.ASISetControlValue cam_id (lookup_ctrl_type code (some pv.param)).1
                (call E w (.ASIGetControlValue cam_id
                  (lookup_ctrl_type code (some pv.param)).1)).1.value true)).1.rc,
           (call E (call E w (.ASIGetControlValue cam_id
              (lookup_ctrl_type code (some pv.param)).1)).2
              (.ASISetControlValue cam_id (lookup_ctrl_type code (some pv.param)).1
                (call E w (.ASIGetControlValue cam_id
                  (lookup_ctrl_type code (some pv.param)).1)).1.value true)).2) := by
  unfold apply_pv
  have : pv.val.length = 4 ∧ strncmp_eq "auto".toList pv.val 4 = true :=
    (auto_iff pv.val).mpr h
  simp only [this, and_self, if_true]

/-- C12 (amended): an assignment whose name, in lower case, is a name of the
vocabulary is applied on the control listed with that name.  With the value
"auto" the control is read first; when the read gives 0 the value read is
written back with the auto flag on, these being the only two calls, and when
the read fails that read is the only call and the loop is left.  With a signed
decimal value within `long` the only call is the write of that integer with the
auto flag off. -/
theorem apply_pv_known_control (E : Env σ) (code : ASI_CONTROL_TYPE → Int) (cam_id : Int)
    (w : World σ) (pv : param_val) (e : List Char × ASI_CONTROL_TYPE)
    (he : e ∈ vocabulary) (hname : lowercase_spec pv.param = e.1) :
    (pv.val = "auto".toList →
      (call E w (.ASIGetControlValue cam_id (code e.2))).1.rc = 0 →
      ∃ rc rs, (apply_pv E code cam_id w pv).1 = .inr rc ∧
        (apply_pv E code cam_id w pv).2.trace = w.trace ++
          [(.ASIGetControlValue cam_id (code e.2),
              (call E w (.ASIGetControlValue cam_id (code e.2))).1),
           (.ASISetControlValue cam_id (code e.2)
              (call E w (.ASIGetControlValue cam_id (code e.2))).1.value true, rs)]) ∧
    (pv.val = "auto".toList →
      (call E w (.ASIGetControlValue cam_id (code e.2))).1.rc ≠ 0 →
      apply_pv E code cam_id w pv
        = (.inl (call E w (.ASIGetControlValue cam_id (code e.2))).1.rc,
           (call E w (.ASIGetControlValue cam_id (code e.2))).2) ∧
      (apply_pv E code cam_id w pv).2.trace = w.trace ++
        [(.ASIGetControlValue cam_id (code e.2),
            (call E w (.ASIGetControlValue cam_id (code e.2))).1)]) ∧
    (is_signed_decimal pv.val = true →
      LONG_MIN ≤ decimal_value_spec pv.val → decimal_value_spec pv.val ≤ LONG_MAX →
      ∃ rc rs, (apply_pv E code cam_id w pv).1 = .inr rc ∧
        (apply_pv E code cam_id w pv).2.trace = w.trace ++
          [(.ASISetControlValue cam_id (code e.2) (decimal_value_spec pv.val) false, rs)]) := by
  have hct := lookup_ctrl_type_resolves code e he pv.param hname
  refine ⟨?_, ?_, ?_⟩
  · intro hauto hrc
    rw [apply_pv_auto E code cam_id w pv hauto, hct]
    rw [if_neg (by simpa using hrc)]
    refine ⟨_, (E (call E w (.ASIGetControlValue cam_id (code e.2))).2.env
      (.ASISetControlValue cam_id (code e.2)
        (call E w (.ASIGetControlValue cam_id (code e.2))).1.value true)).1, rfl, ?_⟩
    rw [call_trace, call_trace, List.append_assoc]
    rfl
  · intro hauto hrc
    rw [apply_pv_auto E code cam_id w pv hauto, hct]
    rw [if_pos hrc]
    exact ⟨rfl, rfl⟩
  · intro hdec hlo hhi
    have hne : pv.val ≠ "auto".toList := by
      intro h; rw [h] at hdec; revert hdec; decide
    have hval : atol pv.val = decimal_value_spec pv.val := by
      rw [atol_signed_decimal pv.val hdec]
      omega
    rw [apply_pv_not_auto E code cam_id w pv hne, hct, hval]
    exact ⟨_, _, rfl, rfl⟩

/-- Witness for C12 on a simulated control channel that reads 77: "Exposure=auto"
reads the exposure control and writes 77 back with the auto flag on; with a
failing read nothing is written; "gain=-50" writes -50 with the auto flag off. -/
theorem apply_pv_known_control_witness :
    (("exposure".toList, ASI_CONTROL_TYPE.ASI_EXPOSURE) ∈ vocabulary ∧
      lowercase_spec "Exposure".toList = "exposure".toList) ∧
    (∃ rc rs, (apply_pv sim_ctrl vendor_code 0 ⟨⟨0, 77⟩, []⟩
        ⟨"Exposure".toList, "auto".toList⟩).1 = .inr rc ∧
      (apply_pv sim_ctrl vendor_code 0 ⟨⟨0, 77⟩, []⟩
          ⟨"Exposure".toList, "auto".toList⟩).2.trace = [] ++
        [(.ASIGetControlValue 0 (vendor_code .ASI_EXPOSURE),
            (call sim_ctrl ⟨⟨0, 77⟩, []⟩
              (.ASIGetControlValue 0 (vendor_code .ASI_EXPOSURE))).1),
         (.ASISetControlValue 0 (vendor_code .ASI_EXPOSURE)
            (call sim_ctrl ⟨⟨0, 77⟩, []⟩
              (.ASIGetControlValue 0 (vendor_code .ASI_EXPOSURE))).1.value true, rs)]) ∧
    ((apply_pv sim_ctrl vendor_code 0 ⟨⟨3, 77⟩, []⟩ ⟨"Exposure".toList, "auto".toList⟩
        = (.inl (call sim_ctrl ⟨⟨3, 77⟩, []⟩
              (.ASIGetControlValue 0 (vendor_code .ASI_EXPOSURE))).1.rc,
           (call sim_ctrl ⟨⟨3, 77⟩, []⟩
              (.ASIGetControlValue 0 (vendor_code .ASI_EXPOSURE))).2)) ∧
      (apply_pv sim_ctrl vendor_code 0 ⟨⟨3, 77⟩, []⟩
          ⟨"Exposure".toList, "auto".toList⟩).2.trace = [] ++
        [(.ASIGetControlValue 0 (vendor_code .ASI_EXPOSURE),
            (call sim_ctrl ⟨⟨3, 77⟩, []⟩
              (.ASIGetControlValue 0 (vendor_code .ASI_EXPOSURE))).1)]) ∧
    (∃ rc rs, (apply_pv sim_ctrl vendor_code 0 ⟨⟨0, 77⟩, []⟩
        ⟨"gain".toList, "-50".toList⟩).1 = .inr rc ∧
      (apply_pv sim_ctrl vendor_code 0 ⟨⟨0, 77⟩, []⟩
          ⟨"gain".toList, "-50".toList⟩).2.trace = [] ++
        [(.ASISetControlValue 0 (vendor_code .ASI_GAIN)
            (decimal_value_spec "-50".toList) false, rs)]) ∧
    decimal_value_spec "-50".toList = -50 :=
  ⟨⟨by decide, by decide⟩,
   (apply_pv_known_control sim_ctrl vendor_code 0 ⟨⟨0, 77⟩, []⟩
      ⟨"Exposure".toList, "auto".toList⟩ ("exposure".toList, .ASI_EXPOSURE)
      (by decide) (by decide)).1 rfl rfl,
   (apply_pv_known_control sim_ctrl vendor_code 0 ⟨⟨3, 77⟩, []⟩
      ⟨"Exposure".toList, "auto".toList⟩ ("exposure".toList, .ASI_EXPOSURE)
      (by decide) (by decide)).2.1 rfl (by decide),
   (apply_pv_known_control sim_ctrl vendor_code 0 ⟨⟨0, 77⟩, []⟩
      ⟨"gain".toList, "-50".toList⟩ ("gain".toList, .ASI_GAIN)
      (by decide) (by decide)).2.2 (by decide) (by decide) (by decide),
   by decide⟩

/-- Counterexample to C12: on a control channel whose read fails, `main`
applying "gain=auto" makes the read and leaves the loop; no write is made for
the assignment. -/
theorem auto_read_failure_no_write :
    main_set sim_ctrl vendor_code (fun _ => true) 0 "gain=auto".toList ⟨⟨3, 77⟩, []⟩
      = some (false, ⟨⟨3, 77⟩, [(.ASIGetControlValue 0 0, { rc := 3, value := 77 })]⟩) ∧
    (∀ r, main_set sim_ctrl vendor_code (fun _ => true) 0 "gain=auto".toList ⟨⟨3, 77⟩, []⟩
        = some r → ncalls Call.is_set_control r.2 = 0 ∧ ncalls Call.is_get_control r.2 = 1) := by
  have h : main_set sim_ctrl vendor_code (fun _ => true) 0 "gain=auto".toList ⟨⟨3, 77⟩, []⟩
      = some (false, ⟨⟨3, 77⟩, [(.ASIGetControlValue 0 0, { rc := 3, value := 77 })]⟩) := by
    decide
  refine ⟨h, ?_⟩
  intro r hr
  rw [h] at hr
  cases hr
  decide

/-- The model of `atol` keeps a value beyond `long` at the nearest bound. -/
theorem atol_saturates :
    is_signed_decimal "9223372036854775808".toList = true ∧
    decimal_value_spec "9223372036854775808".toList = 9223372036854775808 ∧
    atol "9223372036854775808".toList = LONG_MAX ∧
    atol "-9223372036854775809".toList = LONG_MIN := by
  decide

/-- C13 (amended): an assignment whose value is not "auto", be it a signed
decimal or not, makes exactly one call: the write of `atol` of the value with
the auto flag off, on what `lookup_ctrl_type` gave for the name.  No read is
made, and the loop goes on to the next assignment. -/
theorem apply_pv_value_unchecked (E : Env σ) (code : ASI_CONTROL_TYPE → Int) (cam_id : Int)
    (w : World σ) (pv : param_val) (h : pv.val ≠ "auto".toList) :
    ∃ rc rs, (apply_pv E code cam_id w pv).1 = .inr rc ∧
      (apply_pv E code cam_id w pv).2.trace = w.trace ++
        [(.ASISetControlValue cam_id (lookup_ctrl_type code (some pv.param)).1
            (atol pv.val) false, rs)] ∧
      ncalls Call.is_set_control (apply_pv E code cam_id w pv).2
        = ncalls Call.is_set_control w + 1 ∧
      ncalls Call.is_get_control (apply_pv E code cam_id w pv).2
        = ncalls Call.is_get_control w := by
  rw [apply_pv_not_auto E code cam_id w pv h]
  refine ⟨_, _, rfl, rfl, ?_, ?_⟩
  · rw [ncalls_call]; rfl
  · rw [ncalls_call]; rfl

/-- Witness for C13: "gain=12abc" writes 12 to the gain control with the auto
flag off. -/
theorem apply_pv_value_unchecked_witness :
    "12abc".toList ≠ "auto".toList ∧ is_signed_decimal "12abc".toList = false ∧
    atol "12abc".toList = 12 ∧
    (lookup_ctrl_type vendor_code (some "gain".toList)).1 = 0 ∧
    ∃ rc rs, (apply_pv sim_ctrl vendor_code 0 ⟨⟨0, 77⟩, []⟩
        ⟨"gain".toList, "12abc".toList⟩).1 = .inr rc ∧
      (apply_pv sim_ctrl vendor_code 0 ⟨⟨0, 77⟩, []⟩
          ⟨"gain".toList, "12abc".toList⟩).2.trace = [] ++
        [(.ASISetControlValue 0 (lookup_ctrl_type vendor_code (some "gain".toList)).1
            (atol "12abc".toList) false, rs)] ∧
      ncalls Call.is_set_control (apply_pv sim_ctrl vendor_code 0 ⟨⟨0, 77⟩, []⟩
          ⟨"gain".toList, "12abc".toList⟩).2
        = ncalls Call.is_set_control (⟨⟨0, 77⟩, []⟩ : World SimCtrl) + 1 ∧
      ncalls Call.is_get_control (apply_pv sim_ctrl vendor_code 0 ⟨⟨0, 77⟩, []⟩
          ⟨"gain".toList, "12abc".toList⟩).2
        = ncalls Call.is_get_control (⟨⟨0, 77⟩, []⟩ : World SimCtrl) :=
  ⟨by decide, by decide, by decide, by decide,
   apply_pv_value_unchecked sim_ctrl vendor_code 0 ⟨⟨0, 77⟩, []⟩
      ⟨"gain".toList, "12abc".toList⟩ (by decide)⟩

/-- Counterexample to C13: `main` applying "gain=abc" reports no failure and
writes the value 0 to the gain control; "abc" is neither "auto" nor a signed
decimal. -/
theorem non_numeric_value_written :
    "abc".toList ≠ "auto".toList ∧ is_signed_decimal "abc".toList = false ∧
    main_set sim_ctrl vendor_code (fun _ => true) 0 "gain=abc".toList ⟨⟨0, 77⟩, []⟩
      = some (true, ⟨⟨0, 77⟩, [(.ASISetControlValue 0 0 0 false, {})]⟩) := by
  decide

end ApplyClaims

/-! ## Header record and scanline bytes: theorems -/

section Header
variable {σ : Type}

end Header

section Scanlines
variable {σ : Type}

theorem bytes_read_append (cs1 : List Call) : ∀ (t : TiffTags) (cs2 : List Call),
    bytes_read t (cs1 ++ cs2) = bytes_read t cs1 ++ bytes_read (cs1.foldl TiffTags.set t) cs2 := by
  induction cs1 with
  | nil => intro t cs2; rfl
  | cons c cs1 ih =>
    intro t cs2
    cases c <;> simp [bytes_read, ih, TiffTags.set]

/-- The calls of `set_tiff_fields` read nothing from the buffer and leave the
width of `opt` and the `bps` and `spp` passed in as the tags in force. -/
theorem set_tiff_fields_tags (E : Env σ) (gopt : options) (w : World σ) (bps spp : Int) :
    ∃ cs : List Call, (set_tiff_fields E gopt w bps spp).trace.map Prod.fst
        = w.trace.map Prod.fst ++ cs ∧
      ∀ t : TiffTags, bytes_read t cs = [] ∧
        cs.foldl TiffTags.set t = { width := gopt.o_width, bps := bps, spp := spp } := by
  unfold set_tiff_fields
  dsimp only
  simp only [call_trace, List.map_append, List.map_cons, List.map_nil, List.append_assoc,
    List.singleton_append]
  refine ⟨_, rfl, ?_⟩
  intro t
  constructor
  · simp [bytes_read, TiffTags.set]
  · simp [TiffTags.set]

/-- The row loop with every row write succeeding: the calls it adds. -/
theorem write_rows_calls_eq (E : Env σ) (gopt : options) (factor : Int)
    (hrow : ∀ s' off y, (E s' (.TIFFWriteScanline off y)).1.rc = 1) :
    ∀ (n : Nat) (y rc : Int) (w : World σ), y + n ≤ gopt.o_height →
      (write_rows E gopt factor n y rc w).2.trace.map Prod.fst
        = w.trace.map Prod.fst ++
          (List.range n).map (fun i : Nat =>
            Call.TIFFWriteScanline (wrap_int ((y + i) * factor)) (y + i)) := by
  intro n
  induction n with
  | zero =>
    intro y rc w _
    simp [write_rows]
  | succ n ih =>
    intro y rc w hy
    have hlt : y < gopt.o_height := by omega
    have h1 : (call E w (.TIFFWriteScanline (wrap_int (y * factor)) y)).1.rc = 1 := hrow _ _ _
    have hne : ¬ ((1 : Int) = -1) := by decide
    rw [write_rows]
    simp only [hlt, if_true, h1, hne, if_false]
    rw [ih (y + 1) 1 (call E w (.TIFFWriteScanline (wrap_int (y * factor)) y)).2
      (by push_cast at hy ⊢; omega)]
    rw [call_trace, List.map_append, List.range_succ_eq_map]
    simp [add_assoc, add_comm, add_left_comm, Function.comp]

theorem bytes_read_rows (t : TiffTags) (f : Nat → Int) (g : Nat → Int) (l : List Nat) :
    bytes_read t (l.map (fun i => Call.TIFFWriteScanline (f i) (g i)))
      = l.map (fun i => (f i, TIFFScanlineSize t)) := by
  induction l with
  | nil => rfl
  | cons a l ih => simp [bytes_read, ih]

/-- Rows of `L` bytes at the offsets `a * L`, `(a + 1) * L`, ... tile the bytes
up to the end of the last row. -/
theorem tiles_from_rows (L : Int) (hL : 0 < L) : ∀ (n a : Nat),
    tiles_from (a * L) ((List.range' a n).map (fun y : Nat => ((y : Int) * L, L)))
      (((a + n : Nat) : Int) * L) = true := by
  intro n
  induction n with
  | zero => intro a; simp [tiles_from]
  | succ n ih =>
    intro a
    have h := ih (a + 1)
    have e1 : ((a : Int) * L + L) = ((a + 1 : Nat) : Int) * L := by push_cast; ring
    have e2 : a + 1 + n = a + (n + 1) := by omega
    simp only [List.range'_succ, List.map_cons, tiles_from, beq_self_eq_true, hL, decide_True,
      Bool.and_self, Bool.true_and, e1]
    rw [← e2]
    exact h

theorem scanline_size_eq (width t : Int)
    (ht : t = ASI_IMG_RAW8 ∨ t = ASI_IMG_RAW16 ∨ t = ASI_IMG_Y8) :
    TIFFScanlineSize ⟨width, wrap_int8 (bits_per_sample t), wrap_int8 (samples_per_pixel t)⟩
      = row_length_spec width t := by
  rcases ht with rfl | rfl | rfl <;>
    simp [TIFFScanlineSize, row_length_spec, bits_per_sample, samples_per_pixel, wrap_int8,
      ASI_IMG_RAW8, ASI_IMG_RAW16, ASI_IMG_RGB24, ASI_IMG_Y8] <;> omega

/-- The calls of `write_tiff` with the file opened and every row write
succeeding: the open, the calls of `set_tiff_fields`, one row write per row and
the close. -/
theorem write_tiff_calls_eq (E : Env σ) (gopt : options) (s : σ) (bps spp : Int)
    (hh : 0 < gopt.o_height)
    (hopen : (E s (.TIFFOpen gopt.o_filename)).1.ptr = true)
    (hrow : ∀ s' off y, (E s' (.TIFFWriteScanline off y)).1.rc = 1) :
    ∃ cs : List Call,
      (∀ t : TiffTags, bytes_read t cs = [] ∧
        cs.foldl TiffTags.set t = { width := gopt.o_width, bps := bps, spp := spp }) ∧
      (write_tiff E gopt ⟨s, []⟩ bps spp).2.trace.map Prod.fst
        = Call.TIFFOpen gopt.o_filename :: (cs ++
            ((List.range gopt.o_height.toNat).map (fun i : Nat =>
              Call.TIFFWriteScanline
                (wrap_int (((0 : Int) + i) * wrap_uint16 (c_div (wrap_int
                  (gopt.o_width * bits_per_sample gopt.o_img_type)) 8))) ((0 : Int) + i)) ++
            [Call.TIFFClose])) := by
  obtain ⟨cs, hcs, htags⟩ := set_tiff_fields_tags E gopt
    (call E ⟨s, []⟩ (.TIFFOpen gopt.o_filename)).2 bps spp
  refine ⟨cs, htags, ?_⟩
  unfold write_tiff
  dsimp only
  have hopen' : ¬ ((call E ⟨s, []⟩ (.TIFFOpen gopt.o_filename)).1.ptr = false) := by
    simp [call_reply, hopen]
  rw [if_neg hopen']
  have hout : ∀ (rc : Int) (w : World σ),
      ((if rc = -ECANCELED then (-ECANCELED, (call E w .TIFFClose).2)
          else ((0 : Int), (call E w .TIFFClose).2)).2).trace.map Prod.fst
        = w.trace.map Prod.fst ++ [Call.TIFFClose] := by
    intro rc w
    split_ifs <;> simp [call_trace]
  rw [hout, write_rows_calls_eq E gopt _ hrow gopt.o_height.toNat 0 0 _
    (by rw [Int.toNat_of_nonneg hh.le]; omega), hcs]
  simp [call_trace]

/-- C18 (as amended): for each of the four pixel formats and positive width
and height, the row length `L = width * bits_per_sample(format) / 8` being at
most 65535 and `height * L` at most `INT_MAX`, `write_tiff` with the file
opened and every row write succeeding writes exactly `height` scanlines, row
`y` from byte offset `y * L`, and returns 0, and `height * L` is
`calc_buf_size(width, height, format)`.  For RAW8, RAW16 and Y8, with the bits
per sample and samples per pixel that `capture` passes for the format, each
scanline takes exactly `L` bytes of the buffer: the rows are the byte ranges
`[y * L, y * L + L)`, which are contiguous, do not overlap and cover exactly
the `calc_buf_size` bytes of the buffer. -/
theorem write_tiff_rows (E : Env σ) (gopt : options) (s : σ) (bps spp : Int)
    (ht : gopt.o_img_type = ASI_IMG_RAW8 ∨ gopt.o_img_type = ASI_IMG_RAW16 ∨
      gopt.o_img_type = ASI_IMG_RGB24 ∨ gopt.o_img_type = ASI_IMG_Y8)
    (hw : 0 < gopt.o_width) (hh : 0 < gopt.o_height)
    (hL : row_length_spec gopt.o_width gopt.o_img_type ≤ 65535)
    (hsize : gopt.o_height * row_length_spec gopt.o_width gopt.o_img_type ≤ INT_MAX)
    (hopen : (E s (.TIFFOpen gopt.o_filename)).1.ptr = true)
    (hrow : ∀ s' off y, (E s' (.TIFFWriteScanline off y)).1.rc = 1) :
    ((write_tiff E gopt ⟨s, []⟩ bps spp).2.trace.map Prod.fst).filter Call.is_scanline
      = (List.range gopt.o_height.toNat).map (fun y : Nat =>
          Call.TIFFWriteScanline (y * row_length_spec gopt.o_width gopt.o_img_type) y) ∧
    (write_tiff E gopt ⟨s, []⟩ bps spp).1 = 0 ∧
    gopt.o_height * row_length_spec gopt.o_width gopt.o_img_type
      = calc_buf_size gopt.o_width gopt.o_height gopt.o_img_type ∧
    (gopt.o_img_type ≠ ASI_IMG_RGB24 →
      bps = wrap_int8 (bits_per_sample gopt.o_img_type) →
      spp = wrap_int8 (samples_per_pixel gopt.o_img_type) →
      bytes_read {} ((write_tiff E gopt ⟨s, []⟩ bps spp).2.trace.map Prod.fst)
        = (List.range gopt.o_height.toNat).map (fun y : Nat =>
            ((y : Int) * row_length_spec gopt.o_width gopt.o_img_type,
              row_length_spec gopt.o_width gopt.o_img_type)) ∧
      tiles_from 0 (bytes_read {} ((write_tiff E gopt ⟨s, []⟩ bps spp).2.trace.map Prod.fst))
        (calc_buf_size gopt.o_width gopt.o_height gopt.o_img_type) = true) := by
  obtain ⟨hfac, hL0⟩ := write_tiff_factor gopt.o_width gopt.o_img_type hw ht hL
  have hoff : ∀ i ∈ List.range gopt.o_height.toNat,
      wrap_int (((0 : Int) + (i : Nat)) * row_length_spec gopt.o_width gopt.o_img_type)
        = (i : Int) * row_length_spec gopt.o_width gopt.o_img_type := by
    intro i hi
    have hi' : (i : Int) < gopt.o_height := by
      have := List.mem_range.mp hi
      omega
    have hnn : (0 : Int) ≤ (i : Int) * row_length_spec gopt.o_width gopt.o_img_type :=
      mul_nonneg (by omega) hL0
    have hle : (i : Int) * row_length_spec gopt.o_width gopt.o_img_type
        ≤ gopt.o_height * row_length_spec gopt.o_width gopt.o_img_type :=
      mul_le_mul_of_nonneg_right hi'.le hL0
    simp only [zero_add]
    rw [wrap_int_of_range _ hnn (le_trans hle hsize)]
  have hbuf := calc_buf_size_rows _ _ _ hw hh ht hsize
  refine ⟨?_, ?_, hbuf, ?_⟩
  · unfold write_tiff
    dsimp only
    have hopen' : ¬ ((call E ⟨s, []⟩ (.TIFFOpen gopt.o_filename)).1.ptr = false) := by
      simp [call_reply, hopen]
    rw [if_neg hopen', hfac]
    have hrows := (write_rows_trace E gopt (row_length_spec gopt.o_width gopt.o_img_type) hrow
      gopt.o_height.toNat 0 0
      (set_tiff_fields E gopt (call E ⟨s, []⟩ (.TIFFOpen gopt.o_filename)).2 bps spp)
      (by rw [Int.toNat_of_nonneg hh.le]; omega)).1
    have hfields := (set_tiff_fields_no_rows E gopt
      (call E ⟨s, []⟩ (.TIFFOpen gopt.o_filename)).2 bps spp).filter_eq
      (p := Call.is_scanline) (fun c hc => by simpa using hc)
    have hout : ∀ (rc : Int) (w : World σ),
        (((if rc = -ECANCELED then (-ECANCELED, (call E w .TIFFClose).2)
            else ((0 : Int), (call E w .TIFFClose).2)).2).trace.map Prod.fst).filter
            Call.is_scanline
          = (w.trace.map Prod.fst).filter Call.is_scanline := by
      intro rc w
      split_ifs <;> simp [call_trace, Call.is_scanline]
    rw [hout, hrows, hfields]
    simp only [call_trace, List.nil_append, List.map_cons, List.map_nil, List.filter_cons,
      Call.is_scanline, List.filter_nil, Bool.false_eq_true, if_false]
    apply List.map_congr_left
    intro i hi
    rw [hoff i hi]
    simp only [zero_add]
  · unfold write_tiff
    dsimp only
    have hopen' : ¬ ((call E ⟨s, []⟩ (.TIFFOpen gopt.o_filename)).1.ptr = false) := by
      simp [call_reply, hopen]
    rw [if_neg hopen']
    have hres := (write_rows_trace E gopt
      (wrap_uint16 (c_div (wrap_int (gopt.o_width * bits_per_sample gopt.o_img_type)) 8)) hrow
      gopt.o_height.toNat 0 0
      (set_tiff_fields E gopt (call E ⟨s, []⟩ (.TIFFOpen gopt.o_filename)).2 bps spp)
      (by rw [Int.toNat_of_nonneg hh.le]; omega)).2
    have hne : ¬ ((write_rows E gopt
        (wrap_uint16 (c_div (wrap_int (gopt.o_width * bits_per_sample gopt.o_img_type)) 8))
        gopt.o_height.toNat 0 0
        (set_tiff_fields E gopt (call E ⟨s, []⟩ (.TIFFOpen gopt.o_filename)).2 bps spp)).1
        = -ECANCELED) := by
      rcases hres with h | h <;> rw [h] <;> decide
    rw [if_neg hne]
  · intro hrgb hbps hspp
    have ht3 : gopt.o_img_type = ASI_IMG_RAW8 ∨ gopt.o_img_type = ASI_IMG_RAW16 ∨
        gopt.o_img_type = ASI_IMG_Y8 := by
      rcases ht with h | h | h | h
      · exact Or.inl h
      · exact Or.inr (Or.inl h)
      · exact absurd h hrgb
      · exact Or.inr (Or.inr h)
    have hpos : 0 < row_length_spec gopt.o_width gopt.o_img_type := by
      have hb : 0 < bytes_per_pixel_spec gopt.o_img_type := by
        rcases ht with h | h | h | h <;> rw [h] <;> decide
      rw [(row_length_spec_eq gopt.o_width gopt.o_img_type ht).1]
      exact mul_pos hw hb
    obtain ⟨cs, htags, hcalls⟩ := write_tiff_calls_eq E gopt s bps spp hh hopen hrow
    have hread : bytes_read {} ((write_tiff E gopt ⟨s, []⟩ bps spp).2.trace.map Prod.fst)
        = (List.range gopt.o_height.toNat).map (fun y : Nat =>
            ((y : Int) * row_length_spec gopt.o_width gopt.o_img_type,
              row_length_spec gopt.o_width gopt.o_img_type)) := by
      rw [hcalls, hfac]
      have h0 : bytes_read {} (Call.TIFFOpen gopt.o_filename :: (cs ++
            ((List.range gopt.o_height.toNat).map (fun i : Nat =>
              Call.TIFFWriteScanline
                (wrap_int (((0 : Int) + i) * row_length_spec gopt.o_width gopt.o_img_type))
                ((0 : Int) + i)) ++ [Call.TIFFClose])))
          = bytes_read {} (cs ++
            ((List.range gopt.o_height.toNat).map (fun i : Nat =>
              Call.TIFFWriteScanline
                (wrap_int (((0 : Int) + i) * row_length_spec gopt.o_width gopt.o_img_type))
                ((0 : Int) + i)) ++ [Call.TIFFClose])) := rfl
      rw [h0, bytes_read_append, (htags {}).1, (htags {}).2, List.nil_append, bytes_read_append,
        bytes_read_rows, hbps, hspp, scanline_size_eq gopt.o_width gopt.o_img_type ht3]
      have hclose : ∀ t : TiffTags, bytes_read t [Call.TIFFClose] = [] := fun _ => rfl
      rw [hclose, List.append_nil]
      apply List.map_congr_left
      intro i hi
      rw [hoff i hi]
    refine ⟨hread, ?_⟩
    rw [hread, ← hbuf, List.range_eq_range']
    have h := tiles_from_rows (row_length_spec gopt.o_width gopt.o_img_type) hpos
      gopt.o_height.toNat 0
    have e : (((0 + gopt.o_height.toNat : Nat) : Int)) = gopt.o_height := by
      rw [Nat.zero_add, Int.toNat_of_nonneg hh.le]
    rw [e] at h
    simpa using h

end Scanlines

/-- Witness for C18: the 4 x 3 RAW16 frame is written as rows 0, 1, 2 from
offsets 0, 8, 16, each of 8 bytes, and 3 * 8 = 24 is its buffer size. -/
theorem write_tiff_rows_witness :
    (((write_tiff sim opt_4x3 ⟨sim_4x3 [] 0, []⟩ 16 1).2.trace.map Prod.fst).filter
        Call.is_scanline
      = [.TIFFWriteScanline 0 0, .TIFFWriteScanline 8 1, .TIFFWriteScanline 16 2] ∧
    (write_tiff sim opt_4x3 ⟨sim_4x3 [] 0, []⟩ 16 1).1 = 0 ∧
    (3 : Int) * 8 = calc_buf_size 4 3 ASI_IMG_RAW16) ∧
    (bytes_read {} ((write_tiff sim opt_4x3 ⟨sim_4x3 [] 0, []⟩ 16 1).2.trace.map Prod.fst)
      = [(0, 8), (8, 8), (16, 8)] ∧
    tiles_from 0 (bytes_read {} ((write_tiff sim opt_4x3 ⟨sim_4x3 [] 0, []⟩ 16 1).2.trace.map
      Prod.fst)) (calc_buf_size 4 3 ASI_IMG_RAW16) = true) :=
  have h := write_tiff_rows sim opt_4x3 (sim_4x3 [] 0) 16 1 (by decide) (by decide) (by decide)
    (by decide) (by decide) rfl (fun _ _ _ => rfl)
  ⟨⟨h.1, h.2.1, h.2.2.1⟩, h.2.2.2 (by decide) (by decide) (by decide)⟩

/-- Counterexample to C18 as stated: for a RAW8 frame 65536 pixels wide and 2
rows high the row length 65536 does not fit the `uint16_t` stride, which
becomes 0: row 1 is taken from offset 0 instead of 65536, so that both rows are
the first 65536 bytes of the buffer of 131072 bytes and its second half is
never written. -/
theorem write_tiff_stride_wraps :
    row_length_spec opt_wide.o_width opt_wide.o_img_type = 65536 ∧
    ((write_tiff sim opt_wide ⟨sim_4x3 [] 0, []⟩ 8 1).2.trace.map Prod.fst).filter
        Call.is_scanline
      = [.TIFFWriteScanline 0 0, .TIFFWriteScanline 0 1] ∧
    ((write_tiff sim opt_wide ⟨sim_4x3 [] 0, []⟩ 8 1).2.trace.map Prod.fst).filter
        Call.is_scanline
      ≠ (List.range opt_wide.o_height.toNat).map (fun y : Nat =>
          Call.TIFFWriteScanline (y * row_length_spec opt_wide.o_width opt_wide.o_img_type) y) ∧
    bytes_read {} ((write_tiff sim opt_wide ⟨sim_4x3 [] 0, []⟩ 8 1).2.trace.map Prod.fst)
      = [(0, 65536), (0, 65536)] ∧
    calc_buf_size opt_wide.o_width opt_wide.o_height opt_wide.o_img_type = 131072 ∧
    tiles_from 0 (bytes_read {} ((write_tiff sim opt_wide ⟨sim_4x3 [] 0, []⟩ 8 1).2.trace.map
      Prod.fst)) (calc_buf_size opt_wide.o_width opt_wide.o_height opt_wide.o_img_type)
      = false := by
  decide

/-- For RGB24 `capture` passes 24 bits per sample and 3 samples per pixel, so
that a scanline of libtiff is `9 * width` bytes while the rows are `3 * width`
bytes apart: of the 4 x 3 frame each row write takes 36 bytes, from the offsets
0, 12 and 24 of a buffer of 36 bytes. -/
theorem write_tiff_rgb24_scanlines :
    (capture_setup sim ⟨sim_rgb, []⟩ opt_rgb).elim (fun _ => none)
      (fun r => some (r.1.size, r.1.bps, r.1.spp)) = some (36, 24, 3) ∧
    (main_capture sim opt_rgb TYPE_TIF 5 ⟨sim_rgb, []⟩).map
      (fun r => (r.1, bytes_read {} (r.2.trace.map Prod.fst)))
      = some (.success 0, [(0, 36), (12, 36), (24, 36)]) := by
  decide

end Asic
